import Mathlib

/-!
# Satellite simulation (`src/opencl/parallel.c`): embedding and verified properties

The C program moves `SATELLITE_COUNT` satellites around a black hole with an
explicit Euler integrator, colours every pixel of a `WINDOW_WIDTH x WINDOW_HEIGHT`
window from the satellites, and, in the frames with `frameNumber < 2`, compares
the parallel result with a sequential reference.

Conventions of the embedding:

* `float` and `double` values are elements of an ordered field `K`; the theorems
  instantiate `K` with `ℝ` and the C library `sqrt` with `Real.sqrt` (exact
  arithmetic, no rounding).  Conversions between `float`, `double` and `int`
  are therefore the identity / the canonical cast.
* C arrays of satellites are lists; pixel buffers are functions from the
  pixel index to a `color_u8`.
* `uint8_t` channels are natural numbers; the conversion `(uint8_t) f`
  truncates toward zero and keeps the low eight bits.
* `unsigned int` counters are natural numbers reduced modulo `2 ^ 32`.
* The C library generator is a parameter: `srand seed` is the state that
  `srand(seed)` sets, `rand g` the value `rand()` returns in state `g` and the
  next state; `RAND_MAX` is a parameter as well.
* OpenCL handles are optional object numbers (`none` is `NULL`); uploads to
  device regions and release calls are recorded in logs.
-/

namespace SatSim

/-! ## Constants (`#define`s and file-scope initialisers) -/

/-- Source: `#define WINDOW_HEIGHT 1024` -/
def WINDOW_HEIGHT : Nat := 1024

/-- Source: `#define WINDOW_WIDTH 1920` -/
def WINDOW_WIDTH : Nat := 1920

/-- Source: `#define SIZE WINDOW_WIDTH*WINDOW_HEIGHT` -/
def SIZE : Nat := WINDOW_WIDTH * WINDOW_HEIGHT

/-- Source: `#define SATELLITE_COUNT 64` -/
def SATELLITE_COUNT : Nat := 64

/-- Source: `#define SATELLITE_RADIUS 3.16f` -/
def SATELLITE_RADIUS (K : Type) [Field K] : K := 316 / 100

/-- Source: `#define GRAVITY 1.0f` -/
def GRAVITY (K : Type) [Field K] : K := 1

/-- Source: `#define DELTATIME 32` -/
def DELTATIME : Nat := 32

/-- Source: `#define PHYSICSUPDATESPERFRAME 100000` -/
def PHYSICSUPDATESPERFRAME : Nat := 100000

/-- Source: `#define BLACK_HOLE_RADIUS 4.5f` -/
def BLACK_HOLE_RADIUS (K : Type) [Field K] : K := 45 / 10

/-- Source: `#define HORIZONTAL_CENTER (WINDOW_WIDTH / 2)` -/
def HORIZONTAL_CENTER : Nat := WINDOW_WIDTH / 2

/-- Source: `#define VERTICAL_CENTER (WINDOW_HEIGHT / 2)` -/
def VERTICAL_CENTER : Nat := WINDOW_HEIGHT / 2

/-- Source: `static size_t OCL_wgSizeX = 32;` -/
def OCL_wgSizeX : Nat := 32

/-- Source: `static size_t OCL_wgSizeY = 32;` -/
def OCL_wgSizeY : Nat := 32

/-- Source: `#define ALLOWED_ERROR 10` -/
def ALLOWED_ERROR : Int := 10

/-- Source: `#define ALLOWED_NUMBER_OF_ERRORS 10` -/
def ALLOWED_NUMBER_OF_ERRORS : Nat := 10

/-! ## Data model -/

/-- Source: `typedef struct { float x; float y; } floatvector;` -/
structure floatvector (K : Type) where
  x : K
  y : K
deriving DecidableEq

/-- Source: `typedef struct { double x; double y; } doublevector;` -/
structure doublevector (K : Type) where
  x : K
  y : K
deriving DecidableEq

/-- Source: `typedef struct { float blue; float green; float red; } color_f32;` -/
structure color_f32 (K : Type) where
  blue : K
  green : K
  red : K
deriving DecidableEq

/-- Source: `typedef struct { uint8_t blue, green, red, reserved; } color_u8;` -/
structure color_u8 where
  blue : Nat
  green : Nat
  red : Nat
  reserved : Nat
deriving DecidableEq

/-- Source: `typedef struct { color_f32 identifier; floatvector position; floatvector velocity; } satellite;` -/
structure satellite (K : Type) where
  identifier : color_f32 K
  position : floatvector K
  velocity : floatvector K
deriving DecidableEq

/-! ## Physics engines -/

section Physics

variable {K : Type} [Field K]

/-- The four `double` registers `x, y, vx, vy` of one iteration of the
satellite loop of `parallelPhysicsEngine`. -/
structure Regs (K : Type) where
  x : K
  y : K
  vx : K
  vy : K
deriving DecidableEq

/-- Copy in (`float -> double`): `tmpPosition[i]`, `tmpVelocity[i]`. -/
def copyIn (s : satellite K) : doublevector K × doublevector K :=
  (⟨s.position.x, s.position.y⟩, ⟨s.velocity.x, s.velocity.y⟩)

/-- Copy back into `float` storage; the identifier is not touched. -/
def copyBack (s : satellite K) (t : doublevector K × doublevector K) : satellite K :=
  { s with position := ⟨t.1.x, t.1.y⟩, velocity := ⟨t.2.x, t.2.y⟩ }

/-- Body of the `physicsUpdateIndex` loop of `parallelPhysicsEngine`. -/
def parallelSubStep (sqrt : K → K) (tmpMousePosX tmpMousePosY : Int) (r : Regs K) : Regs K :=
  let dt : K := (DELTATIME : K) / (PHYSICSUPDATESPERFRAME : K)
  let dx := r.x - (tmpMousePosX : K)
  let dy := r.y - (tmpMousePosY : K)
  let d2 := dx * dx + dy * dy
  let invd := 1 / sqrt d2
  let invd2 := invd * invd
  let ax := (GRAVITY K * dx) * (invd * invd2)
  let ay := (GRAVITY K * dy) * (invd * invd2)
  let vx := r.vx - ax * dt
  let vy := r.vy - ay * dt
  { x := r.x + vx * dt, y := r.y + vy * dt, vx := vx, vy := vy }

/-- One iteration of the outer (per satellite) loop of `parallelPhysicsEngine`:
load the registers, run `n` sub-steps, write back once. -/
def parallelBody (sqrt : K → K) (n : Nat) (tmpMousePosX tmpMousePosY : Int)
    (t : doublevector K × doublevector K) : doublevector K × doublevector K :=
  let r := (parallelSubStep sqrt tmpMousePosX tmpMousePosY)^[n] ⟨t.1.x, t.1.y, t.2.x, t.2.y⟩
  (⟨r.x, r.y⟩, ⟨r.vx, r.vy⟩)

/-- Source: `parallelPhysicsEngine` with the number of sub-steps as a parameter. -/
def parallelPhysicsEngineN (sqrt : K → K) (n : Nat) (mousePosX mousePosY : Int)
    (satellites : List (satellite K)) : List (satellite K) :=
  let tmp := satellites.map copyIn
  let tmp1 := tmp.map (parallelBody sqrt n mousePosX mousePosY)
  List.zipWith copyBack satellites tmp1

/-- Source: `void parallelPhysicsEngine(void)` on the globals `mousePosX`, `mousePosY`, `satellites`. -/
def parallelPhysicsEngine (sqrt : K → K) (mousePosX mousePosY : Int)
    (satellites : List (satellite K)) : List (satellite K) :=
  parallelPhysicsEngineN sqrt PHYSICSUPDATESPERFRAME mousePosX mousePosY satellites

/-- Body of the inner (per satellite) loop of `sequentialPhysicsEngine`. -/
def sequentialSubStep (sqrt : K → K) (t : doublevector K × doublevector K) :
    doublevector K × doublevector K :=
  let positionToBlackHole : doublevector K :=
    ⟨t.1.x - (HORIZONTAL_CENTER : K), t.1.y - (VERTICAL_CENTER : K)⟩
  let distToBlackHoleSquared :=
    positionToBlackHole.x * positionToBlackHole.x + positionToBlackHole.y * positionToBlackHole.y
  let distToBlackHole := sqrt distToBlackHoleSquared
  let normalizedDirection : doublevector K :=
    ⟨positionToBlackHole.x / distToBlackHole, positionToBlackHole.y / distToBlackHole⟩
  let accumulation := GRAVITY K / distToBlackHoleSquared
  let vx := t.2.x - accumulation * normalizedDirection.x * (DELTATIME : K) / (PHYSICSUPDATESPERFRAME : K)
  let vy := t.2.y - accumulation * normalizedDirection.y * (DELTATIME : K) / (PHYSICSUPDATESPERFRAME : K)
  let px := t.1.x + vx * (DELTATIME : K) / (PHYSICSUPDATESPERFRAME : K)
  let py := t.1.y + vy * (DELTATIME : K) / (PHYSICSUPDATESPERFRAME : K)
  (⟨px, py⟩, ⟨vx, vy⟩)

/-- Source: `sequentialPhysicsEngine` with the number of sub-steps as a parameter:
the outer loop runs over the sub-steps, the inner loop over the satellites. -/
def sequentialPhysicsEngineN (sqrt : K → K) (n : Nat) (s : List (satellite K)) :
    List (satellite K) :=
  let tmp := s.map copyIn
  let tmp1 := (List.map (sequentialSubStep sqrt))^[n] tmp
  List.zipWith copyBack s tmp1

/-- Source: `void sequentialPhysicsEngine(satellite *s)`. -/
def sequentialPhysicsEngine (sqrt : K → K) (s : List (satellite K)) : List (satellite K) :=
  sequentialPhysicsEngineN sqrt PHYSICSUPDATESPERFRAME s

/-- Registers of a satellite as loaded by `parallelPhysicsEngine`. -/
def loadRegs (s : satellite K) : Regs K :=
  ⟨s.position.x, s.position.y, s.velocity.x, s.velocity.y⟩

/-- Squared distance of the registers' position to the pointer `(mx, my)`. -/
def distSq (mx my : Int) (r : Regs K) : K :=
  (r.x - (mx : K)) * (r.x - (mx : K)) + (r.y - (my : K)) * (r.y - (my : K))

/-- The satellite is at non-zero distance from the pointer at the start of each
of the first `n` sub-steps of `parallelPhysicsEngine`. -/
def staysAway (sqrt : K → K) (mx my : Int) (n : Nat) (s : satellite K) : Prop :=
  ∀ k, k < n → distSq mx my ((parallelSubStep sqrt mx my)^[k] (loadRegs s)) ≠ 0

/-- Registers packed as the pair `(tmpPosition[i], tmpVelocity[i])`. -/
def packRegs (r : Regs K) : doublevector K × doublevector K :=
  (⟨r.x, r.y⟩, ⟨r.vx, r.vy⟩)

/-- The pair `(tmpPosition[i], tmpVelocity[i])` read as four registers. -/
def unpackRegs (t : doublevector K × doublevector K) : Regs K :=
  ⟨t.1.x, t.1.y, t.2.x, t.2.y⟩

/-- The values of `ax` and `ay` in one iteration of the `physicsUpdateIndex`
loop of `parallelPhysicsEngine`. -/
def parallelAcceleration (sqrt : K → K) (tmpMousePosX tmpMousePosY : Int) (r : Regs K) : K × K :=
  let dx := r.x - (tmpMousePosX : K)
  let dy := r.y - (tmpMousePosY : K)
  let d2 := dx * dx + dy * dy
  let invd := 1 / sqrt d2
  let invd2 := invd * invd
  let ax := (GRAVITY K * dx) * (invd * invd2)
  let ay := (GRAVITY K * dy) * (invd * invd2)
  (ax, ay)

/-- Angular momentum (per unit mass) about the pointer `(mx, my)`:
`(x - mx) * vy - (y - my) * vx`. -/
def angularMomentum (mx my : Int) (r : Regs K) : K :=
  (r.x - (mx : K)) * r.vy - (r.y - (my : K)) * r.vx

end Physics

/-! ## Error check -/

/-- The condition of the `if` in the loop of `errorCheck`: some colour channel of
`correctPixels[i]` and `pixels[i]` differs by more than `ALLOWED_ERROR`
(the operands are promoted to `int` before the subtraction). -/
def pixelMismatch (c p : color_u8) : Bool :=
  decide (|(c.red : Int) - (p.red : Int)| > ALLOWED_ERROR) ||
  decide (|(c.green : Int) - (p.green : Int)| > ALLOWED_ERROR) ||
  decide (|(c.blue : Int) - (p.blue : Int)| > ALLOWED_ERROR)

/-- What `errorCheck` leaves behind: the value of `countErrors`, whether the
final "Error check passed" line was reached (`false`: the early `return` after
"Too many errors"), and the value of the loop index `i` when the function
returned. -/
structure ErrorCheckResult where
  countErrors : Nat
  passed : Bool
  lastIndex : Nat
deriving DecidableEq, Repr

/-- The loop of `errorCheck` with `rem` iterations left, at index `i`. -/
def errorCheckLoop (correctPixels pixels : Nat → color_u8) :
    Nat → Nat → Nat → ErrorCheckResult
  | 0, i, countErrors => ⟨countErrors, true, i⟩
  | rem + 1, i, countErrors =>
    if pixelMismatch (correctPixels i) (pixels i) then
      if countErrors + 1 > ALLOWED_NUMBER_OF_ERRORS then
        ⟨countErrors + 1, false, i⟩
      else
        errorCheckLoop correctPixels pixels rem (i + 1) (countErrors + 1)
    else
      errorCheckLoop correctPixels pixels rem (i + 1) countErrors

/-- Source: `errorCheck` on buffers of `size` pixels. -/
def errorCheckN (size : Nat) (correctPixels pixels : Nat → color_u8) : ErrorCheckResult :=
  errorCheckLoop correctPixels pixels size 0 0

/-- Source: `void errorCheck()` on the globals `correctPixels` and `pixels`. -/
def errorCheck (correctPixels pixels : Nat → color_u8) : ErrorCheckResult :=
  errorCheckN SIZE correctPixels pixels

/-- Number of mismatching pixels among the first `n` pixels. -/
def badPixels (correctPixels pixels : Nat → color_u8) (n : Nat) : Nat :=
  (List.range n).countP (fun i => pixelMismatch (correctPixels i) (pixels i))

/-! ## Launch geometry -/

/-- Global work size along one axis, `(dim + wg - 1) / wg * wg`
(the expression for `g0` and `g1` in `parallelGraphicsEngine`). -/
def globalSize (dim wg : Nat) : Nat := (dim + wg - 1) / wg * wg

/-- The array `global` of `parallelGraphicsEngine`. -/
def launchGlobal : Nat × Nat :=
  (globalSize WINDOW_WIDTH OCL_wgSizeX, globalSize WINDOW_HEIGHT OCL_wgSizeY)

/-- The work-item indices of a two-dimensional range `g0 x g1`. -/
def gridIndices (g0 g1 : Nat) : List (Nat × Nat) :=
  (List.range g0).flatMap (fun gx => (List.range g1).map (fun gy => (gx, gy)))

/-! ## Colour field -/

section Graphics

variable {K : Type} [LinearOrderedField K] [FloorRing K]

/-- The conversion `(uint8_t) f` of a floating-point value: the fractional part
is discarded (truncation toward zero) and the low eight bits are kept. -/
def toUInt8 (f : K) : Nat := ((if 0 ≤ f then ⌊f⌋ else ⌈f⌉) % 256).toNat

/-- Row-wise ordering: `pixel = {.x = i % WINDOW_WIDTH, .y = i / WINDOW_WIDTH}`. -/
def pixelOf (i : Nat) : floatvector K :=
  ⟨((i % WINDOW_WIDTH : Nat) : K), ((i / WINDOW_WIDTH : Nat) : K)⟩

/-- The black hole test of `sequentialGraphicsEngine`:
`distToBlackHole < BLACK_HOLE_RADIUS`. -/
def insideBlackHole (sqrt : K → K) (pixel : floatvector K) : Bool :=
  let positionToBlackHole : floatvector K :=
    ⟨pixel.x - (HORIZONTAL_CENTER : K), pixel.y - (VERTICAL_CENTER : K)⟩
  let distToBlackHoleSquared :=
    positionToBlackHole.x * positionToBlackHole.x + positionToBlackHole.y * positionToBlackHole.y
  let distToBlackHole := sqrt distToBlackHoleSquared
  decide (distToBlackHole < BLACK_HOLE_RADIUS K)

/-- The comparison `d < shortest` against a running minimum that starts at
`INFINITY` (`none`): every finite value is below `INFINITY`. -/
def ltShortest (d : K) : Option K → Bool
  | none => true
  | some shortest => decide (d < shortest)

/-- Local variables of the pixel loop of `sequentialGraphicsEngine`;
`shortestDistance = none` stands for the initial `INFINITY`. -/
structure ShadeState (K : Type) where
  renderColor : color_f32 K
  shortestDistance : Option K
  weights : K
  hitsSatellite : Bool

/-- First satellite loop of `sequentialGraphicsEngine` (find the closest
satellite), over the satellites not yet visited; a hit leaves the loop. -/
def firstLoop (sqrt : K → K) (pixel : floatvector K) :
    List (satellite K) → ShadeState K → ShadeState K
  | [], st => st
  | s :: rest, st =>
    let difference : floatvector K := ⟨pixel.x - s.position.x, pixel.y - s.position.y⟩
    let distance := sqrt (difference.x * difference.x + difference.y * difference.y)
    if distance < SATELLITE_RADIUS K then
      { st with renderColor := ⟨1, 1, 1⟩, hitsSatellite := true }
    else
      let weight := 1 / (distance * distance * distance * distance)
      let weights := st.weights + weight
      if ltShortest distance st.shortestDistance then
        firstLoop sqrt pixel rest
          { st with weights := weights, shortestDistance := some distance,
                    renderColor := s.identifier }
      else
        firstLoop sqrt pixel rest { st with weights := weights }

/-- Second satellite loop of `sequentialGraphicsEngine`: add every satellite's
weighted colour to `renderColor`. -/
def secondLoop (pixel : floatvector K) (weights : K) :
    List (satellite K) → color_f32 K → color_f32 K
  | [], renderColor => renderColor
  | s :: rest, renderColor =>
    let difference : floatvector K := ⟨pixel.x - s.position.x, pixel.y - s.position.y⟩
    let dist2 := difference.x * difference.x + difference.y * difference.y
    let weight := 1 / (dist2 * dist2)
    secondLoop pixel weights rest
      { blue := renderColor.blue + (s.identifier.blue * weight / weights) * 3,
        green := renderColor.green + (s.identifier.green * weight / weights) * 3,
        red := renderColor.red + (s.identifier.red * weight / weights) * 3 }

/-- The value of `renderColor` when `sequentialGraphicsEngine` converts it to
eight bits, for a pixel that is not inside the black hole. -/
def renderColorAt (sqrt : K → K) (satellites : List (satellite K)) (pixel : floatvector K) :
    color_f32 K :=
  let st := firstLoop sqrt pixel satellites ⟨⟨0, 0, 0⟩, none, 0, false⟩
  if st.hitsSatellite then st.renderColor
  else secondLoop pixel st.weights satellites st.renderColor

/-- One iteration of the pixel loop of `sequentialGraphicsEngine`: the new value
of `correctPixels[i]` (the reserved channel is never written). -/
def sequentialPixel (sqrt : K → K) (satellites : List (satellite K)) (old : color_u8)
    (i : Nat) : color_u8 :=
  let pixel : floatvector K := pixelOf i
  if insideBlackHole sqrt pixel then
    { old with red := 0, green := 0, blue := 0 }
  else
    let renderColor := renderColorAt sqrt satellites pixel
    { old with red := toUInt8 (renderColor.red * 255),
               green := toUInt8 (renderColor.green * 255),
               blue := toUInt8 (renderColor.blue * 255) }

/-- Source: `void sequentialGraphicsEngine()`: reads the global `satellites`, rewrites
`correctPixels[i]` for every `i < SIZE`; the iterations are independent. -/
def sequentialGraphicsEngine (sqrt : K → K) (satellites : List (satellite K))
    (correctPixels : Nat → color_u8) : Nat → color_u8 :=
  fun i => if i < SIZE then sequentialPixel sqrt satellites (correctPixels i) i
    else correctPixels i

/-- Local variables of the satellite loop of the single-pass CPU version of
`parallelGraphicsEngine` (the block kept in the source as disabled code);
`shortestD2 = none` stands for the initial `INFINITY`. -/
structure SinglePassState (K : Type) where
  sumR : K
  sumG : K
  sumB : K
  weights : K
  shortestD2 : Option K
  nearestID : color_f32 K
  hitsSatellite : Bool

/-- Single-pass satellite loop of the disabled CPU version of
`parallelGraphicsEngine`. -/
def singlePassLoop (px py : K) : List (satellite K) → SinglePassState K → SinglePassState K
  | [], st => st
  | s :: rest, st =>
    let dx := px - s.position.x
    let dy := py - s.position.y
    let d2 := dx * dx + dy * dy
    if d2 < SATELLITE_RADIUS K * SATELLITE_RADIUS K then
      { st with hitsSatellite := true }
    else
      let w := 1 / (d2 * d2)
      let st1 : SinglePassState K :=
        { st with weights := st.weights + w,
                  sumR := st.sumR + s.identifier.red * w,
                  sumG := st.sumG + s.identifier.green * w,
                  sumB := st.sumB + s.identifier.blue * w }
      if ltShortest d2 st.shortestD2 then
        singlePassLoop px py rest { st1 with shortestD2 := some d2, nearestID := s.identifier }
      else
        singlePassLoop px py rest st1

/-- The colour `(r, g, b)` of the single-pass version before the conversion to
eight bits, for a pixel that neither lies in the black hole nor hits a satellite. -/
def singlePassColor (satellites : List (satellite K)) (px py : K) : color_f32 K :=
  let st := singlePassLoop px py satellites ⟨0, 0, 0, 0, none, ⟨0, 0, 0⟩, false⟩
  let invW := 1 / st.weights
  { red := st.nearestID.red + 3 * (st.sumR * invW),
    green := st.nearestID.green + 3 * (st.sumG * invW),
    blue := st.nearestID.blue + 3 * (st.sumB * invW) }

/-- One pixel of the disabled CPU version of `parallelGraphicsEngine`: the new
value of `pixels[idx]` for the pixel `(x, y)`. -/
def singlePassPixel (tmpMousePosX tmpMousePosY : Int) (satellites : List (satellite K))
    (old : color_u8) (x y : Nat) : color_u8 :=
  let px : K := (x : K)
  let py : K := (y : K)
  let dxBH := px - (tmpMousePosX : K)
  let dyBH := py - (tmpMousePosY : K)
  let d2BH := dxBH * dxBH + dyBH * dyBH
  if d2BH < BLACK_HOLE_RADIUS K * BLACK_HOLE_RADIUS K then
    { old with red := 0, green := 0, blue := 0 }
  else
    let st := singlePassLoop px py satellites ⟨0, 0, 0, 0, none, ⟨0, 0, 0⟩, false⟩
    if st.hitsSatellite then
      { old with red := 255, green := 255, blue := 255 }
    else
      let c := singlePassColor satellites px py
      { old with red := toUInt8 (c.red * 255),
                 green := toUInt8 (c.green * 255),
                 blue := toUInt8 (c.blue * 255) }

/-- Distance from the pixel to a satellite. -/
def distTo (sqrt : K → K) (pixel : floatvector K) (s : satellite K) : K :=
  sqrt ((pixel.x - s.position.x) * (pixel.x - s.position.x)
    + (pixel.y - s.position.y) * (pixel.y - s.position.y))

/-- The weight of the blend formula, `w_j = 1 / distance_j ^ 4`. -/
def blendWeight (sqrt : K → K) (pixel : floatvector K) (s : satellite K) : K :=
  1 / (distTo sqrt pixel s) ^ 4

/-- The blend formula, per channel:
`nearest + 3 * (sum_j w_j * colour_j) / (sum_j w_j)`. -/
def blendFormula (sqrt : K → K) (pixel : floatvector K) (satellites : List (satellite K))
    (nearest : color_f32 K) : color_f32 K :=
  let wsum := (satellites.map (blendWeight sqrt pixel)).sum
  { blue := nearest.blue
      + 3 * (satellites.map (fun s => blendWeight sqrt pixel s * s.identifier.blue)).sum / wsum,
    green := nearest.green
      + 3 * (satellites.map (fun s => blendWeight sqrt pixel s * s.identifier.green)).sum / wsum,
    red := nearest.red
      + 3 * (satellites.map (fun s => blendWeight sqrt pixel s * s.identifier.red)).sum / wsum }

/-- Squared distance from the pixel to a satellite. -/
def dist2To (pixel : floatvector K) (s : satellite K) : K :=
  (pixel.x - s.position.x) * (pixel.x - s.position.x)
    + (pixel.y - s.position.y) * (pixel.y - s.position.y)

/-- Loop invariant shared by `firstLoop` and `singlePassLoop` after the
satellites `pre` have been visited without a hit: the accumulated sums and the
nearest satellite so far (strictly closer than every earlier satellite, at
least as close as every later one). -/
structure JointInv (sqrt : K → K) (pixel : floatvector K) (pre : List (satellite K))
    (st : ShadeState K) (sp : SinglePassState K) : Prop where
  hit1 : st.hitsSatellite = false
  hit2 : sp.hitsSatellite = false
  w1 : st.weights = (pre.map (blendWeight sqrt pixel)).sum
  w2 : sp.weights = (pre.map (blendWeight sqrt pixel)).sum
  sR : sp.sumR = (pre.map (fun s => blendWeight sqrt pixel s * s.identifier.red)).sum
  sG : sp.sumG = (pre.map (fun s => blendWeight sqrt pixel s * s.identifier.green)).sum
  sB : sp.sumB = (pre.map (fun s => blendWeight sqrt pixel s * s.identifier.blue)).sum
  near : (pre = [] ∧ st.shortestDistance = none ∧ sp.shortestD2 = none
            ∧ st.renderColor = ⟨0, 0, 0⟩ ∧ sp.nearestID = ⟨0, 0, 0⟩)
        ∨ ∃ a s b, pre = a ++ s :: b
            ∧ (∀ t ∈ a, distTo sqrt pixel s < distTo sqrt pixel t)
            ∧ (∀ t ∈ b, distTo sqrt pixel s ≤ distTo sqrt pixel t)
            ∧ st.shortestDistance = some (distTo sqrt pixel s)
            ∧ sp.shortestD2 = some (dist2To pixel s)
            ∧ st.renderColor = s.identifier ∧ sp.nearestID = s.identifier

end Graphics

/-! ## Device regions, dispatch and the frame loop -/

/-- The six device memory regions (`cl_mem` handles). -/
inductive Region
  | bufPixels
  | bufPosX
  | bufPosY
  | bufIdR
  | bufIdG
  | bufIdB
deriving DecidableEq, Repr

/-- Contents of the six device regions, and the log of the host-to-device
uploads (`clEnqueueWriteBuffer` calls) in the order they were issued. -/
structure Device (K : Type) where
  bufPixels : Nat → color_u8
  bufPosX : List K
  bufPosY : List K
  bufIdR : List K
  bufIdG : List K
  bufIdB : List K
  uploads : List Region

/-- The thirteen kernel arguments set by `parallelGraphicsEngine`, in order;
the first one, the pixel region, is the output of the kernel. -/
structure KernelArgs (K : Type) where
  posX : List K
  posY : List K
  idR : List K
  idG : List K
  idB : List K
  satCount : Int
  width : Int
  height : Int
  bh_r2 : K
  sat_r2 : K
  mx : Int
  my : Int

/-- The device program `shade` of `parallel.cl`, as a function from its
arguments, the global and local work sizes and the previous contents of the
pixel region to the new contents of the pixel region.  The program text is not
part of `parallel.c`; the engines take it as a parameter. -/
abbrev Kernel (K : Type) : Type :=
  KernelArgs K → Nat × Nat → Nat × Nat → (Nat → color_u8) → (Nat → color_u8)

/-- Calls made by `compute` that the properties below observe. -/
inductive Call
  | sequentialPhysicsEngine
  | parallelPhysicsEngine (mousePosX mousePosY : Int)
  | parallelGraphicsEngine (mx my : Int)
  | sequentialGraphicsEngine
  | errorCheck
deriving DecidableEq, Repr

/-- The process-wide state read and written by `compute` and `render`. -/
structure World (K : Type) where
  frameNumber : Nat
  mousePosX : Int
  mousePosY : Int
  satellites : List (satellite K)
  backupSatelites : List (satellite K)
  pixels : Nat → color_u8
  correctPixels : Nat → color_u8
  dev : Device K

section Frame

variable {K : Type} [LinearOrderedField K] [FloorRing K]

/-- The buffer part of `init()`: the six regions have just been created
(contents `created`, nothing uploaded yet) and the identifier colours of the
satellites are uploaded once, with three blocking writes.  Device selection is
`OCL_pickDevice`; failures of the OpenCL calls are fatal (`CL_CHECK`). -/
def init (satellites : List (satellite K)) (created : Device K) : Device K :=
  let OCL_hostIdR := satellites.map (fun s => s.identifier.red)
  let OCL_hostIdG := satellites.map (fun s => s.identifier.green)
  let OCL_hostIdB := satellites.map (fun s => s.identifier.blue)
  { created with
    bufIdR := OCL_hostIdR, bufIdG := OCL_hostIdG, bufIdB := OCL_hostIdB,
    uploads := [Region.bufIdR, Region.bufIdG, Region.bufIdB] }

/-- Source: `void parallelGraphicsEngine(void)` (the OpenCL version): stage the
positions, set the kernel arguments, launch `shade` over the padded grid, and
read the pixel region back into `pixels`. -/
def parallelGraphicsEngine (shade : Kernel K) (mousePosX mousePosY : Int)
    (satellites : List (satellite K)) (dev : Device K) (pixels : Nat → color_u8) :
    Device K × (Nat → color_u8) :=
  let OCL_hostPosX := satellites.map (fun s => s.position.x)
  let OCL_hostPosY := satellites.map (fun s => s.position.y)
  let dev1 : Device K :=
    { dev with bufPosX := OCL_hostPosX, bufPosY := OCL_hostPosY,
               uploads := dev.uploads ++ [Region.bufPosX, Region.bufPosY] }
  let args : KernelArgs K :=
    { posX := dev1.bufPosX, posY := dev1.bufPosY,
      idR := dev1.bufIdR, idG := dev1.bufIdG, idB := dev1.bufIdB,
      satCount := (SATELLITE_COUNT : Int), width := (WINDOW_WIDTH : Int),
      height := (WINDOW_HEIGHT : Int),
      bh_r2 := BLACK_HOLE_RADIUS K * BLACK_HOLE_RADIUS K,
      sat_r2 := SATELLITE_RADIUS K * SATELLITE_RADIUS K,
      mx := mousePosX, my := mousePosY }
  let out := shade args launchGlobal (OCL_wgSizeX, OCL_wgSizeY) dev1.bufPixels
  ({ dev1 with bufPixels := out }, fun i => if i < SIZE then out i else pixels i)

/-- What one call of `compute` reports: the calls it made, in order, the
indices for which it printed "Incorrect satellite data", and the result of
`errorCheck` when it ran. -/
structure FrameReport where
  calls : List Call
  incorrect : List Nat
  check : Option ErrorCheckResult

/-- Source: `void compute(void)`; `mouseState` is what `SDL_GetMouseState` would return
in this frame.  The timing statistics are not modelled. -/
def compute (sqrt : K → K) (shade : Kernel K) (mouseState : Int × Int) (w : World K) :
    World K × FrameReport :=
  let validate : Bool := decide (w.frameNumber < 2)
  -- Error check during first frames
  let w1 : World K :=
    if validate then
      { w with backupSatelites := sequentialPhysicsEngine sqrt w.satellites,
               mousePosX := (HORIZONTAL_CENTER : Int), mousePosY := (VERTICAL_CENTER : Int) }
    else if mouseState.1 = 0 ∧ mouseState.2 = 0 then
      { w with mousePosX := (HORIZONTAL_CENTER : Int), mousePosY := (VERTICAL_CENTER : Int) }
    else
      { w with mousePosX := mouseState.1, mousePosY := mouseState.2 }
  let calls1 : List Call := if validate then [Call.sequentialPhysicsEngine] else []
  let w2 : World K :=
    { w1 with satellites := parallelPhysicsEngine sqrt w1.mousePosX w1.mousePosY w1.satellites }
  let calls2 := calls1 ++ [Call.parallelPhysicsEngine w1.mousePosX w1.mousePosY]
  let incorrect : List Nat :=
    if validate then
      (List.range SATELLITE_COUNT).filter
        (fun i => decide (w2.satellites.get? i ≠ w2.backupSatelites.get? i))
    else []
  -- Decides the colors for the pixels
  let drawn := parallelGraphicsEngine shade w2.mousePosX w2.mousePosY w2.satellites w2.dev w2.pixels
  let w3 : World K := { w2 with dev := drawn.1, pixels := drawn.2 }
  let calls3 := calls2 ++ [Call.parallelGraphicsEngine w2.mousePosX w2.mousePosY]
  -- Sequential code is used to check possible errors in the parallel version
  if validate then
    let w4 : World K :=
      { w3 with correctPixels := sequentialGraphicsEngine sqrt w3.satellites w3.correctPixels }
    (w4, { calls := calls3 ++ [Call.sequentialGraphicsEngine, Call.errorCheck],
           incorrect := incorrect,
           check := some (errorCheck w4.correctPixels w4.pixels) })
  else
    (w3, { calls := calls3, incorrect := incorrect, check := none })

/-- Source: `void render(void)`: shows `pixels` and increments the `unsigned int`
counter `frameNumber`. -/
def render (w : World K) : World K :=
  { w with frameNumber := (w.frameNumber + 1) % 2 ^ 32 }

/-- One iteration of the main loop: `compute(); render();`. -/
def frame (sqrt : K → K) (shade : Kernel K) (mouseState : Int × Int) (w : World K) : World K :=
  render (compute sqrt shade mouseState w).1

/-- The main loop over the given sequence of mouse states, one per frame. -/
def runFrames (sqrt : K → K) (shade : Kernel K) : List (Int × Int) → World K → World K
  | [], w => w
  | m :: ms, w => runFrames sqrt shade ms (frame sqrt shade m w)

/-- The state when the main loop starts: `fixedInit` has filled `satellites`,
`init` has created the regions and uploaded the colours, `frameNumber` is 0;
everything else is as in `created`. -/
def boot (satellites : List (satellite K)) (created : World K) : World K :=
  { created with frameNumber := 0, satellites := satellites,
                 dev := init satellites created.dev }

end Frame

/-! ## Device selection -/

/-- An OpenCL platform as `OCL_pickDevice` sees it: the vendor string read
into `vendor[256]`, and the device that `clGetDeviceIDs` returns for
`CL_DEVICE_TYPE_GPU` (`none` when the call does not succeed). -/
structure Platform (D : Type) where
  vendor : String
  gpu : Option D
deriving DecidableEq, Repr

/-- The two ways `OCL_pickDevice` exits the process. -/
inductive PickError
  | noPlatforms
  | noDevice
deriving DecidableEq, Repr

/-- Whether the needle starts at the head of the text. -/
def startsWith : List Char → List Char → Bool
  | _, [] => true
  | [], _ :: _ => false
  | h :: hs, n :: ns => h == n && startsWith hs ns

/-- Source: `strstr(haystack, needle) != NULL`. -/
def strstr : List Char → List Char → Bool
  | [], needle => startsWith [] needle
  | h :: hs, needle => startsWith (h :: hs) needle || strstr hs needle

/-- The vendor test of pass 1 (discrete GPU). -/
def isDiscreteVendor (vendor : String) : Bool :=
  strstr vendor.data "NVIDIA".data || strstr vendor.data "AMD".data
    || strstr vendor.data "Advanced Micro Devices".data

/-- The vendor test of pass 2 (integrated GPU). -/
def isIntegratedVendor (vendor : String) : Bool :=
  strstr vendor.data "Intel".data

/-- A pass of `OCL_pickDevice` over `plats[p], plats[p+1], ...`: the first
platform whose vendor passes the test and that has a GPU, with its index. -/
def pickPass {D : Type} (test : String → Bool) : List (Platform D) → Nat → Option (Nat × D)
  | [], _ => none
  | plat :: rest, p =>
    if test plat.vendor then
      match plat.gpu with
      | some dev => some (p, dev)
      | none => pickPass test rest (p + 1)
    else pickPass test rest (p + 1)

/-- Source: `static void OCL_pickDevice(void)` on the platforms the system reports:
the index of the chosen platform in `plats` and the chosen device. -/
def OCL_pickDevice {D : Type} (reported : List (Platform D)) : Except PickError (Nat × D) :=
  if reported.length = 0 then Except.error PickError.noPlatforms
  else
    let nplat := if reported.length > 4 then 4 else reported.length
    let plats := reported.take nplat
    match pickPass isDiscreteVendor plats 0 with
    | some r => Except.ok r
    | none =>
      match pickPass isIntegratedVendor plats 0 with
      | some r => Except.ok r
      | none => Except.error PickError.noDevice

/-! ## The frame computation with the integrators as parameters -/

section FrameWith

variable {K : Type} [LinearOrderedField K] [FloorRing K]

/-- The function `compute` with the call of `parallelPhysicsEngine` replaced by
a call of `physics` (given the pointer and the satellites, it returns the
updated satellites) and the call of `sequentialPhysicsEngine` on the copy
replaced by a call of `reference`; everything else is as in `compute`. -/
def computeWith (physics : Int → Int → List (satellite K) → List (satellite K))
    (reference : List (satellite K) → List (satellite K))
    (sqrt : K → K) (shade : Kernel K) (mouseState : Int × Int) (w : World K) :
    World K × FrameReport :=
  let validate : Bool := decide (w.frameNumber < 2)
  let w1 : World K :=
    if validate then
      { w with backupSatelites := reference w.satellites,
               mousePosX := (HORIZONTAL_CENTER : Int), mousePosY := (VERTICAL_CENTER : Int) }
    else if mouseState.1 = 0 ∧ mouseState.2 = 0 then
      { w with mousePosX := (HORIZONTAL_CENTER : Int), mousePosY := (VERTICAL_CENTER : Int) }
    else
      { w with mousePosX := mouseState.1, mousePosY := mouseState.2 }
  let calls1 : List Call := if validate then [Call.sequentialPhysicsEngine] else []
  let w2 : World K :=
    { w1 with satellites := physics w1.mousePosX w1.mousePosY w1.satellites }
  let calls2 := calls1 ++ [Call.parallelPhysicsEngine w1.mousePosX w1.mousePosY]
  let incorrect : List Nat :=
    if validate then
      (List.range SATELLITE_COUNT).filter
        (fun i => decide (w2.satellites.get? i ≠ w2.backupSatelites.get? i))
    else []
  let drawn := parallelGraphicsEngine shade w2.mousePosX w2.mousePosY w2.satellites w2.dev w2.pixels
  let w3 : World K := { w2 with dev := drawn.1, pixels := drawn.2 }
  let calls3 := calls2 ++ [Call.parallelGraphicsEngine w2.mousePosX w2.mousePosY]
  if validate then
    let w4 : World K :=
      { w3 with correctPixels := sequentialGraphicsEngine sqrt w3.satellites w3.correctPixels }
    (w4, { calls := calls3 ++ [Call.sequentialGraphicsEngine, Call.errorCheck],
           incorrect := incorrect,
           check := some (errorCheck w4.correctPixels w4.pixels) })
  else
    (w3, { calls := calls3, incorrect := incorrect, check := none })

end FrameWith

/-! ## Start-up -/

section Startup

variable {K : Type} [Field K] {G : Type}

/-- Source: `float randomNumber(float min, float max)`, where `r` is the value
returned by its call of `rand()`. -/
def randomNumber (RAND_MAX : Nat) (r : Nat) (min max : K) : K :=
  ((r : K) * (max - min) / (RAND_MAX : K)) + min

/-- Body of the satellite loop of `fixedInit` for the index `i`, starting with
the generator in state `g`: the satellite and the state of the generator after
the six calls of `rand()`, taken in the order in which the calls are written
(red, green, blue, x, y, velocity). -/
def initSatellite (sqrt : K → K) (RAND_MAX : Nat) (rand : G → Nat × G) (i : Nat) (g : G) :
    satellite K × G :=
  let d1 := rand g
  let d2 := rand d1.2
  let d3 := rand d2.2
  -- Random reddish color
  let id : color_f32 K :=
    { red := randomNumber RAND_MAX d1.1 0 (15 / 100) + 1 / 10,
      green := randomNumber RAND_MAX d2.1 0 (14 / 100) + 0,
      blue := randomNumber RAND_MAX d3.1 0 (16 / 100) + 0 }
  let d4 := rand d3.2
  let d5 := rand d4.2
  -- Random position with margins to borders
  let initialPosition0 : floatvector K :=
    ⟨(HORIZONTAL_CENTER : K) - randomNumber RAND_MAX d4.1 50 320,
     (VERTICAL_CENTER : K) - randomNumber RAND_MAX d5.1 50 320⟩
  let initialPosition : floatvector K :=
    ⟨if i / 2 % 2 = 0 then initialPosition0.x else (WINDOW_WIDTH : K) - initialPosition0.x,
     if i < SATELLITE_COUNT / 2 then initialPosition0.y
       else (WINDOW_HEIGHT : K) - initialPosition0.y⟩
  -- Randomize velocity tangential to the black hole
  let positionToBlackHole : floatvector K :=
    ⟨initialPosition.x - (HORIZONTAL_CENTER : K), initialPosition.y - (VERTICAL_CENTER : K)⟩
  let d6 := rand d5.2
  let distance : K :=
    (6 / 100 + randomNumber RAND_MAX d6.1 (-(1 / 100)) (1 / 100))
      / sqrt (positionToBlackHole.x * positionToBlackHole.x
              + positionToBlackHole.y * positionToBlackHole.y)
  let initialVelocity0 : floatvector K :=
    ⟨distance * -positionToBlackHole.y, distance * positionToBlackHole.x⟩
  -- Every other orbits clockwise
  let initialVelocity : floatvector K :=
    if i % 2 = 0 then ⟨-initialVelocity0.x, -initialVelocity0.y⟩ else initialVelocity0
  (⟨id, initialPosition, initialVelocity⟩, d6.2)

/-- The satellite loop of `fixedInit` with `rem` iterations left, at index `i`. -/
def fixedInitLoop (sqrt : K → K) (RAND_MAX : Nat) (rand : G → Nat × G) :
    Nat → Nat → G → List (satellite K) × G
  | 0, _, g => ([], g)
  | rem + 1, i, g =>
    let made := initSatellite sqrt RAND_MAX rand i g
    let rest := fixedInitLoop sqrt RAND_MAX rand rem (i + 1) made.2
    (made.1 :: rest.1, rest.2)

/-- Source: `void fixedInit(unsigned int seed)`: the `satellites` array it fills and
the final state of the generator.  The C library generator is a parameter:
`srand seed` is the state after `srand(seed)`, and `rand g` is the value
returned by `rand()` in state `g` together with the next state; `g` is the state
of the generator when `fixedInit` is called. -/
def fixedInit (sqrt : K → K) (RAND_MAX : Nat) (srand : Nat → G) (rand : G → Nat × G)
    (seed : Nat) (g : G) : List (satellite K) × G :=
  let g0 := if seed ≠ 0 then srand seed else g
  fixedInitLoop sqrt RAND_MAX rand SATELLITE_COUNT 0 g0

end Startup

/-! ## Session close -/

/-- The ten session handles released by `destroy`. -/
inductive HandleName
  | bufPixels
  | bufPosX
  | bufPosY
  | bufIdR
  | bufIdG
  | bufIdB
  | kernel
  | program
  | queue
  | context
deriving DecidableEq, Repr

/-- The ten handle variables (`none` is `NULL`, `some o` refers to the object
`o`), and the log of the release calls (`clReleaseMemObject`, `clReleaseKernel`,
`clReleaseProgram`, `clReleaseCommandQueue`, `clReleaseContext`) issued so far:
which handle variable was passed and which object it referred to. -/
structure Session where
  OCL_bufPixels : Option Nat
  OCL_bufPosX : Option Nat
  OCL_bufPosY : Option Nat
  OCL_bufIdR : Option Nat
  OCL_bufIdG : Option Nat
  OCL_bufIdB : Option Nat
  OCL_kernel : Option Nat
  OCL_program : Option Nat
  OCL_queue : Option Nat
  OCL_context : Option Nat
  releases : List (HandleName × Nat)
deriving DecidableEq, Repr

/-- One line of `destroy`: `if (handle) clRelease...(handle);`. -/
def releaseIfSet (name : HandleName) (handle : Option Nat) (log : List (HandleName × Nat)) :
    List (HandleName × Nat) :=
  match handle with
  | some o => log ++ [(name, o)]
  | none => log

/-- Source: `void destroy()`; no handle variable is assigned. -/
def destroy (s : Session) : Session :=
  let l0 := s.releases
  let l1 := releaseIfSet HandleName.bufPixels s.OCL_bufPixels l0
  let l2 := releaseIfSet HandleName.bufPosX s.OCL_bufPosX l1
  let l3 := releaseIfSet HandleName.bufPosY s.OCL_bufPosY l2
  let l4 := releaseIfSet HandleName.bufIdR s.OCL_bufIdR l3
  let l5 := releaseIfSet HandleName.bufIdG s.OCL_bufIdG l4
  let l6 := releaseIfSet HandleName.bufIdB s.OCL_bufIdB l5
  let l7 := releaseIfSet HandleName.kernel s.OCL_kernel l6
  let l8 := releaseIfSet HandleName.program s.OCL_program l7
  let l9 := releaseIfSet HandleName.queue s.OCL_queue l8
  let l10 := releaseIfSet HandleName.context s.OCL_context l9
  { s with releases := l10 }

/-- The handle variable of the given name. -/
def Session.handle (s : Session) : HandleName → Option Nat
  | HandleName.bufPixels => s.OCL_bufPixels
  | HandleName.bufPosX => s.OCL_bufPosX
  | HandleName.bufPosY => s.OCL_bufPosY
  | HandleName.bufIdR => s.OCL_bufIdR
  | HandleName.bufIdG => s.OCL_bufIdG
  | HandleName.bufIdB => s.OCL_bufIdB
  | HandleName.kernel => s.OCL_kernel
  | HandleName.program => s.OCL_program
  | HandleName.queue => s.OCL_queue
  | HandleName.context => s.OCL_context

/-- The order in which `destroy` visits the handles. -/
def destroyOrder : List HandleName :=
  [HandleName.bufPixels, HandleName.bufPosX, HandleName.bufPosY, HandleName.bufIdR,
   HandleName.bufIdG, HandleName.bufIdB, HandleName.kernel, HandleName.program,
   HandleName.queue, HandleName.context]

/-- The allocated handles of a session in the order of `destroy`, each with the
object it refers to. -/
def allocatedHandles (s : Session) : List (HandleName × Nat) :=
  destroyOrder.filterMap (fun name => (s.handle name).map (fun o => (name, o)))

/-- Number of release calls in a log that were made through the given handle
variable. -/
def releaseCount (name : HandleName) (log : List (HandleName × Nat)) : Nat :=
  log.countP (fun e => decide (e.1 = name))

/-! # Properties -/

/-! ## Integrator equivalence -/

theorem sequentialSubStep_eq_parallelSubStep (r : Regs ℝ)
    (h : distSq 960 512 r ≠ 0) :
    sequentialSubStep Real.sqrt (packRegs r) = packRegs (parallelSubStep Real.sqrt 960 512 r) := by
  obtain ⟨x, y, vx, vy⟩ := r
  simp only [distSq] at h
  have hc1 : ((HORIZONTAL_CENTER : Nat) : ℝ) = 960 := by norm_num [HORIZONTAL_CENTER, WINDOW_WIDTH]
  have hc2 : ((VERTICAL_CENTER : Nat) : ℝ) = 512 := by norm_num [VERTICAL_CENTER, WINDOW_HEIGHT]
  have hd : (0 : ℝ) ≤ (x - 960) * (x - 960) + (y - 512) * (y - 512) :=
    add_nonneg (mul_self_nonneg _) (mul_self_nonneg _)
  set d2 : ℝ := (x - 960) * (x - 960) + (y - 512) * (y - 512) with hd2
  have hpos : 0 < d2 := lt_of_le_of_ne hd (by
    intro h0; apply h; push_cast; rw [← hd2]; exact h0.symm)
  have hs : Real.sqrt d2 * Real.sqrt d2 = d2 := Real.mul_self_sqrt hd
  have hs0 : Real.sqrt d2 ≠ 0 := (Real.sqrt_pos.mpr hpos).ne'
  have hacc : ∀ c : ℝ, GRAVITY ℝ / d2 * (c / Real.sqrt d2) * (DELTATIME : ℝ) / (PHYSICSUPDATESPERFRAME : ℝ)
      = GRAVITY ℝ * c * (1 / Real.sqrt d2 * (1 / Real.sqrt d2 * (1 / Real.sqrt d2)))
        * ((DELTATIME : ℝ) / (PHYSICSUPDATESPERFRAME : ℝ)) := by
    intro c
    have h3 : GRAVITY ℝ / d2 = GRAVITY ℝ * (1 / Real.sqrt d2 * (1 / Real.sqrt d2)) := by
      nth_rewrite 1 [← hs]
      field_simp
    rw [h3]
    ring
  simp only [sequentialSubStep, parallelSubStep, packRegs, hc1, hc2, Int.cast_ofNat, ← hd2, hacc]
  simp only [Prod.mk.injEq, doublevector.mk.injEq]
  refine ⟨⟨?_, ?_⟩, trivial⟩ <;> ring

theorem iterate_map_list {α : Type} (f : α → α) (n : Nat) (l : List α) :
    (List.map f)^[n] l = List.map (f^[n]) l := by
  induction n generalizing l with
  | zero => simp
  | succ n ih => simp [Function.iterate_succ_apply, ih]

theorem sequential_iterate_eq_parallel_iterate (s : satellite ℝ) (n : Nat)
    (h : staysAway Real.sqrt 960 512 n s) :
    (sequentialSubStep Real.sqrt)^[n] (copyIn s)
      = packRegs ((parallelSubStep Real.sqrt 960 512)^[n] (loadRegs s)) := by
  induction n with
  | zero => rfl
  | succ n ih =>
    have hn : staysAway Real.sqrt 960 512 n s := fun k hk => h k (Nat.lt_succ_of_lt hk)
    rw [Function.iterate_succ_apply', Function.iterate_succ_apply', ih hn]
    exact sequentialSubStep_eq_parallelSubStep _ (h n (Nat.lt_succ_self n))

/-- C1 (integrator equivalence).  Under exact real arithmetic, for every list of
satellites and every number of sub-steps `n`, if the pointer is the display
centre `(960, 512)` and every satellite is at non-zero distance from it at each
sub-step, `parallelPhysicsEngine` and `sequentialPhysicsEngine` return the same
satellites (same position, velocity and identifier for every body); in
particular for the configured `PHYSICSUPDATESPERFRAME` sub-steps. -/
theorem C1_integrator_equivalence (n : Nat) (sats : List (satellite ℝ))
    (h : ∀ s ∈ sats, staysAway Real.sqrt 960 512 n s) :
    parallelPhysicsEngineN Real.sqrt n 960 512 sats = sequentialPhysicsEngineN Real.sqrt n sats
    ∧ (n = PHYSICSUPDATESPERFRAME →
        parallelPhysicsEngine Real.sqrt 960 512 sats = sequentialPhysicsEngine Real.sqrt sats) := by
  have key : parallelPhysicsEngineN Real.sqrt n 960 512 sats
      = sequentialPhysicsEngineN Real.sqrt n sats := by
    simp only [parallelPhysicsEngineN, sequentialPhysicsEngineN, iterate_map_list, List.map_map]
    congr 1
    apply List.map_congr_left
    intro s hs
    simp only [Function.comp_apply]
    rw [sequential_iterate_eq_parallel_iterate s n (h s hs)]
    rfl
  refine ⟨key, ?_⟩
  intro hn
  subst hn
  exact key

/-! ## Error check -/

theorem badPixels_succ (cp p : Nat → color_u8) (n : Nat) :
    badPixels cp p (n + 1) = badPixels cp p n + (if pixelMismatch (cp n) (p n) then 1 else 0) := by
  simp [badPixels, List.range_succ, List.countP_append, List.countP_cons]

theorem badPixels_mono (cp p : Nat → color_u8) (n m : Nat) :
    badPixels cp p n ≤ badPixels cp p (n + m) := by
  induction m with
  | zero => exact le_refl _
  | succ m ih =>
    rw [← Nat.add_assoc, badPixels_succ]
    exact Nat.le_trans ih (Nat.le_add_right _ _)

theorem errorCheckLoop_spec (cp p : Nat → color_u8) (rem : Nat) :
    ∀ i c, c = badPixels cp p i → c ≤ 10 →
      (errorCheckLoop cp p rem i c).countErrors = min (badPixels cp p (i + rem)) 11
      ∧ ((errorCheckLoop cp p rem i c).passed = true ↔ badPixels cp p (i + rem) ≤ 10)
      ∧ (badPixels cp p (i + rem) ≤ 10 → (errorCheckLoop cp p rem i c).lastIndex = i + rem)
      ∧ (10 < badPixels cp p (i + rem) →
          (errorCheckLoop cp p rem i c).lastIndex < i + rem
          ∧ pixelMismatch (cp (errorCheckLoop cp p rem i c).lastIndex)
              (p (errorCheckLoop cp p rem i c).lastIndex) = true
          ∧ badPixels cp p (errorCheckLoop cp p rem i c).lastIndex = 10) := by
  induction rem with
  | zero =>
    intro i c hc hle
    subst hc
    rw [Nat.add_zero]
    show badPixels cp p i = min (badPixels cp p i) 11
      ∧ (true = true ↔ badPixels cp p i ≤ 10)
      ∧ (badPixels cp p i ≤ 10 → i = i) ∧ (10 < badPixels cp p i → _)
    refine ⟨by omega, by simp [hle], fun _ => rfl, fun h => by omega⟩
  | succ rem ih =>
    intro i c hc hle
    have hsucc := badPixels_succ cp p i
    have hmono := badPixels_mono cp p (i + 1) rem
    have hidx : i + (rem + 1) = i + 1 + rem := by omega
    rw [hidx]
    by_cases hm : pixelMismatch (cp i) (p i) = true
    · rw [if_pos hm] at hsucc
      by_cases hten : c + 1 > ALLOWED_NUMBER_OF_ERRORS
      · have hc10 : c = 10 := by simp only [ALLOWED_NUMBER_OF_ERRORS] at hten; omega
        have hr : errorCheckLoop cp p (rem + 1) i c = ⟨c + 1, false, i⟩ := by
          simp only [errorCheckLoop, hm, if_true, hten]
        rw [hr]
        show c + 1 = min (badPixels cp p (i + 1 + rem)) 11
          ∧ (false = true ↔ badPixels cp p (i + 1 + rem) ≤ 10)
          ∧ (badPixels cp p (i + 1 + rem) ≤ 10 → i = i + 1 + rem)
          ∧ (10 < badPixels cp p (i + 1 + rem) →
              i < i + 1 + rem ∧ pixelMismatch (cp i) (p i) = true ∧ badPixels cp p i = 10)
        refine ⟨by omega, ?_, fun h => by omega, fun _ => ⟨by omega, hm, by omega⟩⟩
        constructor
        · intro h; cases h
        · intro h; omega
      · have hc9 : c + 1 ≤ 10 := by simp only [ALLOWED_NUMBER_OF_ERRORS] at hten; omega
        have hr : errorCheckLoop cp p (rem + 1) i c = errorCheckLoop cp p rem (i + 1) (c + 1) := by
          simp only [errorCheckLoop, hm, if_true, hten, if_false]
        rw [hr]
        exact ih (i + 1) (c + 1) (by omega) hc9
    · rw [if_neg hm] at hsucc
      have hr : errorCheckLoop cp p (rem + 1) i c = errorCheckLoop cp p rem (i + 1) c := by
        simp only [errorCheckLoop, hm, Bool.false_eq_true, if_false]
      rw [hr]
      exact ih (i + 1) c (by omega) hle

theorem errorCheckLoop_congr (cp p cp1 p1 : Nat → color_u8)
    (h : ∀ i, pixelMismatch (cp1 i) (p1 i) = pixelMismatch (cp i) (p i)) (rem : Nat) :
    ∀ i c, errorCheckLoop cp1 p1 rem i c = errorCheckLoop cp p rem i c := by
  induction rem with
  | zero => intro i c; rfl
  | succ rem ih =>
    intro i c
    simp only [errorCheckLoop, h i, ih]

theorem pixelMismatch_reserved (c p : color_u8) (a b : Nat) :
    pixelMismatch { c with reserved := a } { p with reserved := b } = pixelMismatch c p := rfl

/-- C2 (error check).  A pixel counts as an error exactly when its red, green or
blue channel differs by more than 10 between `correctPixels` and `pixels`.
With `M` the number of such pixels in the frame, `errorCheck` ends with
`countErrors = min M 11`; it reports "passed" iff `M ≤ 10`, in which case the
whole buffer was scanned; otherwise it returns at the 11th bad pixel in
row-major order (a bad pixel preceded by exactly ten bad pixels).  Changing the
reserved channels of either buffer does not change the result. -/
theorem C2_errorCheck (correctPixels pixels : Nat → color_u8) :
    (∀ c p : color_u8, pixelMismatch c p = true ↔
        (|(c.red : Int) - (p.red : Int)| > 10 ∨ |(c.green : Int) - (p.green : Int)| > 10
          ∨ |(c.blue : Int) - (p.blue : Int)| > 10))
    ∧ (errorCheck correctPixels pixels).countErrors = min (badPixels correctPixels pixels SIZE) 11
    ∧ ((errorCheck correctPixels pixels).passed = true ↔ badPixels correctPixels pixels SIZE ≤ 10)
    ∧ (badPixels correctPixels pixels SIZE ≤ 10 →
        (errorCheck correctPixels pixels).lastIndex = SIZE)
    ∧ (10 < badPixels correctPixels pixels SIZE →
        (errorCheck correctPixels pixels).lastIndex < SIZE
        ∧ pixelMismatch (correctPixels (errorCheck correctPixels pixels).lastIndex)
            (pixels (errorCheck correctPixels pixels).lastIndex) = true
        ∧ badPixels correctPixels pixels (errorCheck correctPixels pixels).lastIndex = 10)
    ∧ (∀ ra rb : Nat → Nat,
        errorCheck (fun i => { correctPixels i with reserved := ra i })
            (fun i => { pixels i with reserved := rb i })
          = errorCheck correctPixels pixels) := by
  have hspec := errorCheckLoop_spec correctPixels pixels SIZE 0 0 (by simp [badPixels]) (by omega)
  rw [Nat.zero_add] at hspec
  simp only [errorCheck, errorCheckN]
  refine ⟨?_, hspec.1, hspec.2.1, hspec.2.2.1, hspec.2.2.2, ?_⟩
  · intro c p
    simp [pixelMismatch, ALLOWED_ERROR, or_assoc]
  · intro ra rb
    exact errorCheckLoop_congr correctPixels pixels
      (fun i => { correctPixels i with reserved := ra i })
      (fun i => { pixels i with reserved := rb i }) (fun i => rfl) SIZE 0 0

/-- Witness of C2: two identical all-black buffers pass with zero errors after
a full scan. -/
theorem C2_errorCheck_witness :
    (errorCheck (fun _ => ⟨0, 0, 0, 0⟩) (fun _ => ⟨0, 0, 0, 0⟩)).passed = true
    ∧ (errorCheck (fun _ => ⟨0, 0, 0, 0⟩) (fun _ => ⟨0, 0, 0, 0⟩)).countErrors = 0
    ∧ (errorCheck (fun _ => ⟨0, 0, 0, 0⟩) (fun _ => ⟨0, 0, 0, 0⟩)).lastIndex = SIZE := by
  have hM : badPixels (fun _ => ⟨0, 0, 0, 0⟩) (fun _ => ⟨0, 0, 0, 0⟩) SIZE = 0 := by
    have hfalse : pixelMismatch ⟨0, 0, 0, 0⟩ ⟨0, 0, 0, 0⟩ = false := by decide
    simp only [badPixels, hfalse]
    exact List.countP_eq_zero.mpr (by simp)
  have h := C2_errorCheck (fun _ => ⟨0, 0, 0, 0⟩) (fun _ => ⟨0, 0, 0, 0⟩)
  rw [hM] at h
  exact ⟨h.2.2.1.mpr (by omega), by rw [h.2.1]; rfl, h.2.2.2.1 (by omega)⟩

/-! ## Launch geometry -/

theorem globalSize_spec (w t : Nat) (ht : 1 ≤ t) :
    t ∣ globalSize w t ∧ w ≤ globalSize w t ∧ globalSize w t < w + t
    ∧ ∀ m, t ∣ m → w ≤ m → globalSize w t ≤ m := by
  have hpos : 0 < t := ht
  have hdm := Nat.div_add_mod (w + t - 1) t
  have hlt := Nat.mod_lt (w + t - 1) hpos
  have hcomm : (w + t - 1) / t * t = t * ((w + t - 1) / t) := Nat.mul_comm _ _
  refine ⟨⟨(w + t - 1) / t, by simp [globalSize, Nat.mul_comm]⟩, ?_, ?_, ?_⟩
  · simp only [globalSize]; omega
  · simp only [globalSize]; omega
  · rintro m ⟨k, rfl⟩ hk
    simp only [globalSize]
    rw [Nat.mul_comm]
    apply Nat.mul_le_mul_left
    apply Nat.le_of_lt_succ
    rw [Nat.div_lt_iff_lt_mul hpos]
    show w + t - 1 < (k + 1) * t
    have : (k + 1) * t = t * k + t := by ring
    omega

theorem filter_eq_length_one {α : Type} [DecidableEq α] (a : α) :
    ∀ l : List α, l.Nodup → a ∈ l → (l.filter (fun q => decide (q = a))).length = 1
  | [], _, hm => by simp at hm
  | b :: l, hn, hm => by
    rw [List.nodup_cons] at hn
    by_cases hb : b = a
    · subst hb
      have hnone : l.filter (fun q => decide (q = b)) = [] := by
        rw [List.filter_eq_nil_iff]
        intro q hq
        simp only [decide_eq_true_eq]
        rintro rfl
        exact hn.1 hq
      simp [List.filter_cons, hnone]
    · have hm1 : a ∈ l := by
        rcases List.mem_cons.mp hm with h | h
        · exact absurd h.symm hb
        · exact h
      simp only [List.filter_cons, hb, decide_False, Bool.false_eq_true, if_false]
      exact filter_eq_length_one a l hn.2 hm1

theorem gridIndices_count (g0 g1 x y : Nat) (hx : x < g0) (hy : y < g1) :
    ((gridIndices g0 g1).filter (fun q => decide (q = (x, y)))).length = 1 := by
  apply filter_eq_length_one
  · unfold gridIndices
    rw [List.nodup_flatMap]
    refine ⟨?_, ?_⟩
    · intro gx _
      exact (List.nodup_range g1).map (fun a b h => by simpa using h)
    · apply (List.nodup_range g0).pairwise_of_forall_ne
      intro a _ b _ hab
      simp only [Function.onFun, List.Disjoint, List.mem_map, List.mem_range]
      rintro ⟨u, v⟩ ⟨c, _, hc⟩ ⟨d, _, hd⟩
      simp only [Prod.mk.injEq] at hc hd
      exact hab (hc.1.trans hd.1.symm)
  · simp only [gridIndices, List.mem_flatMap, List.mem_range, List.mem_map]
    exact ⟨x, hx, y, hy, rfl⟩

/-- C3 (launch geometry).  For every display dimension `w` and tile size
`t ≥ 1` (natural numbers), the global size `((w + t - 1) / t) * t` is a multiple
of `t`, is at least `w`, is below every other multiple of `t` that is at least
`w`, and exceeds `w` by less than one tile.  Hence for every second axis `h`,
`u ≥ 1`, each pixel coordinate `x < w`, `y < h` occurs exactly once among the
work-item indices of the padded grid.  For the configured 1920x1024 display and
32x32 tiles the grid is exactly 1920x1024. -/
theorem C3_launch_geometry (w t : Nat) (ht : 1 ≤ t) :
    t ∣ globalSize w t
    ∧ w ≤ globalSize w t
    ∧ (∀ m, t ∣ m → w ≤ m → globalSize w t ≤ m)
    ∧ globalSize w t - w < t
    ∧ (∀ h u x y, 1 ≤ u → x < w → y < h →
        ((gridIndices (globalSize w t) (globalSize h u)).filter
          (fun q => decide (q = (x, y)))).length = 1)
    ∧ launchGlobal = (1920, 1024) := by
  obtain ⟨h1, h2, h3, h4⟩ := globalSize_spec w t ht
  refine ⟨h1, h2, h4, by omega, ?_, by decide⟩
  intro h u x y hu hx hy
  have hh := (globalSize_spec h u hu).2.1
  exact gridIndices_count _ _ x y (by omega) (by omega)

/-- Witness of C3: a 1000-pixel axis with 32-wide tiles is padded to 1024. -/
theorem C3_launch_geometry_witness :
    (1 ≤ 32) ∧ globalSize 1000 32 = 1024 ∧ 32 ∣ globalSize 1000 32
    ∧ globalSize 1000 32 - 1000 < 32 :=
  ⟨by decide, by decide, (C3_launch_geometry 1000 32 (by decide)).1,
    (C3_launch_geometry 1000 32 (by decide)).2.2.2.1⟩

/-! ## Colour field -/

theorem dist2To_nonneg (pixel : floatvector ℝ) (s : satellite ℝ) : 0 ≤ dist2To pixel s :=
  add_nonneg (mul_self_nonneg _) (mul_self_nonneg _)

theorem distTo_eq (pixel : floatvector ℝ) (s : satellite ℝ) :
    distTo Real.sqrt pixel s = Real.sqrt (dist2To pixel s) := rfl

theorem distTo_lt_iff (pixel : floatvector ℝ) (s t : satellite ℝ) :
    distTo Real.sqrt pixel s < distTo Real.sqrt pixel t ↔ dist2To pixel s < dist2To pixel t := by
  rw [distTo_eq, distTo_eq]
  exact Real.sqrt_lt_sqrt_iff (dist2To_nonneg pixel s)

theorem satellite_radius_pos : (0 : ℝ) < SATELLITE_RADIUS ℝ := by
  norm_num [SATELLITE_RADIUS]

theorem distTo_lt_radius_iff (pixel : floatvector ℝ) (s : satellite ℝ) :
    distTo Real.sqrt pixel s < SATELLITE_RADIUS ℝ
      ↔ dist2To pixel s < SATELLITE_RADIUS ℝ * SATELLITE_RADIUS ℝ := by
  rw [distTo_eq, Real.sqrt_lt' satellite_radius_pos, sq]

theorem blendWeight_eq (pixel : floatvector ℝ) (s : satellite ℝ) :
    blendWeight Real.sqrt pixel s = 1 / (dist2To pixel s * dist2To pixel s) := by
  have h := Real.sq_sqrt (dist2To_nonneg pixel s)
  have h4 : (distTo Real.sqrt pixel s) ^ 4 = dist2To pixel s * dist2To pixel s := by
    rw [distTo_eq]
    calc Real.sqrt (dist2To pixel s) ^ 4
        = (Real.sqrt (dist2To pixel s) ^ 2) * (Real.sqrt (dist2To pixel s) ^ 2) := by ring
      _ = dist2To pixel s * dist2To pixel s := by rw [h]
  rw [blendWeight, h4]

theorem firstLoop_cons_far (pixel : floatvector ℝ) (u : satellite ℝ) (rest : List (satellite ℝ))
    (st : ShadeState ℝ) (hu : SATELLITE_RADIUS ℝ ≤ distTo Real.sqrt pixel u) :
    firstLoop Real.sqrt pixel (u :: rest) st
      = firstLoop Real.sqrt pixel rest
          (if ltShortest (distTo Real.sqrt pixel u) st.shortestDistance = true then
            { st with weights := st.weights + blendWeight Real.sqrt pixel u,
                      shortestDistance := some (distTo Real.sqrt pixel u),
                      renderColor := u.identifier }
          else { st with weights := st.weights + blendWeight Real.sqrt pixel u }) := by
  have hnot : ¬ (Real.sqrt ((pixel.x - u.position.x) * (pixel.x - u.position.x)
      + (pixel.y - u.position.y) * (pixel.y - u.position.y)) < SATELLITE_RADIUS ℝ) :=
    not_lt.mpr hu
  have hw : ∀ d : ℝ, 1 / (d * d * d * d) = 1 / d ^ 4 := fun d => by ring
  simp only [firstLoop, if_neg hnot, hw, distTo, blendWeight]
  split_ifs <;> rfl

theorem singlePassLoop_cons_far (pixel : floatvector ℝ) (u : satellite ℝ)
    (rest : List (satellite ℝ)) (sp : SinglePassState ℝ)
    (hu : SATELLITE_RADIUS ℝ ≤ distTo Real.sqrt pixel u) :
    singlePassLoop pixel.x pixel.y (u :: rest) sp
      = singlePassLoop pixel.x pixel.y rest
          (if ltShortest (dist2To pixel u) sp.shortestD2 = true then
            { sp with weights := sp.weights + blendWeight Real.sqrt pixel u,
                      sumR := sp.sumR + u.identifier.red * blendWeight Real.sqrt pixel u,
                      sumG := sp.sumG + u.identifier.green * blendWeight Real.sqrt pixel u,
                      sumB := sp.sumB + u.identifier.blue * blendWeight Real.sqrt pixel u,
                      shortestD2 := some (dist2To pixel u), nearestID := u.identifier }
          else
            { sp with weights := sp.weights + blendWeight Real.sqrt pixel u,
                      sumR := sp.sumR + u.identifier.red * blendWeight Real.sqrt pixel u,
                      sumG := sp.sumG + u.identifier.green * blendWeight Real.sqrt pixel u,
                      sumB := sp.sumB + u.identifier.blue * blendWeight Real.sqrt pixel u }) := by
  have hnot : ¬ ((pixel.x - u.position.x) * (pixel.x - u.position.x)
      + (pixel.y - u.position.y) * (pixel.y - u.position.y)
        < SATELLITE_RADIUS ℝ * SATELLITE_RADIUS ℝ) := by
    intro h
    exact absurd ((distTo_lt_radius_iff pixel u).mpr h) (not_lt.mpr hu)
  simp only [singlePassLoop, if_neg hnot, blendWeight_eq, dist2To]
  split_ifs <;> rfl

theorem loops_far (pixel : floatvector ℝ) (l : List (satellite ℝ)) :
    ∀ (pre : List (satellite ℝ)) (st : ShadeState ℝ) (sp : SinglePassState ℝ),
      (∀ s ∈ l, SATELLITE_RADIUS ℝ ≤ distTo Real.sqrt pixel s) →
      JointInv Real.sqrt pixel pre st sp →
      JointInv Real.sqrt pixel (pre ++ l) (firstLoop Real.sqrt pixel l st)
        (singlePassLoop pixel.x pixel.y l sp) := by
  induction l with
  | nil =>
    intro pre st sp _ h
    simpa [firstLoop, singlePassLoop] using h
  | cons u rest ih =>
    intro pre st sp hfar h
    have hu := hfar u (List.mem_cons_self _ _)
    have hrest : ∀ s ∈ rest, SATELLITE_RADIUS ℝ ≤ distTo Real.sqrt pixel s :=
      fun s hs => hfar s (List.mem_cons_of_mem _ hs)
    have hpre : pre ++ u :: rest = (pre ++ [u]) ++ rest := by simp
    rw [hpre, firstLoop_cons_far pixel u rest st hu, singlePassLoop_cons_far pixel u rest sp hu]
    apply ih _ _ _ hrest
    have hw1 : st.weights + blendWeight Real.sqrt pixel u
        = ((pre ++ [u]).map (blendWeight Real.sqrt pixel)).sum := by simp [h.w1]
    have hw2 : sp.weights + blendWeight Real.sqrt pixel u
        = ((pre ++ [u]).map (blendWeight Real.sqrt pixel)).sum := by simp [h.w2]
    have hsR : sp.sumR + u.identifier.red * blendWeight Real.sqrt pixel u
        = ((pre ++ [u]).map (fun s => blendWeight Real.sqrt pixel s * s.identifier.red)).sum := by
      simp [h.sR, mul_comm]
    have hsG : sp.sumG + u.identifier.green * blendWeight Real.sqrt pixel u
        = ((pre ++ [u]).map (fun s => blendWeight Real.sqrt pixel s * s.identifier.green)).sum := by
      simp [h.sG, mul_comm]
    have hsB : sp.sumB + u.identifier.blue * blendWeight Real.sqrt pixel u
        = ((pre ++ [u]).map (fun s => blendWeight Real.sqrt pixel s * s.identifier.blue)).sum := by
      simp [h.sB, mul_comm]
    rcases h.near with ⟨hnil, hs1, hs2, _, _⟩ | ⟨a, s, b, hsplit, ha, hb, hs1, hs2, hc1, hc2⟩
    · have e1 : ltShortest (distTo Real.sqrt pixel u) st.shortestDistance = true := by
        rw [hs1]; rfl
      have e2 : ltShortest (dist2To pixel u) sp.shortestD2 = true := by
        rw [hs2]; rfl
      rw [if_pos e1, if_pos e2]
      exact
        { hit1 := h.hit1, hit2 := h.hit2, w1 := hw1, w2 := hw2, sR := hsR, sG := hsG, sB := hsB
          near := Or.inr ⟨pre, u, [], rfl, (by subst hnil; intro t ht; cases ht),
            (by intro t ht; cases ht), rfl, rfl, rfl, rfl⟩ }
    · by_cases hlt : distTo Real.sqrt pixel u < distTo Real.sqrt pixel s
      · have e1 : ltShortest (distTo Real.sqrt pixel u) st.shortestDistance = true := by
          rw [hs1]; simp [ltShortest, hlt]
        have e2 : ltShortest (dist2To pixel u) sp.shortestD2 = true := by
          rw [hs2]; simp [ltShortest, (distTo_lt_iff pixel u s).mp hlt]
        rw [if_pos e1, if_pos e2]
        refine
          { hit1 := h.hit1, hit2 := h.hit2, w1 := hw1, w2 := hw2, sR := hsR, sG := hsG, sB := hsB
            near := Or.inr ⟨pre, u, [], rfl, ?_, (by intro t ht; cases ht), rfl, rfl, rfl, rfl⟩ }
        intro t ht
        rw [hsplit] at ht
        rcases List.mem_append.mp ht with h1 | h1
        · exact lt_trans hlt (ha t h1)
        · rcases List.mem_cons.mp h1 with h2 | h2
          · rw [h2]; exact hlt
          · exact lt_of_lt_of_le hlt (hb t h2)
      · have e1 : ¬ ltShortest (distTo Real.sqrt pixel u) st.shortestDistance = true := by
          rw [hs1]; simp [ltShortest, hlt]
        have e2 : ¬ ltShortest (dist2To pixel u) sp.shortestD2 = true := by
          rw [hs2]
          have := mt (distTo_lt_iff pixel u s).mpr hlt
          simp [ltShortest, this]
        rw [if_neg e1, if_neg e2]
        refine
          { hit1 := h.hit1, hit2 := h.hit2, w1 := hw1, w2 := hw2, sR := hsR, sG := hsG, sB := hsB
            near := Or.inr ⟨a, s, b ++ [u], (by simp [hsplit]), ha, ?_, hs1, hs2, hc1, hc2⟩ }
        intro t ht
        rcases List.mem_append.mp ht with h1 | h1
        · exact hb t h1
        · rw [List.mem_singleton] at h1
          rw [h1]
          exact not_lt.mp hlt

theorem secondLoop_eq (pixel : floatvector ℝ) (W : ℝ) (l : List (satellite ℝ)) :
    ∀ c : color_f32 ℝ, secondLoop pixel W l c =
      { blue := c.blue
          + 3 * (l.map (fun s => blendWeight Real.sqrt pixel s * s.identifier.blue)).sum / W,
        green := c.green
          + 3 * (l.map (fun s => blendWeight Real.sqrt pixel s * s.identifier.green)).sum / W,
        red := c.red
          + 3 * (l.map (fun s => blendWeight Real.sqrt pixel s * s.identifier.red)).sum / W } := by
  induction l with
  | nil => intro c; simp [secondLoop]
  | cons u rest ih =>
    intro c
    simp only [secondLoop, ih, List.map_cons, List.sum_cons, blendWeight_eq, dist2To,
      color_f32.mk.injEq]
    refine ⟨?_, ?_, ?_⟩ <;> ring

theorem jointInv_init (pixel : floatvector ℝ) :
    JointInv Real.sqrt pixel [] ⟨⟨0, 0, 0⟩, none, 0, false⟩ ⟨0, 0, 0, 0, none, ⟨0, 0, 0⟩, false⟩ :=
  { hit1 := rfl, hit2 := rfl, w1 := by simp, w2 := by simp, sR := by simp, sG := by simp,
    sB := by simp, near := Or.inl ⟨rfl, rfl, rfl, rfl, rfl⟩ }

theorem center_cast :
    ((HORIZONTAL_CENTER : Nat) : ℝ) = 960 ∧ ((VERTICAL_CENTER : Nat) : ℝ) = 512 := by
  constructor <;> norm_num [HORIZONTAL_CENTER, VERTICAL_CENTER, WINDOW_WIDTH, WINDOW_HEIGHT]

theorem insideBlackHole_iff (pixel : floatvector ℝ) :
    insideBlackHole Real.sqrt pixel = true
      ↔ (pixel.x - 960) ^ 2 + (pixel.y - 512) ^ 2 < (45 / 10 : ℝ) ^ 2 := by
  have hr : (0 : ℝ) < 45 / 10 := by norm_num
  simp only [insideBlackHole, center_cast.1, center_cast.2, BLACK_HOLE_RADIUS, decide_eq_true_eq]
  rw [Real.sqrt_lt' hr]
  simp only [sq]

theorem toUInt8_of_range (v : ℝ) (h0 : 0 ≤ v) (h1 : v < 256) : toUInt8 v = ⌊v⌋₊ := by
  have hf0 : 0 ≤ ⌊v⌋ := Int.floor_nonneg.mpr h0
  have hf1 : ⌊v⌋ < 256 := Int.floor_lt.mpr (by exact_mod_cast h1)
  simp only [toUInt8, if_pos h0]
  rw [Int.emod_eq_of_lt hf0 hf1]
  rfl

theorem renderColorAt_far (sats : List (satellite ℝ)) (pixel : floatvector ℝ)
    (hfar : ∀ s ∈ sats, SATELLITE_RADIUS ℝ ≤ distTo Real.sqrt pixel s) (hne : sats ≠ []) :
    ∃ a s b, sats = a ++ s :: b
      ∧ (∀ t ∈ a, distTo Real.sqrt pixel s < distTo Real.sqrt pixel t)
      ∧ (∀ t ∈ b, distTo Real.sqrt pixel s ≤ distTo Real.sqrt pixel t)
      ∧ renderColorAt Real.sqrt sats pixel = blendFormula Real.sqrt pixel sats s.identifier
      ∧ singlePassColor sats pixel.x pixel.y = blendFormula Real.sqrt pixel sats s.identifier
      ∧ (singlePassLoop pixel.x pixel.y sats
          ⟨0, 0, 0, 0, none, ⟨0, 0, 0⟩, false⟩).hitsSatellite = false := by
  have h := loops_far pixel sats [] _ _ hfar (jointInv_init pixel)
  rw [List.nil_append] at h
  rcases h.near with ⟨hnil, _⟩ | ⟨a, s, b, hsplit, ha, hb, _, _, hc1, hc2⟩
  · exact absurd hnil hne
  · refine ⟨a, s, b, hsplit, ha, hb, ?_, ?_, h.hit2⟩
    · simp only [renderColorAt, h.hit1, Bool.false_eq_true, if_false, secondLoop_eq, hc1, h.w1,
        blendFormula]
    · simp only [singlePassColor, hc2, h.w2, h.sR, h.sG, h.sB, blendFormula,
        color_f32.mk.injEq]
      refine ⟨?_, ?_, ?_⟩ <;> ring

/-- C4 (blend formula).  Under exact real arithmetic, for every non-empty list of
satellites and every pixel `i < SIZE` that is outside the void disk and at
distance at least `SATELLITE_RADIUS` from every satellite, there is a nearest
satellite `s` (strictly closer than all satellites before it in the list, at
least as close as all after it) such that the colour `sequentialGraphicsEngine`
has computed before the conversion to eight bits is, per channel,
`s.identifier + 3 * (sum_j w_j * colour_j) / (sum_j w_j)` with
`w_j = 1 / distance_j ^ 4`; the emitted channel is the eight-bit conversion of
255 times that value, which is its integer part whenever that lies in
`0 .. 255`; and the single-pass form computes the same colour. -/
theorem C4_blend_formula (sats : List (satellite ℝ)) (old : Nat → color_u8) (i : Nat)
    (hi : i < SIZE) (hne : sats ≠ [])
    (hvoid : (45 / 10 : ℝ) ^ 2
      ≤ ((pixelOf i : floatvector ℝ).x - 960) ^ 2 + ((pixelOf i : floatvector ℝ).y - 512) ^ 2)
    (hfar : ∀ s ∈ sats, SATELLITE_RADIUS ℝ ≤ distTo Real.sqrt (pixelOf i) s) :
    ∃ a s b, sats = a ++ s :: b
      ∧ (∀ t ∈ a, distTo Real.sqrt (pixelOf i) s < distTo Real.sqrt (pixelOf i) t)
      ∧ (∀ t ∈ b, distTo Real.sqrt (pixelOf i) s ≤ distTo Real.sqrt (pixelOf i) t)
      ∧ renderColorAt Real.sqrt sats (pixelOf i)
          = blendFormula Real.sqrt (pixelOf i) sats s.identifier
      ∧ sequentialGraphicsEngine Real.sqrt sats old i
          = { old i with
              red := toUInt8 ((blendFormula Real.sqrt (pixelOf i) sats s.identifier).red * 255),
              green := toUInt8 ((blendFormula Real.sqrt (pixelOf i) sats s.identifier).green * 255),
              blue := toUInt8 ((blendFormula Real.sqrt (pixelOf i) sats s.identifier).blue * 255) }
      ∧ (∀ v : ℝ, 0 ≤ v → v < 256 → toUInt8 v = ⌊v⌋₊)
      ∧ singlePassColor sats (pixelOf i : floatvector ℝ).x (pixelOf i : floatvector ℝ).y
          = blendFormula Real.sqrt (pixelOf i) sats s.identifier
      ∧ singlePassPixel 960 512 sats (old i) (i % WINDOW_WIDTH) (i / WINDOW_WIDTH)
          = sequentialGraphicsEngine Real.sqrt sats old i := by
  obtain ⟨a, s, b, hsplit, ha, hb, hc, hsp, hnohit⟩ := renderColorAt_far sats (pixelOf i) hfar hne
  have hout : ¬ insideBlackHole Real.sqrt (pixelOf i : floatvector ℝ) = true := by
    rw [insideBlackHole_iff]
    exact not_lt.mpr hvoid
  have hseq : sequentialGraphicsEngine Real.sqrt sats old i
      = { old i with
          red := toUInt8 ((blendFormula Real.sqrt (pixelOf i) sats s.identifier).red * 255),
          green := toUInt8 ((blendFormula Real.sqrt (pixelOf i) sats s.identifier).green * 255),
          blue := toUInt8 ((blendFormula Real.sqrt (pixelOf i) sats s.identifier).blue * 255) } := by
    simp only [sequentialGraphicsEngine, if_pos hi, sequentialPixel, if_neg hout, hc]
  refine ⟨a, s, b, hsplit, ha, hb, hc, hseq, toUInt8_of_range, hsp, ?_⟩
  rw [hseq]
  have hout2 : ¬ ((((i % WINDOW_WIDTH : Nat) : ℝ) - ((960 : Int) : ℝ))
        * (((i % WINDOW_WIDTH : Nat) : ℝ) - ((960 : Int) : ℝ))
      + (((i / WINDOW_WIDTH : Nat) : ℝ) - ((512 : Int) : ℝ))
        * (((i / WINDOW_WIDTH : Nat) : ℝ) - ((512 : Int) : ℝ))
      < BLACK_HOLE_RADIUS ℝ * BLACK_HOLE_RADIUS ℝ) := by
    have := not_lt.mpr hvoid
    simp only [pixelOf, sq] at this
    simpa [BLACK_HOLE_RADIUS] using this
  have hno : (singlePassLoop ((i % WINDOW_WIDTH : Nat) : ℝ) ((i / WINDOW_WIDTH : Nat) : ℝ) sats
      ⟨0, 0, 0, 0, none, ⟨0, 0, 0⟩, false⟩).hitsSatellite = false := hnohit
  have hsp2 : singlePassColor sats ((i % WINDOW_WIDTH : Nat) : ℝ) ((i / WINDOW_WIDTH : Nat) : ℝ)
      = blendFormula Real.sqrt (pixelOf i) sats s.identifier := hsp
  simp only [singlePassPixel, if_neg hout2, hno, Bool.false_eq_true, if_false, hsp2]

/-- Witness of C4: one satellite at the origin, pixel `(100, 0)`. -/
theorem C4_blend_formula_witness :
    (100 < SIZE)
    ∧ (∀ s ∈ [(⟨⟨1 / 10, 1 / 10, 1 / 10⟩, ⟨0, 0⟩, ⟨0, 0⟩⟩ : satellite ℝ)],
        SATELLITE_RADIUS ℝ ≤ distTo Real.sqrt (pixelOf 100) s)
    ∧ ∃ a s b, [(⟨⟨1 / 10, 1 / 10, 1 / 10⟩, ⟨0, 0⟩, ⟨0, 0⟩⟩ : satellite ℝ)] = a ++ s :: b
        ∧ renderColorAt Real.sqrt [(⟨⟨1 / 10, 1 / 10, 1 / 10⟩, ⟨0, 0⟩, ⟨0, 0⟩⟩ : satellite ℝ)]
            (pixelOf 100)
          = blendFormula Real.sqrt (pixelOf 100)
              [(⟨⟨1 / 10, 1 / 10, 1 / 10⟩, ⟨0, 0⟩, ⟨0, 0⟩⟩ : satellite ℝ)] s.identifier := by
  have hi : 100 < SIZE := by decide
  have hfar : ∀ s ∈ [(⟨⟨1 / 10, 1 / 10, 1 / 10⟩, ⟨0, 0⟩, ⟨0, 0⟩⟩ : satellite ℝ)],
      SATELLITE_RADIUS ℝ ≤ distTo Real.sqrt (pixelOf 100) s := by
    intro s hs
    rw [List.mem_singleton] at hs
    subst hs
    apply Real.le_sqrt_of_sq_le
    norm_num [SATELLITE_RADIUS, pixelOf, WINDOW_WIDTH]
  have hvoid : (45 / 10 : ℝ) ^ 2
      ≤ ((pixelOf 100 : floatvector ℝ).x - 960) ^ 2 + ((pixelOf 100 : floatvector ℝ).y - 512) ^ 2 := by
    norm_num [pixelOf, WINDOW_WIDTH]
  obtain ⟨a, s, b, h1, _, _, h2, _⟩ :=
    C4_blend_formula [(⟨⟨1 / 10, 1 / 10, 1 / 10⟩, ⟨0, 0⟩, ⟨0, 0⟩⟩ : satellite ℝ)]
      (fun _ => ⟨0, 0, 0, 0⟩) 100 hi (by simp) hvoid hfar
  exact ⟨hi, hfar, a, s, b, h1, h2⟩

theorem firstLoop_hit (pixel : floatvector ℝ) (s : satellite ℝ) (b : List (satellite ℝ)) :
    ∀ (a : List (satellite ℝ)) (st : ShadeState ℝ),
      (∀ t ∈ a, SATELLITE_RADIUS ℝ ≤ distTo Real.sqrt pixel t) →
      distTo Real.sqrt pixel s < SATELLITE_RADIUS ℝ →
      firstLoop Real.sqrt pixel (a ++ s :: b) st
        = { firstLoop Real.sqrt pixel a st with renderColor := ⟨1, 1, 1⟩, hitsSatellite := true }
  | [], st, _, hs => by
    have hs1 : Real.sqrt ((pixel.x - s.position.x) * (pixel.x - s.position.x)
        + (pixel.y - s.position.y) * (pixel.y - s.position.y)) < SATELLITE_RADIUS ℝ := hs
    simp only [List.nil_append, firstLoop, if_pos hs1]
  | u :: a, st, hfar, hs => by
    rw [List.cons_append, firstLoop_cons_far pixel u _ st (hfar u (List.mem_cons_self _ _)),
      firstLoop_cons_far pixel u _ st (hfar u (List.mem_cons_self _ _))]
    exact firstLoop_hit pixel s b a _ (fun t ht => hfar t (List.mem_cons_of_mem _ ht)) hs

theorem exists_first_hit (pixel : floatvector ℝ) :
    ∀ l : List (satellite ℝ), (∃ s ∈ l, distTo Real.sqrt pixel s < SATELLITE_RADIUS ℝ) →
      ∃ a s b, l = a ++ s :: b
        ∧ (∀ t ∈ a, SATELLITE_RADIUS ℝ ≤ distTo Real.sqrt pixel t)
        ∧ distTo Real.sqrt pixel s < SATELLITE_RADIUS ℝ
  | [], h => by
    obtain ⟨s, hs, _⟩ := h
    cases hs
  | u :: l, h => by
    by_cases hu : distTo Real.sqrt pixel u < SATELLITE_RADIUS ℝ
    · exact ⟨[], u, l, rfl, (by intro t ht; cases ht), hu⟩
    · have hl : ∃ s ∈ l, distTo Real.sqrt pixel s < SATELLITE_RADIUS ℝ := by
        obtain ⟨s, hs, hd⟩ := h
        rcases List.mem_cons.mp hs with h1 | h1
        · rw [h1] at hd; exact absurd hd hu
        · exact ⟨s, h1, hd⟩
      obtain ⟨a, s, b, hsplit, ha, hs⟩ := exists_first_hit pixel l hl
      refine ⟨u :: a, s, b, (by rw [hsplit]; rfl), ?_, hs⟩
      intro t ht
      rcases List.mem_cons.mp ht with h1 | h1
      · rw [h1]; exact not_lt.mp hu
      · exact ha t h1

theorem toUInt8_white : toUInt8 ((1 : ℝ) * 255) = 255 := by
  rw [toUInt8_of_range _ (by norm_num) (by norm_num), one_mul]
  exact Nat.floor_natCast 255

theorem sequentialGraphicsEngine_hit (a : List (satellite ℝ)) (s : satellite ℝ)
    (b : List (satellite ℝ)) (old : Nat → color_u8) (i : Nat) (hi : i < SIZE)
    (hvoid : (45 / 10 : ℝ) ^ 2
      ≤ ((pixelOf i : floatvector ℝ).x - 960) ^ 2 + ((pixelOf i : floatvector ℝ).y - 512) ^ 2)
    (hfar : ∀ t ∈ a, SATELLITE_RADIUS ℝ ≤ distTo Real.sqrt (pixelOf i) t)
    (hs : distTo Real.sqrt (pixelOf i) s < SATELLITE_RADIUS ℝ) :
    sequentialGraphicsEngine Real.sqrt (a ++ s :: b) old i
      = { old i with red := 255, green := 255, blue := 255 } := by
  have hout : ¬ insideBlackHole Real.sqrt (pixelOf i : floatvector ℝ) = true := by
    rw [insideBlackHole_iff]
    exact not_lt.mpr hvoid
  simp only [sequentialGraphicsEngine, if_pos hi, sequentialPixel, if_neg hout, renderColorAt,
    firstLoop_hit (pixelOf i) s b a _ hfar hs, if_true, toUInt8_white]

theorem sequentialGraphicsEngine_void (sats : List (satellite ℝ)) (old : Nat → color_u8) (i : Nat)
    (hi : i < SIZE)
    (hvoid : ((pixelOf i : floatvector ℝ).x - 960) ^ 2 + ((pixelOf i : floatvector ℝ).y - 512) ^ 2
      < (45 / 10 : ℝ) ^ 2) :
    sequentialGraphicsEngine Real.sqrt sats old i
      = { old i with red := 0, green := 0, blue := 0 } := by
  have hin : insideBlackHole Real.sqrt (pixelOf i : floatvector ℝ) = true := by
    rw [insideBlackHole_iff]
    exact hvoid
  simp only [sequentialGraphicsEngine, if_pos hi, sequentialPixel, if_pos hin]

theorem singlePassPixel_void (sats : List (satellite ℝ)) (old : color_u8) (i : Nat)
    (hvoid : ((pixelOf i : floatvector ℝ).x - 960) ^ 2 + ((pixelOf i : floatvector ℝ).y - 512) ^ 2
      < (45 / 10 : ℝ) ^ 2) :
    singlePassPixel 960 512 sats old (i % WINDOW_WIDTH) (i / WINDOW_WIDTH)
      = { old with red := 0, green := 0, blue := 0 } := by
  have hin : (((i % WINDOW_WIDTH : Nat) : ℝ) - ((960 : Int) : ℝ))
        * (((i % WINDOW_WIDTH : Nat) : ℝ) - ((960 : Int) : ℝ))
      + (((i / WINDOW_WIDTH : Nat) : ℝ) - ((512 : Int) : ℝ))
        * (((i / WINDOW_WIDTH : Nat) : ℝ) - ((512 : Int) : ℝ))
      < BLACK_HOLE_RADIUS ℝ * BLACK_HOLE_RADIUS ℝ := by
    have := hvoid
    simp only [pixelOf, sq] at this
    simpa [BLACK_HOLE_RADIUS] using this
  simp only [singlePassPixel, if_pos hin]

/-- C5 (body disk), as the code has it.  Under exact real arithmetic, for every
list of satellites and every pixel `i < SIZE` that is outside the void disk and
within `SATELLITE_RADIUS` of at least one satellite, `sequentialGraphicsEngine`
emits white (red = green = blue = 255) whatever the identity colours are; the
first satellite loop leaves at the first such satellite in iteration order, so
the satellites after it do not influence the loop state. -/
theorem C5_body_disk_white (sats : List (satellite ℝ)) (old : Nat → color_u8) (i : Nat)
    (hi : i < SIZE)
    (hvoid : (45 / 10 : ℝ) ^ 2
      ≤ ((pixelOf i : floatvector ℝ).x - 960) ^ 2 + ((pixelOf i : floatvector ℝ).y - 512) ^ 2)
    (hhit : ∃ s ∈ sats, distTo Real.sqrt (pixelOf i) s < SATELLITE_RADIUS ℝ) :
    sequentialGraphicsEngine Real.sqrt sats old i
        = { old i with red := 255, green := 255, blue := 255 }
    ∧ ∃ a s b, sats = a ++ s :: b
        ∧ (∀ t ∈ a, SATELLITE_RADIUS ℝ ≤ distTo Real.sqrt (pixelOf i) t)
        ∧ distTo Real.sqrt (pixelOf i) s < SATELLITE_RADIUS ℝ
        ∧ ∀ b1 : List (satellite ℝ),
            firstLoop Real.sqrt (pixelOf i) (a ++ s :: b1) ⟨⟨0, 0, 0⟩, none, 0, false⟩
              = firstLoop Real.sqrt (pixelOf i) sats ⟨⟨0, 0, 0⟩, none, 0, false⟩
            ∧ sequentialGraphicsEngine Real.sqrt (a ++ s :: b1) old i
              = { old i with red := 255, green := 255, blue := 255 } := by
  obtain ⟨a, s, b, hsplit, ha, hs⟩ := exists_first_hit (pixelOf i) sats hhit
  refine ⟨?_, a, s, b, hsplit, ha, hs, ?_⟩
  · rw [hsplit]
    exact sequentialGraphicsEngine_hit a s b old i hi hvoid ha hs
  · intro b1
    refine ⟨?_, sequentialGraphicsEngine_hit a s b1 old i hi hvoid ha hs⟩
    rw [hsplit, firstLoop_hit (pixelOf i) s b1 a _ ha hs, firstLoop_hit (pixelOf i) s b a _ ha hs]

/-- Witness of C5: a satellite at the origin covers the pixel `(0, 0)`. -/
theorem C5_body_disk_white_witness :
    sequentialGraphicsEngine Real.sqrt [(⟨⟨0, 0, 1 / 10⟩, ⟨0, 0⟩, ⟨0, 0⟩⟩ : satellite ℝ)]
      (fun _ => ⟨7, 7, 7, 7⟩) 0 = ⟨255, 255, 255, 7⟩ := by
  have hi : 0 < SIZE := by decide
  have hvoid : (45 / 10 : ℝ) ^ 2
      ≤ ((pixelOf 0 : floatvector ℝ).x - 960) ^ 2 + ((pixelOf 0 : floatvector ℝ).y - 512) ^ 2 := by
    norm_num [pixelOf, WINDOW_WIDTH]
  have hhit : ∃ s ∈ [(⟨⟨0, 0, 1 / 10⟩, ⟨0, 0⟩, ⟨0, 0⟩⟩ : satellite ℝ)],
      distTo Real.sqrt (pixelOf 0) s < SATELLITE_RADIUS ℝ := by
    refine ⟨_, List.mem_singleton_self _, ?_⟩
    norm_num [distTo, pixelOf, WINDOW_WIDTH, SATELLITE_RADIUS]
  exact (C5_body_disk_white _ (fun _ => ⟨7, 7, 7, 7⟩) 0 hi hvoid hhit).1

/-- Counterexample to C5 as stated: the pixel `(0, 0)` is outside the void disk
and inside the disk of a satellite whose identity colour is
(red 0.1, green 0, blue 0), that is (25, 0, 0) on the 0..255 scale, yet
`sequentialGraphicsEngine` emits (255, 255, 255). -/
theorem C5_identity_colour_counterexample :
    (0 < SIZE)
    ∧ ((45 / 10 : ℝ) ^ 2
        ≤ ((pixelOf 0 : floatvector ℝ).x - 960) ^ 2 + ((pixelOf 0 : floatvector ℝ).y - 512) ^ 2)
    ∧ distTo Real.sqrt (pixelOf 0) (⟨⟨0, 0, 1 / 10⟩, ⟨0, 0⟩, ⟨0, 0⟩⟩ : satellite ℝ)
        < SATELLITE_RADIUS ℝ
    ∧ sequentialGraphicsEngine Real.sqrt [(⟨⟨0, 0, 1 / 10⟩, ⟨0, 0⟩, ⟨0, 0⟩⟩ : satellite ℝ)]
        (fun _ => ⟨0, 0, 0, 0⟩) 0 = ⟨255, 255, 255, 0⟩
    ∧ toUInt8 ((⟨⟨0, 0, 1 / 10⟩, ⟨0, 0⟩, ⟨0, 0⟩⟩ : satellite ℝ).identifier.red * 255) = 25
    ∧ toUInt8 ((⟨⟨0, 0, 1 / 10⟩, ⟨0, 0⟩, ⟨0, 0⟩⟩ : satellite ℝ).identifier.green * 255) = 0
    ∧ toUInt8 ((⟨⟨0, 0, 1 / 10⟩, ⟨0, 0⟩, ⟨0, 0⟩⟩ : satellite ℝ).identifier.blue * 255) = 0 := by
  have hi : 0 < SIZE := by decide
  have hvoid : (45 / 10 : ℝ) ^ 2
      ≤ ((pixelOf 0 : floatvector ℝ).x - 960) ^ 2 + ((pixelOf 0 : floatvector ℝ).y - 512) ^ 2 := by
    norm_num [pixelOf, WINDOW_WIDTH]
  have hhit : distTo Real.sqrt (pixelOf 0) (⟨⟨0, 0, 1 / 10⟩, ⟨0, 0⟩, ⟨0, 0⟩⟩ : satellite ℝ)
      < SATELLITE_RADIUS ℝ := by
    norm_num [distTo, pixelOf, WINDOW_WIDTH, SATELLITE_RADIUS]
  have hzero : toUInt8 ((0 : ℝ) * 255) = 0 := by
    rw [toUInt8_of_range _ (by norm_num) (by norm_num)]
    simp
  refine ⟨hi, hvoid, hhit, ?_, ?_, hzero, hzero⟩
  · exact sequentialGraphicsEngine_hit [] _ [] (fun _ => ⟨0, 0, 0, 0⟩) 0 hi hvoid
      (by intro t ht; cases ht) hhit
  · show toUInt8 ((1 / 10 : ℝ) * 255) = 25
    rw [toUInt8_of_range _ (by norm_num) (by norm_num), Nat.floor_eq_iff (by norm_num)]
    constructor <;> norm_num

/-- C6 (void disk).  Under exact real arithmetic, for every list of satellites
(positions and colours arbitrary) and every pixel `i < SIZE` whose coordinates
satisfy `(x - 960)^2 + (y - 512)^2 < 4.5^2`, `sequentialGraphicsEngine` writes
red = green = blue = 0, the same for every list of satellites, and so does the
single-pass CPU version when the pointer is the centre; in particular the
pixel at the attractor centre `(960, 512)` is black. -/
theorem C6_void_disk (sats : List (satellite ℝ)) (old : Nat → color_u8) (i : Nat)
    (hi : i < SIZE)
    (hvoid : ((pixelOf i : floatvector ℝ).x - 960) ^ 2 + ((pixelOf i : floatvector ℝ).y - 512) ^ 2
      < (45 / 10 : ℝ) ^ 2) :
    sequentialGraphicsEngine Real.sqrt sats old i = { old i with red := 0, green := 0, blue := 0 }
    ∧ (∀ sats1 : List (satellite ℝ),
        sequentialGraphicsEngine Real.sqrt sats1 old i
          = sequentialGraphicsEngine Real.sqrt sats old i)
    ∧ singlePassPixel 960 512 sats (old i) (i % WINDOW_WIDTH) (i / WINDOW_WIDTH)
        = { old i with red := 0, green := 0, blue := 0 }
    ∧ sequentialGraphicsEngine Real.sqrt sats old (512 * WINDOW_WIDTH + 960)
        = { old (512 * WINDOW_WIDTH + 960) with red := 0, green := 0, blue := 0 } := by
  have h1 := sequentialGraphicsEngine_void sats old i hi hvoid
  refine ⟨h1, ?_, singlePassPixel_void sats (old i) i hvoid, ?_⟩
  · intro sats1
    rw [h1]
    exact sequentialGraphicsEngine_void sats1 old i hi hvoid
  · apply sequentialGraphicsEngine_void sats old _ (by decide)
    norm_num [pixelOf, WINDOW_WIDTH]

/-- Witness of C6: the pixel `(961, 512)` next to the centre, with one satellite
on top of it. -/
theorem C6_void_disk_witness :
    sequentialGraphicsEngine Real.sqrt [(⟨⟨1, 1, 1⟩, ⟨961, 512⟩, ⟨0, 0⟩⟩ : satellite ℝ)]
      (fun _ => ⟨9, 9, 9, 9⟩) (512 * WINDOW_WIDTH + 961) = ⟨0, 0, 0, 9⟩ :=
  (C6_void_disk [(⟨⟨1, 1, 1⟩, ⟨961, 512⟩, ⟨0, 0⟩⟩ : satellite ℝ)] (fun _ => ⟨9, 9, 9, 9⟩)
    (512 * WINDOW_WIDTH + 961) (by decide) (by norm_num [pixelOf, WINDOW_WIDTH])).1

/-! ## Free fall -/

theorem free_fall_step (mx my : Int) (y vy : ℝ) (hr : 0 < (my : ℝ) - y) :
    parallelSubStep Real.sqrt mx my ⟨(mx : ℝ), y, 0, vy⟩
      = ⟨(mx : ℝ), y + (vy + (32 / 100000 : ℝ) / ((my : ℝ) - y) ^ 2) * (32 / 100000 : ℝ), 0,
          vy + (32 / 100000 : ℝ) / ((my : ℝ) - y) ^ 2⟩ := by
  have hd2 : ((mx : ℝ) - (mx : ℝ)) * ((mx : ℝ) - (mx : ℝ)) + (y - (my : ℝ)) * (y - (my : ℝ))
      = ((my : ℝ) - y) * ((my : ℝ) - y) := by ring
  have hsqrt : Real.sqrt (((my : ℝ) - y) * ((my : ℝ) - y)) = (my : ℝ) - y :=
    Real.sqrt_mul_self hr.le
  have hdt : ((DELTATIME : Nat) : ℝ) / ((PHYSICSUPDATESPERFRAME : Nat) : ℝ) = 32 / 100000 := by
    norm_num [DELTATIME, PHYSICSUPDATESPERFRAME]
  have hne : (my : ℝ) - y ≠ 0 := hr.ne'
  simp only [parallelSubStep, hd2, hsqrt, hdt, GRAVITY, Regs.mk.injEq]
  refine ⟨by ring, ?_, by ring, ?_⟩
  · field_simp
    ring
  · field_simp
    ring

theorem free_fall_invariant (mx my : Int) (D : ℝ) (hD : 50 ≤ D) (k : Nat)
    (hk : k ≤ PHYSICSUPDATESPERFRAME) :
    ∃ y vy : ℝ,
      (parallelSubStep Real.sqrt mx my)^[k] ⟨(mx : ℝ), (my : ℝ) - D, 0, 0⟩ = ⟨(mx : ℝ), y, 0, vy⟩
      ∧ 0 ≤ vy ∧ vy ≤ (k : ℝ) * (32 / 100000) * (4 / D ^ 2) ∧ (1 ≤ k → 0 < vy)
      ∧ D - (k : ℝ) ^ 2 * (32 / 100000) ^ 2 * (4 / D ^ 2) ≤ (my : ℝ) - y
      ∧ (my : ℝ) - y ≤ D ∧ (1 ≤ k → (my : ℝ) - y < D) := by
  have hD0 : (0 : ℝ) < D := by linarith
  have hD2 : (2500 : ℝ) ≤ D ^ 2 := by nlinarith
  have hD2pos : (0 : ℝ) < D ^ 2 := by linarith
  have hc0 : (0 : ℝ) < 4 / D ^ 2 := by positivity
  have hc1 : 4 / D ^ 2 ≤ (4 / 2500 : ℝ) := by
    apply div_le_div_of_nonneg_left (by norm_num) (by norm_num) hD2
  induction k with
  | zero =>
    refine ⟨(my : ℝ) - D, 0, rfl, le_refl _, by simp, by intro h; omega, by simp, by simp, ?_⟩
    intro h; omega
  | succ k ih =>
    obtain ⟨y, vy, heq, hv0, hv1, _, hr0, hr1, _⟩ := ih (Nat.le_of_succ_le hk)
    have hkN : (k : ℝ) ≤ 100000 := by
      have : k ≤ 100000 := Nat.le_of_succ_le hk
      exact_mod_cast this
    have hk0 : (0 : ℝ) ≤ k := Nat.cast_nonneg k
    have hT0 : (0 : ℝ) ≤ (k : ℝ) * (32 / 100000) := by positivity
    have hT : (k : ℝ) * (32 / 100000) ≤ 32 := by linarith
    have hT2 : (k : ℝ) ^ 2 * (32 / 100000) ^ 2 ≤ 1024 := by
      have := pow_le_pow_left₀ hT0 hT 2
      rw [mul_pow] at this
      linarith
    have hT20 : (0 : ℝ) ≤ (k : ℝ) ^ 2 * (32 / 100000) ^ 2 := by positivity
    have hb : (k : ℝ) ^ 2 * (32 / 100000) ^ 2 * (4 / D ^ 2) ≤ 1024 * (4 / 2500) :=
      mul_le_mul hT2 hc1 hc0.le (by norm_num)
    have hr : D / 2 ≤ (my : ℝ) - y := by linarith
    have hrpos : 0 < (my : ℝ) - y := by linarith
    have hr2pos : 0 < ((my : ℝ) - y) ^ 2 := by positivity
    have h4 : D ^ 2 ≤ 4 * ((my : ℝ) - y) ^ 2 := by nlinarith
    have hacc0 : 0 < (32 / 100000 : ℝ) / ((my : ℝ) - y) ^ 2 := by positivity
    have hacc1 : (32 / 100000 : ℝ) / ((my : ℝ) - y) ^ 2 ≤ (32 / 100000) * (4 / D ^ 2) := by
      have hone : 1 ≤ 4 / D ^ 2 * ((my : ℝ) - y) ^ 2 := by
        rw [div_mul_eq_mul_div, le_div_iff₀ hD2pos]
        linarith
      rw [div_le_iff₀ hr2pos]
      calc (32 / 100000 : ℝ) = (32 / 100000) * 1 := by ring
        _ ≤ (32 / 100000) * (4 / D ^ 2 * ((my : ℝ) - y) ^ 2) :=
            mul_le_mul_of_nonneg_left hone (by norm_num)
        _ = (32 / 100000) * (4 / D ^ 2) * ((my : ℝ) - y) ^ 2 := by ring
    have hstep := free_fall_step mx my y vy hrpos
    generalize (32 / 100000 : ℝ) / ((my : ℝ) - y) ^ 2 = acc at hacc0 hacc1 hstep
    have hvd0 : 0 < (vy + acc) * (32 / 100000 : ℝ) := mul_pos (by linarith) (by norm_num)
    have hvd1 : (vy + acc) * (32 / 100000 : ℝ)
        ≤ ((k : ℝ) * (32 / 100000) * (4 / D ^ 2) + (32 / 100000) * (4 / D ^ 2)) * (32 / 100000) :=
      mul_le_mul_of_nonneg_right (by linarith) (by norm_num)
    have hkc : 0 ≤ (k : ℝ) * (4 / D ^ 2) := mul_nonneg hk0 hc0.le
    generalize (4 : ℝ) / D ^ 2 = c at *
    refine ⟨y + (vy + acc) * (32 / 100000 : ℝ), vy + acc, ?_, ?_, ?_, ?_, ?_, ?_, ?_⟩
    · rw [Function.iterate_succ_apply', heq]
      exact hstep
    · linarith
    · push_cast
      linarith
    · intro _
      linarith
    · push_cast
      have e : ((k : ℝ) + 1) ^ 2 * (32 / 100000) ^ 2 * c
          = (k : ℝ) ^ 2 * (32 / 100000) ^ 2 * c
            + ((k : ℝ) * (32 / 100000) * c + (32 / 100000) * c) * (32 / 100000)
            + (32 / 100000) ^ 2 * ((k : ℝ) * c) := by ring
      rw [e]
      have : 0 ≤ (32 / 100000 : ℝ) ^ 2 * ((k : ℝ) * c) := mul_nonneg (by norm_num) hkc
      linarith
    · linarith
    · intro _
      linarith

theorem free_fall_away (mx my : Int) (D : ℝ) (hD : 50 ≤ D) (k : Nat)
    (hk : k ≤ PHYSICSUPDATESPERFRAME) :
    distSq mx my ((parallelSubStep Real.sqrt mx my)^[k] ⟨(mx : ℝ), (my : ℝ) - D, 0, 0⟩) ≠ 0 := by
  obtain ⟨y, vy, heq, _, _, _, hr0, _, _⟩ := free_fall_invariant mx my D hD k hk
  have hD2 : (2500 : ℝ) ≤ D ^ 2 := by nlinarith
  have hc0 : (0 : ℝ) < 4 / D ^ 2 := by positivity
  have hc1 : 4 / D ^ 2 ≤ (4 / 2500 : ℝ) := by
    apply div_le_div_of_nonneg_left (by norm_num) (by norm_num) hD2
  have hkN : (k : ℝ) ≤ 100000 := by
    have : k ≤ 100000 := hk
    exact_mod_cast this
  have hT0 : (0 : ℝ) ≤ (k : ℝ) * (32 / 100000) := by positivity
  have hT : (k : ℝ) * (32 / 100000) ≤ 32 := by linarith
  have hT2 : (k : ℝ) ^ 2 * (32 / 100000) ^ 2 ≤ 1024 := by
    have := pow_le_pow_left₀ hT0 hT 2
    rw [mul_pow] at this
    linarith
  have hb : (k : ℝ) ^ 2 * (32 / 100000) ^ 2 * (4 / D ^ 2) ≤ 1024 * (4 / 2500) :=
    mul_le_mul hT2 hc1 hc0.le (by norm_num)
  have hpos : 0 < (my : ℝ) - y := by linarith
  rw [heq]
  simp only [distSq]
  have : 0 < ((mx : ℝ) - (mx : ℝ)) * ((mx : ℝ) - (mx : ℝ)) + (y - (my : ℝ)) * (y - (my : ℝ)) := by
    nlinarith
  exact this.ne'

/-- Witness of C1: one satellite at rest 50 pixels above the display centre,
with the configured 100000 sub-steps; it stays at non-zero distance from the
centre during the whole frame. -/
theorem C1_integrator_equivalence_witness :
    (∀ s ∈ [(⟨⟨0, 0, 1⟩, ⟨((960 : Int) : ℝ), ((512 : Int) : ℝ) - 50⟩, ⟨0, 0⟩⟩ : satellite ℝ)],
        staysAway Real.sqrt 960 512 PHYSICSUPDATESPERFRAME s)
    ∧ parallelPhysicsEngine Real.sqrt 960 512
        [(⟨⟨0, 0, 1⟩, ⟨((960 : Int) : ℝ), ((512 : Int) : ℝ) - 50⟩, ⟨0, 0⟩⟩ : satellite ℝ)]
      = sequentialPhysicsEngine Real.sqrt
        [(⟨⟨0, 0, 1⟩, ⟨((960 : Int) : ℝ), ((512 : Int) : ℝ) - 50⟩, ⟨0, 0⟩⟩ : satellite ℝ)] := by
  have h : ∀ s ∈ [(⟨⟨0, 0, 1⟩, ⟨((960 : Int) : ℝ), ((512 : Int) : ℝ) - 50⟩, ⟨0, 0⟩⟩ :
      satellite ℝ)], staysAway Real.sqrt 960 512 PHYSICSUPDATESPERFRAME s := by
    intro s hs k hk
    rw [List.mem_singleton] at hs
    subst hs
    exact free_fall_away 960 512 50 (le_refl _) k hk.le
  exact ⟨h, (C1_integrator_equivalence PHYSICSUPDATESPERFRAME _ h).2 rfl⟩

/-- C7 (free fall).  Under exact real arithmetic, one satellite placed at
`(mx, my - D)` with zero velocity, `D ≥ 50`, pointer `(mx, my)`: after one call
of `parallelPhysicsEngine` (100000 sub-steps, dt = 32/100000, G = 1) the
satellite has `x = mx` and `vx = 0` unchanged, `vy > 0`, and
`my - D < y < my`; its identity colour is unchanged. -/
theorem C7_free_fall (mx my : Int) (D : ℝ) (hD : 50 ≤ D) (id : color_f32 ℝ) :
    ∃ y vy : ℝ,
      parallelPhysicsEngine Real.sqrt mx my [⟨id, ⟨(mx : ℝ), (my : ℝ) - D⟩, ⟨0, 0⟩⟩]
        = [⟨id, ⟨(mx : ℝ), y⟩, ⟨0, vy⟩⟩]
      ∧ 0 < vy ∧ (my : ℝ) - D < y ∧ y < (my : ℝ) := by
  obtain ⟨y, vy, heq, _, _, hv, hr0, _, hr1⟩ :=
    free_fall_invariant mx my D hD PHYSICSUPDATESPERFRAME (le_refl _)
  have hone : 1 ≤ PHYSICSUPDATESPERFRAME := by decide
  have hD2 : (2500 : ℝ) ≤ D ^ 2 := by nlinarith
  have hc0 : (0 : ℝ) < 4 / D ^ 2 := by positivity
  have hc1 : 4 / D ^ 2 ≤ (4 / 2500 : ℝ) := by
    apply div_le_div_of_nonneg_left (by norm_num) (by norm_num) hD2
  have hN : ((PHYSICSUPDATESPERFRAME : Nat) : ℝ) ^ 2 * (32 / 100000) ^ 2 = 1024 := by
    norm_num [PHYSICSUPDATESPERFRAME]
  rw [hN] at hr0
  refine ⟨y, vy, ?_, hv hone, by linarith [hr1 hone], by nlinarith⟩
  simp only [parallelPhysicsEngine, parallelPhysicsEngineN, List.map_cons, List.map_nil,
    List.zipWith_cons_cons, List.zipWith_nil_right, copyIn, copyBack, parallelBody, heq]

/-- Witness of C7: the satellite starts 50 pixels above the display centre. -/
theorem C7_free_fall_witness :
    (50 : ℝ) ≤ 50
    ∧ ∃ y vy : ℝ,
        parallelPhysicsEngine Real.sqrt 960 512
            [⟨⟨0, 0, 1⟩, ⟨((960 : Int) : ℝ), ((512 : Int) : ℝ) - 50⟩, ⟨0, 0⟩⟩]
          = [⟨⟨0, 0, 1⟩, ⟨((960 : Int) : ℝ), y⟩, ⟨0, vy⟩⟩]
        ∧ 0 < vy ∧ ((512 : Int) : ℝ) - 50 < y ∧ y < ((512 : Int) : ℝ) :=
  ⟨le_refl _, C7_free_fall 960 512 50 (le_refl _) ⟨0, 0, 1⟩⟩

/-! ## Validation window -/

section FrameProps

variable {K : Type} [LinearOrderedField K] [FloorRing K]

theorem center_int :
    ((HORIZONTAL_CENTER : Nat) : Int) = 960 ∧ ((VERTICAL_CENTER : Nat) : Int) = 512 := by
  constructor <;> decide

theorem zipWith_copyBack_identifier {F : Type} :
    ∀ (sats : List (satellite F)) (tmp : List (doublevector F × doublevector F)),
      tmp.length = sats.length →
      (List.zipWith copyBack sats tmp).map (fun s => s.identifier)
        = sats.map (fun s => s.identifier)
  | [], _, _ => by simp
  | s :: sats, [], h => by simp at h
  | s :: sats, t :: tmp, h => by
    simp only [List.zipWith_cons_cons, List.map_cons, copyBack]
    rw [zipWith_copyBack_identifier sats tmp (by simpa using h)]

theorem parallelPhysicsEngine_identifier {K : Type} [Field K] (sqrt : K → K) (mx my : Int)
    (sats : List (satellite K)) :
    (parallelPhysicsEngine sqrt mx my sats).map (fun s => s.identifier)
      = sats.map (fun s => s.identifier) := by
  simp only [parallelPhysicsEngine, parallelPhysicsEngineN]
  exact zipWith_copyBack_identifier sats _ (by simp)

theorem map_channel_of_identifier {F : Type} (f : color_f32 F → F) (l1 l2 : List (satellite F))
    (h : l1.map (fun s => s.identifier) = l2.map (fun s => s.identifier)) :
    l1.map (fun s => f s.identifier) = l2.map (fun s => f s.identifier) := by
  have := congrArg (List.map f) h
  simpa [List.map_map, Function.comp_def] using this

theorem compute_satellites_identifier (sqrt : K → K) (shade : Kernel K) (mouse : Int × Int)
    (w : World K) :
    (compute sqrt shade mouse w).1.satellites.map (fun s => s.identifier)
      = w.satellites.map (fun s => s.identifier) := by
  by_cases h : w.frameNumber < 2
  · simp [compute, h, parallelPhysicsEngine_identifier]
  · by_cases hm : mouse.1 = 0 ∧ mouse.2 = 0
    · simp [compute, h, hm, parallelPhysicsEngine_identifier]
    · simp [compute, h, hm, parallelPhysicsEngine_identifier]

theorem compute_dev (sqrt : K → K) (shade : Kernel K) (mouse : Int × Int) (w : World K) :
    (compute sqrt shade mouse w).1.dev.bufPosX
        = (compute sqrt shade mouse w).1.satellites.map (fun s => s.position.x)
    ∧ (compute sqrt shade mouse w).1.dev.bufPosY
        = (compute sqrt shade mouse w).1.satellites.map (fun s => s.position.y)
    ∧ (compute sqrt shade mouse w).1.dev.bufIdR = w.dev.bufIdR
    ∧ (compute sqrt shade mouse w).1.dev.bufIdG = w.dev.bufIdG
    ∧ (compute sqrt shade mouse w).1.dev.bufIdB = w.dev.bufIdB
    ∧ (compute sqrt shade mouse w).1.dev.uploads
        = w.dev.uploads ++ [Region.bufPosX, Region.bufPosY] := by
  by_cases h : w.frameNumber < 2
  · simp [compute, h, parallelGraphicsEngine]
  · by_cases hm : mouse.1 = 0 ∧ mouse.2 = 0
    · simp [compute, h, hm, parallelGraphicsEngine]
    · simp [compute, h, hm, parallelGraphicsEngine]

/-- The staging invariant of the main loop, relative to the satellites `sats`
that `init` saw. -/
theorem runFrames_staging (sqrt : K → K) (shade : Kernel K) (sats : List (satellite K)) :
    ∀ (inputs : List (Int × Int)) (w : World K),
      w.satellites.map (fun s => s.identifier) = sats.map (fun s => s.identifier) →
      w.dev.bufIdR = sats.map (fun s => s.identifier.red) →
      w.dev.bufIdG = sats.map (fun s => s.identifier.green) →
      w.dev.bufIdB = sats.map (fun s => s.identifier.blue) →
      (runFrames sqrt shade inputs w).satellites.map (fun s => s.identifier)
          = sats.map (fun s => s.identifier)
      ∧ (runFrames sqrt shade inputs w).dev.bufIdR = sats.map (fun s => s.identifier.red)
      ∧ (runFrames sqrt shade inputs w).dev.bufIdG = sats.map (fun s => s.identifier.green)
      ∧ (runFrames sqrt shade inputs w).dev.bufIdB = sats.map (fun s => s.identifier.blue)
      ∧ (runFrames sqrt shade inputs w).dev.uploads
          = w.dev.uploads
            ++ (List.replicate inputs.length [Region.bufPosX, Region.bufPosY]).flatten
      ∧ (inputs ≠ [] →
          (runFrames sqrt shade inputs w).dev.bufPosX
              = (runFrames sqrt shade inputs w).satellites.map (fun s => s.position.x)
          ∧ (runFrames sqrt shade inputs w).dev.bufPosY
              = (runFrames sqrt shade inputs w).satellites.map (fun s => s.position.y))
  | [], w, hid, hr, hg, hb => by
    simp [runFrames, hid, hr, hg, hb]
  | m :: ms, w, hid, hr, hg, hb => by
    obtain ⟨hx, hy, hR, hG, hB, hu⟩ := compute_dev sqrt shade m w
    have hsat := compute_satellites_identifier sqrt shade m w
    have hf : frame sqrt shade m w
        = { (compute sqrt shade m w).1 with
            frameNumber := ((compute sqrt shade m w).1.frameNumber + 1) % 2 ^ 32 } := rfl
    obtain ⟨i1, i2, i3, i4, i5, i6⟩ := runFrames_staging sqrt shade sats ms (frame sqrt shade m w)
      (by rw [hf]; exact hsat.trans hid) (by rw [hf]; exact hR.trans hr)
      (by rw [hf]; exact hG.trans hg) (by rw [hf]; exact hB.trans hb)
    refine ⟨i1, i2, i3, i4, ?_, ?_⟩
    · rw [runFrames, i5]
      have : (frame sqrt shade m w).dev.uploads
          = w.dev.uploads ++ [Region.bufPosX, Region.bufPosY] := by rw [hf]; exact hu
      rw [this]
      simp [List.replicate_succ]
    · intro _
      by_cases hms : ms = []
      · subst hms
        simp only [runFrames]
        rw [hf]
        exact ⟨hx, hy⟩
      · exact i6 hms

/-- C9 (one-time staging).  On the explicit model of the six device regions:
every dispatch (`parallelGraphicsEngine`) overwrites the position regions with
the positions of the current satellites, leaves the three identifier regions
untouched and issues uploads to the two position regions only; consequently,
after `init` and any number of frames, the identifier regions still hold what
`init` uploaded (entry `j` is the identifier channel of satellite `j`, which
the physics never changes), each identifier region has been uploaded exactly
once, and the position regions hold the positions of the current satellites. -/
theorem C9_one_time_staging (sqrt : K → K) (shade : Kernel K) (sats : List (satellite K))
    (created : World K) (inputs : List (Int × Int)) :
    (∀ (mx my : Int) (s : List (satellite K)) (d : Device K) (p : Nat → color_u8),
        (parallelGraphicsEngine shade mx my s d p).1.bufPosX = s.map (fun t => t.position.x)
        ∧ (parallelGraphicsEngine shade mx my s d p).1.bufPosY = s.map (fun t => t.position.y)
        ∧ (parallelGraphicsEngine shade mx my s d p).1.bufIdR = d.bufIdR
        ∧ (parallelGraphicsEngine shade mx my s d p).1.bufIdG = d.bufIdG
        ∧ (parallelGraphicsEngine shade mx my s d p).1.bufIdB = d.bufIdB
        ∧ (parallelGraphicsEngine shade mx my s d p).1.uploads
            = d.uploads ++ [Region.bufPosX, Region.bufPosY])
    ∧ (init sats created.dev).bufIdR = sats.map (fun t => t.identifier.red)
    ∧ (init sats created.dev).bufIdG = sats.map (fun t => t.identifier.green)
    ∧ (init sats created.dev).bufIdB = sats.map (fun t => t.identifier.blue)
    ∧ (runFrames sqrt shade inputs (boot sats created)).dev.bufIdR
        = (init sats created.dev).bufIdR
    ∧ (runFrames sqrt shade inputs (boot sats created)).dev.bufIdG
        = (init sats created.dev).bufIdG
    ∧ (runFrames sqrt shade inputs (boot sats created)).dev.bufIdB
        = (init sats created.dev).bufIdB
    ∧ (runFrames sqrt shade inputs (boot sats created)).dev.bufIdR
        = (runFrames sqrt shade inputs (boot sats created)).satellites.map
            (fun t => t.identifier.red)
    ∧ (runFrames sqrt shade inputs (boot sats created)).dev.bufIdG
        = (runFrames sqrt shade inputs (boot sats created)).satellites.map
            (fun t => t.identifier.green)
    ∧ (runFrames sqrt shade inputs (boot sats created)).dev.bufIdB
        = (runFrames sqrt shade inputs (boot sats created)).satellites.map
            (fun t => t.identifier.blue)
    ∧ (runFrames sqrt shade inputs (boot sats created)).dev.uploads
        = [Region.bufIdR, Region.bufIdG, Region.bufIdB]
          ++ (List.replicate inputs.length [Region.bufPosX, Region.bufPosY]).flatten
    ∧ (runFrames sqrt shade inputs (boot sats created)).dev.uploads.count Region.bufIdR = 1
    ∧ (runFrames sqrt shade inputs (boot sats created)).dev.uploads.count Region.bufIdG = 1
    ∧ (runFrames sqrt shade inputs (boot sats created)).dev.uploads.count Region.bufIdB = 1
    ∧ (inputs ≠ [] →
        (runFrames sqrt shade inputs (boot sats created)).dev.bufPosX
            = (runFrames sqrt shade inputs (boot sats created)).satellites.map
                (fun t => t.position.x)
        ∧ (runFrames sqrt shade inputs (boot sats created)).dev.bufPosY
            = (runFrames sqrt shade inputs (boot sats created)).satellites.map
                (fun t => t.position.y)) := by
  obtain ⟨i1, i2, i3, i4, i5, i6⟩ := runFrames_staging sqrt shade sats inputs (boot sats created)
    rfl rfl rfl rfl
  have hup : (boot sats created).dev.uploads = [Region.bufIdR, Region.bufIdG, Region.bufIdB] := rfl
  rw [hup] at i5
  have hcount : ∀ n : Nat, ∀ r : Region, r ≠ Region.bufPosX → r ≠ Region.bufPosY →
      (List.replicate n [Region.bufPosX, Region.bufPosY]).flatten.count r = 0 := by
    intro n r h1 h2
    induction n with
    | zero => simp
    | succ n ih =>
      rw [List.replicate_succ, List.flatten_cons, List.count_append, ih]
      simp [List.count_cons, Ne.symm h1, Ne.symm h2]
  refine ⟨?_, rfl, rfl, rfl, i2, i3, i4, ?_, ?_, ?_, i5, ?_, ?_, ?_, i6⟩
  · intro mx my s d p
    exact ⟨rfl, rfl, rfl, rfl, rfl, rfl⟩
  · rw [i2]; exact (map_channel_of_identifier (fun c => c.red) _ _ i1).symm
  · rw [i3]; exact (map_channel_of_identifier (fun c => c.green) _ _ i1).symm
  · rw [i4]; exact (map_channel_of_identifier (fun c => c.blue) _ _ i1).symm
  · rw [i5, List.count_append, hcount _ _ (by decide) (by decide)]; decide
  · rw [i5, List.count_append, hcount _ _ (by decide) (by decide)]; decide
  · rw [i5, List.count_append, hcount _ _ (by decide) (by decide)]; decide

end FrameProps

/-- Witness of C9: after `init` and two frames the log of uploads shows one
upload of each identifier region, followed by the position regions once per
frame. -/
theorem C9_one_time_staging_witness :
    (runFrames (K := ℚ) id (fun _ _ _ p => p) [(5, 7), (0, 0)]
        (boot [⟨⟨1, 2, 3⟩, ⟨100, 100⟩, ⟨0, 0⟩⟩]
          ⟨0, 0, 0, [], [], fun _ => ⟨0, 0, 0, 0⟩, fun _ => ⟨0, 0, 0, 0⟩,
            ⟨fun _ => ⟨0, 0, 0, 0⟩, [], [], [], [], [], []⟩⟩)).dev.uploads
      = [Region.bufIdR, Region.bufIdG, Region.bufIdB, Region.bufPosX, Region.bufPosY,
         Region.bufPosX, Region.bufPosY] :=
  (C9_one_time_staging (K := ℚ) id (fun _ _ _ p => p) [⟨⟨1, 2, 3⟩, ⟨100, 100⟩, ⟨0, 0⟩⟩]
    ⟨0, 0, 0, [], [], fun _ => ⟨0, 0, 0, 0⟩, fun _ => ⟨0, 0, 0, 0⟩,
      ⟨fun _ => ⟨0, 0, 0, 0⟩, [], [], [], [], [], []⟩⟩ [(5, 7), (0, 0)]).2.2.2.2.2.2.2.2.2.2.1

/-! ## Device selection -/

theorem pickPass_none {D : Type} (test : String → Bool) :
    ∀ (l : List (Platform D)) (p : Nat),
      pickPass test l p = none ↔ ∀ q ∈ l, ¬ (test q.vendor = true ∧ q.gpu.isSome = true)
  | [], p => by simp [pickPass]
  | plat :: rest, p => by
    by_cases ht : test plat.vendor = true
    · cases hg : plat.gpu with
      | none => simp [pickPass, ht, hg, pickPass_none test rest (p + 1)]
      | some dev => simp [pickPass, ht, hg]
    · simp [pickPass, ht, pickPass_none test rest (p + 1)]

theorem pickPass_first {D : Type} (test : String → Bool) (plat : Platform D)
    (b : List (Platform D)) (dev : D) (ht : test plat.vendor = true) (hg : plat.gpu = some dev) :
    ∀ (a : List (Platform D)) (p : Nat),
      (∀ q ∈ a, ¬ (test q.vendor = true ∧ q.gpu.isSome = true)) →
      pickPass test (a ++ plat :: b) p = some (p + a.length, dev)
  | [], p, _ => by simp [pickPass, ht, hg]
  | q :: a, p, h => by
    have hq := h q (List.mem_cons_self _ _)
    have ih := pickPass_first test plat b dev ht hg a (p + 1)
      (fun r hr => h r (List.mem_cons_of_mem _ hr))
    have hlen : p + 1 + a.length = p + (q :: a).length := by simp; omega
    by_cases hqt : test q.vendor = true
    · cases hqg : q.gpu with
      | none => simp [pickPass, hqt, hqg, ih, hlen]
      | some d => simp [hqt, hqg] at hq
    · simp [pickPass, hqt, ih, hlen]

theorem take_nplat {D : Type} (reported : List (Platform D)) :
    reported.take (if reported.length > 4 then 4 else reported.length) = reported.take 4 := by
  split
  · rfl
  · rw [List.take_of_length_le (le_refl _), List.take_of_length_le (by omega)]

/-- C10 (device selection), as the code has it.  `OCL_pickDevice` looks at the
first four reported platforms only.  Among them it selects the GPU of the first
platform whose vendor contains "NVIDIA", "AMD" or "Advanced Micro Devices" and
that has a GPU, whenever there is one; otherwise the GPU of the first platform
whose vendor contains "Intel" and that has a GPU; and it fails exactly when
neither exists among the first four platforms, with "no platforms" when the
list is empty and "no device" otherwise. -/
theorem C10_pick_device {D : Type} (reported : List (Platform D)) :
    (∀ (a : List (Platform D)) (plat : Platform D) (b : List (Platform D)) (dev : D),
        reported.take 4 = a ++ plat :: b →
        (∀ q ∈ a, ¬ (isDiscreteVendor q.vendor = true ∧ q.gpu.isSome = true)) →
        isDiscreteVendor plat.vendor = true → plat.gpu = some dev →
        OCL_pickDevice reported = Except.ok (a.length, dev))
    ∧ (∀ (a : List (Platform D)) (plat : Platform D) (b : List (Platform D)) (dev : D),
        (∀ q ∈ reported.take 4, ¬ (isDiscreteVendor q.vendor = true ∧ q.gpu.isSome = true)) →
        reported.take 4 = a ++ plat :: b →
        (∀ q ∈ a, ¬ (isIntegratedVendor q.vendor = true ∧ q.gpu.isSome = true)) →
        isIntegratedVendor plat.vendor = true → plat.gpu = some dev →
        OCL_pickDevice reported = Except.ok (a.length, dev))
    ∧ ((∃ e, OCL_pickDevice reported = Except.error e)
        ↔ ∀ q ∈ reported.take 4,
            ¬ (isDiscreteVendor q.vendor = true ∧ q.gpu.isSome = true)
            ∧ ¬ (isIntegratedVendor q.vendor = true ∧ q.gpu.isSome = true))
    ∧ (OCL_pickDevice reported = Except.error PickError.noPlatforms ↔ reported = [])
    ∧ (OCL_pickDevice reported = Except.error PickError.noDevice
        ↔ reported ≠ [] ∧ ∀ q ∈ reported.take 4,
            ¬ (isDiscreteVendor q.vendor = true ∧ q.gpu.isSome = true)
            ∧ ¬ (isIntegratedVendor q.vendor = true ∧ q.gpu.isSome = true)) := by
  by_cases hnil : reported = []
  · subst hnil
    simp [OCL_pickDevice]
  have hlen : ¬ reported.length = 0 := by
    intro h
    exact hnil (List.length_eq_zero.mp h)
  have hunfold : OCL_pickDevice reported
      = match pickPass isDiscreteVendor (reported.take 4) 0 with
        | some r => Except.ok r
        | none =>
          match pickPass isIntegratedVendor (reported.take 4) 0 with
          | some r => Except.ok r
          | none => Except.error PickError.noDevice := by
    simp only [OCL_pickDevice, if_neg hlen, take_nplat]
  have hd := pickPass_none (D := D) isDiscreteVendor (reported.take 4) 0
  have hi := pickPass_none (D := D) isIntegratedVendor (reported.take 4) 0
  refine ⟨?_, ?_, ?_, ?_, ?_⟩
  · intro a plat b dev hsplit ha ht hg
    have := pickPass_first isDiscreteVendor plat b dev ht hg a 0 ha
    rw [hunfold, hsplit, this]
    simp
  · intro a plat b dev hno hsplit ha ht hg
    have h1 := hd.mpr hno
    have := pickPass_first isIntegratedVendor plat b dev ht hg a 0 ha
    rw [hunfold, h1]
    simp only
    rw [hsplit, this]
    simp
  · rw [hunfold]
    cases h1 : pickPass isDiscreteVendor (reported.take 4) 0 with
    | some r =>
      have hne : ¬ ∀ q ∈ reported.take 4,
          ¬ (isDiscreteVendor q.vendor = true ∧ q.gpu.isSome = true) := by
        intro hall
        rw [hd.mpr hall] at h1
        cases h1
      constructor
      · rintro ⟨e, he⟩
        cases he
      · intro hall
        exact absurd (fun q hq => (hall q hq).1) hne
    | none =>
      have hnod := hd.mp h1
      cases h2 : pickPass isIntegratedVendor (reported.take 4) 0 with
      | some r =>
        have hne : ¬ ∀ q ∈ reported.take 4,
            ¬ (isIntegratedVendor q.vendor = true ∧ q.gpu.isSome = true) := by
          intro hall
          rw [hi.mpr hall] at h2
          cases h2
        constructor
        · rintro ⟨e, he⟩
          cases he
        · intro hall
          exact absurd (fun q hq => (hall q hq).2) hne
      | none =>
        have hnoi := hi.mp h2
        constructor
        · intro _ q hq
          exact ⟨hnod q hq, hnoi q hq⟩
        · intro _
          exact ⟨PickError.noDevice, rfl⟩
  · rw [hunfold]
    constructor
    · intro h
      cases h1 : pickPass isDiscreteVendor (reported.take 4) 0 with
      | some r => rw [h1] at h; cases h
      | none =>
        rw [h1] at h
        cases h2 : pickPass isIntegratedVendor (reported.take 4) 0 with
        | some r => rw [h2] at h; cases h
        | none => rw [h2] at h; cases h
    · intro h
      exact absurd h hnil
  · rw [hunfold]
    constructor
    · intro h
      refine ⟨hnil, ?_⟩
      cases h1 : pickPass isDiscreteVendor (reported.take 4) 0 with
      | some r => rw [h1] at h; cases h
      | none =>
        rw [h1] at h
        cases h2 : pickPass isIntegratedVendor (reported.take 4) 0 with
        | some r => rw [h2] at h; cases h
        | none =>
          intro q hq
          exact ⟨hd.mp h1 q hq, hi.mp h2 q hq⟩
    · rintro ⟨_, hall⟩
      rw [hd.mpr (fun q hq => (hall q hq).1), hi.mpr (fun q hq => (hall q hq).2)]

/-- Witness of C10: an Intel platform with a GPU is reported before an NVIDIA
platform with a GPU; the NVIDIA device is selected. -/
theorem C10_pick_device_witness :
    OCL_pickDevice [(⟨"Intel(R) Corporation", some 1⟩ : Platform Nat),
      ⟨"NVIDIA Corporation", some 2⟩] = Except.ok (1, 2) :=
  (C10_pick_device [(⟨"Intel(R) Corporation", some 1⟩ : Platform Nat),
      ⟨"NVIDIA Corporation", some 2⟩]).1
    [⟨"Intel(R) Corporation", some 1⟩] ⟨"NVIDIA Corporation", some 2⟩ [] 2 rfl
    (by
      intro q hq
      rw [List.mem_singleton] at hq
      subst hq
      decide)
    (by decide) rfl

/-- Counterexample to C10 as stated: five platforms are reported, the fifth is
an NVIDIA platform with a GPU, the first four have no GPU; a discrete-GPU
platform with a GPU exists, yet `OCL_pickDevice` fails with "no device". -/
theorem C10_fifth_platform_counterexample :
    (∃ q ∈ [(⟨"Portable Computing Language", none⟩ : Platform Nat),
              ⟨"Intel(R) Corporation", none⟩, ⟨"Mesa", none⟩, ⟨"Apple", none⟩,
              ⟨"NVIDIA Corporation", some 7⟩],
        isDiscreteVendor q.vendor = true ∧ q.gpu = some 7)
    ∧ OCL_pickDevice [(⟨"Portable Computing Language", none⟩ : Platform Nat),
        ⟨"Intel(R) Corporation", none⟩, ⟨"Mesa", none⟩, ⟨"Apple", none⟩,
        ⟨"NVIDIA Corporation", some 7⟩] = Except.error PickError.noDevice := by
  refine ⟨⟨⟨"NVIDIA Corporation", some 7⟩, by simp, by decide, rfl⟩, by rfl⟩

/-! ## Sub-step mathematics -/

theorem parallelSubStep_eq_acceleration {K : Type} [Field K] (sqrt : K → K) (mx my : Int)
    (r : Regs K) :
    parallelSubStep sqrt mx my r
      = ⟨r.x + (r.vx - (parallelAcceleration sqrt mx my r).1
            * ((DELTATIME : K) / (PHYSICSUPDATESPERFRAME : K)))
            * ((DELTATIME : K) / (PHYSICSUPDATESPERFRAME : K)),
         r.y + (r.vy - (parallelAcceleration sqrt mx my r).2
            * ((DELTATIME : K) / (PHYSICSUPDATESPERFRAME : K)))
            * ((DELTATIME : K) / (PHYSICSUPDATESPERFRAME : K)),
         r.vx - (parallelAcceleration sqrt mx my r).1
            * ((DELTATIME : K) / (PHYSICSUPDATESPERFRAME : K)),
         r.vy - (parallelAcceleration sqrt mx my r).2
            * ((DELTATIME : K) / (PHYSICSUPDATESPERFRAME : K))⟩ := rfl

theorem dt_cast : ((DELTATIME : Nat) : ℝ) / ((PHYSICSUPDATESPERFRAME : Nat) : ℝ) = 32 / 100000 := by
  norm_num [DELTATIME, PHYSICSUPDATESPERFRAME]

/-- C13 (sub-step mathematics).  Under exact real arithmetic, for every body
position `(x, y)` different from the pointer `(mx, my)` and every velocity, the
acceleration `(ax, ay)` computed in one sub-step of `parallelPhysicsEngine` is a
positive multiple of `(x - mx, y - my)`, its Euclidean norm is `G / d2` with
`d2 = (x - mx)^2 + (y - my)^2`, the velocity is updated first, `v' = v - a*dt`
(so the change of velocity is a positive multiple of `(mx - x, my - y)`), and
the position with the updated velocity, `p' = p + v'*dt`, `dt = 32/100000`. -/
theorem C13_sub_step (mx my : Int) (x y vx vy : ℝ) (h : ¬ (x = (mx : ℝ) ∧ y = (my : ℝ))) :
    (∃ c : ℝ, 0 < c
        ∧ (parallelAcceleration Real.sqrt mx my ⟨x, y, vx, vy⟩).1 = c * (x - (mx : ℝ))
        ∧ (parallelAcceleration Real.sqrt mx my ⟨x, y, vx, vy⟩).2 = c * (y - (my : ℝ))
        ∧ (parallelSubStep Real.sqrt mx my ⟨x, y, vx, vy⟩).vx - vx
            = c * (32 / 100000) * ((mx : ℝ) - x)
        ∧ (parallelSubStep Real.sqrt mx my ⟨x, y, vx, vy⟩).vy - vy
            = c * (32 / 100000) * ((my : ℝ) - y))
    ∧ Real.sqrt ((parallelAcceleration Real.sqrt mx my ⟨x, y, vx, vy⟩).1 ^ 2
          + (parallelAcceleration Real.sqrt mx my ⟨x, y, vx, vy⟩).2 ^ 2)
        = GRAVITY ℝ / ((x - (mx : ℝ)) ^ 2 + (y - (my : ℝ)) ^ 2)
    ∧ (parallelSubStep Real.sqrt mx my ⟨x, y, vx, vy⟩).vx
        = vx - (parallelAcceleration Real.sqrt mx my ⟨x, y, vx, vy⟩).1 * (32 / 100000)
    ∧ (parallelSubStep Real.sqrt mx my ⟨x, y, vx, vy⟩).vy
        = vy - (parallelAcceleration Real.sqrt mx my ⟨x, y, vx, vy⟩).2 * (32 / 100000)
    ∧ (parallelSubStep Real.sqrt mx my ⟨x, y, vx, vy⟩).x
        = x + (parallelSubStep Real.sqrt mx my ⟨x, y, vx, vy⟩).vx * (32 / 100000)
    ∧ (parallelSubStep Real.sqrt mx my ⟨x, y, vx, vy⟩).y
        = y + (parallelSubStep Real.sqrt mx my ⟨x, y, vx, vy⟩).vy * (32 / 100000) := by
  have hd : (0 : ℝ) ≤ (x - mx) * (x - mx) + (y - my) * (y - my) :=
    add_nonneg (mul_self_nonneg _) (mul_self_nonneg _)
  have hpos : (0 : ℝ) < (x - mx) * (x - mx) + (y - my) * (y - my) := by
    rcases lt_or_eq_of_le hd with h1 | h1
    · exact h1
    · exfalso
      apply h
      have hx : (x - mx) * (x - mx) = 0 := by
        nlinarith [mul_self_nonneg (x - mx), mul_self_nonneg (y - my)]
      have hy : (y - my) * (y - my) = 0 := by
        nlinarith [mul_self_nonneg (x - mx), mul_self_nonneg (y - my)]
      exact ⟨by nlinarith [mul_self_eq_zero.mp hx], by nlinarith [mul_self_eq_zero.mp hy]⟩
  set d2 : ℝ := (x - mx) * (x - mx) + (y - my) * (y - my) with hd2
  have hs : Real.sqrt d2 * Real.sqrt d2 = d2 := Real.mul_self_sqrt hd
  have hspos : 0 < Real.sqrt d2 := Real.sqrt_pos.mpr hpos
  have ha1 : (parallelAcceleration Real.sqrt mx my ⟨x, y, vx, vy⟩).1
      = (1 / Real.sqrt d2 * (1 / Real.sqrt d2 * (1 / Real.sqrt d2))) * (x - (mx : ℝ)) := by
    simp only [parallelAcceleration, GRAVITY, ← hd2]
    ring
  have ha2 : (parallelAcceleration Real.sqrt mx my ⟨x, y, vx, vy⟩).2
      = (1 / Real.sqrt d2 * (1 / Real.sqrt d2 * (1 / Real.sqrt d2))) * (y - (my : ℝ)) := by
    simp only [parallelAcceleration, GRAVITY, ← hd2]
    ring
  have hc : 0 < 1 / Real.sqrt d2 * (1 / Real.sqrt d2 * (1 / Real.sqrt d2)) := by positivity
  have hstep := parallelSubStep_eq_acceleration Real.sqrt mx my ⟨x, y, vx, vy⟩
  rw [dt_cast] at hstep
  have hv1 : (parallelSubStep Real.sqrt mx my ⟨x, y, vx, vy⟩).vx - vx
      = (1 / Real.sqrt d2 * (1 / Real.sqrt d2 * (1 / Real.sqrt d2))) * (32 / 100000)
        * ((mx : ℝ) - x) := by
    rw [hstep]
    show vx - (parallelAcceleration Real.sqrt mx my ⟨x, y, vx, vy⟩).1 * (32 / 100000) - vx = _
    rw [ha1]
    ring
  have hv2 : (parallelSubStep Real.sqrt mx my ⟨x, y, vx, vy⟩).vy - vy
      = (1 / Real.sqrt d2 * (1 / Real.sqrt d2 * (1 / Real.sqrt d2))) * (32 / 100000)
        * ((my : ℝ) - y) := by
    rw [hstep]
    show vy - (parallelAcceleration Real.sqrt mx my ⟨x, y, vx, vy⟩).2 * (32 / 100000) - vy = _
    rw [ha2]
    ring
  refine ⟨⟨_, hc, ha1, ha2, hv1, hv2⟩, ?_, ?_, ?_, ?_, ?_⟩
  · have hsq : (x - (mx : ℝ)) ^ 2 + (y - (my : ℝ)) ^ 2 = d2 := by rw [hd2]; ring
    rw [ha1, ha2, hsq]
    have hnorm : (1 / Real.sqrt d2 * (1 / Real.sqrt d2 * (1 / Real.sqrt d2)) * (x - (mx : ℝ))) ^ 2
        + (1 / Real.sqrt d2 * (1 / Real.sqrt d2 * (1 / Real.sqrt d2)) * (y - (my : ℝ))) ^ 2
        = (GRAVITY ℝ / d2) ^ 2 := by
      have e : (1 / Real.sqrt d2 * (1 / Real.sqrt d2 * (1 / Real.sqrt d2)) * (x - (mx : ℝ))) ^ 2
          + (1 / Real.sqrt d2 * (1 / Real.sqrt d2 * (1 / Real.sqrt d2)) * (y - (my : ℝ))) ^ 2
          = (1 / Real.sqrt d2 * (1 / Real.sqrt d2 * (1 / Real.sqrt d2))) ^ 2
            * ((x - (mx : ℝ)) * (x - (mx : ℝ)) + (y - (my : ℝ)) * (y - (my : ℝ))) := by
        ring
      have hne : Real.sqrt d2 ≠ 0 := hspos.ne'
      have key : ∀ s : ℝ, s ≠ 0 →
          (1 / s * (1 / s * (1 / s))) ^ 2 * (s * s) = (1 / (s * s)) ^ 2 := by
        intro s hs0
        field_simp
        ring
      have hk := key _ hne
      rw [hs] at hk
      rw [e, GRAVITY]
      exact hk
    rw [hnorm]
    exact Real.sqrt_sq (by rw [GRAVITY]; positivity)
  · rw [hstep]
  · rw [hstep]
  · rw [hstep]
  · rw [hstep]

/-- Witness of C13: the body at `(963, 516)`, five pixels from the centre. -/
theorem C13_sub_step_witness :
    ¬ ((963 : ℝ) = ((960 : Int) : ℝ) ∧ (516 : ℝ) = ((512 : Int) : ℝ))
    ∧ Real.sqrt ((parallelAcceleration Real.sqrt 960 512 ⟨963, 516, 0, 0⟩).1 ^ 2
          + (parallelAcceleration Real.sqrt 960 512 ⟨963, 516, 0, 0⟩).2 ^ 2)
        = GRAVITY ℝ / (((963 : ℝ) - ((960 : Int) : ℝ)) ^ 2 + ((516 : ℝ) - ((512 : Int) : ℝ)) ^ 2) := by
  have h : ¬ ((963 : ℝ) = ((960 : Int) : ℝ) ∧ (516 : ℝ) = ((512 : Int) : ℝ)) := by
    norm_num
  exact ⟨h, (C13_sub_step 960 512 963 516 0 0 h).2.1⟩

/-! ## Angular momentum -/

theorem angularMomentum_parallelSubStep {K : Type} [Field K] (sqrt : K → K) (mx my : Int)
    (r : Regs K) :
    angularMomentum mx my (parallelSubStep sqrt mx my r) = angularMomentum mx my r := by
  simp only [angularMomentum, parallelSubStep]
  ring

theorem angularMomentum_sequentialSubStep {K : Type} [Field K] (sqrt : K → K)
    (t : doublevector K × doublevector K) :
    angularMomentum (HORIZONTAL_CENTER : Int) (VERTICAL_CENTER : Int)
        (unpackRegs (sequentialSubStep sqrt t))
      = angularMomentum (HORIZONTAL_CENTER : Int) (VERTICAL_CENTER : Int) (unpackRegs t) := by
  simp only [angularMomentum, sequentialSubStep, unpackRegs, Int.cast_natCast]
  ring

theorem angularMomentum_parallel_iterate {K : Type} [Field K] (sqrt : K → K) (mx my : Int)
    (n : Nat) (r : Regs K) :
    angularMomentum mx my ((parallelSubStep sqrt mx my)^[n] r) = angularMomentum mx my r := by
  induction n with
  | zero => rfl
  | succ n ih => rw [Function.iterate_succ_apply', angularMomentum_parallelSubStep, ih]

theorem angularMomentum_sequential_iterate {K : Type} [Field K] (sqrt : K → K) (n : Nat)
    (t : doublevector K × doublevector K) :
    angularMomentum (HORIZONTAL_CENTER : Int) (VERTICAL_CENTER : Int)
        (unpackRegs ((sequentialSubStep sqrt)^[n] t))
      = angularMomentum (HORIZONTAL_CENTER : Int) (VERTICAL_CENTER : Int) (unpackRegs t) := by
  induction n with
  | zero => rfl
  | succ n ih => rw [Function.iterate_succ_apply', angularMomentum_sequentialSubStep, ih]

theorem zipWith_copyBack_map {F : Type}
    (f : doublevector F × doublevector F → doublevector F × doublevector F) :
    ∀ sats : List (satellite F),
      List.zipWith copyBack sats ((sats.map copyIn).map f)
        = sats.map (fun s => copyBack s (f (copyIn s)))
  | [] => rfl
  | s :: sats => by
    simp only [List.map_cons, List.zipWith_cons_cons]
    rw [zipWith_copyBack_map f sats]

theorem parallelPhysicsEngineN_momentum {K : Type} [Field K] (sqrt : K → K) (n : Nat)
    (mx my : Int) (sats : List (satellite K)) :
    (parallelPhysicsEngineN sqrt n mx my sats).map (fun s => angularMomentum mx my (loadRegs s))
      = sats.map (fun s => angularMomentum mx my (loadRegs s)) := by
  simp only [parallelPhysicsEngineN]
  rw [zipWith_copyBack_map, List.map_map]
  apply List.map_congr_left
  intro s _
  have h := angularMomentum_parallel_iterate sqrt mx my n (loadRegs s)
  simp only [Function.comp_apply, parallelBody, copyIn, copyBack, loadRegs, angularMomentum]
    at h ⊢
  exact h

theorem parallelPhysicsEngine_momentum {K : Type} [Field K] (sqrt : K → K) (mx my : Int)
    (sats : List (satellite K)) :
    (parallelPhysicsEngine sqrt mx my sats).map (fun s => angularMomentum mx my (loadRegs s))
      = sats.map (fun s => angularMomentum mx my (loadRegs s)) :=
  parallelPhysicsEngineN_momentum sqrt PHYSICSUPDATESPERFRAME mx my sats

theorem sequentialPhysicsEngineN_momentum {K : Type} [Field K] (sqrt : K → K) (n : Nat)
    (sats : List (satellite K)) :
    (sequentialPhysicsEngineN sqrt n sats).map
        (fun s => angularMomentum (HORIZONTAL_CENTER : Int) (VERTICAL_CENTER : Int) (loadRegs s))
      = sats.map
        (fun s => angularMomentum (HORIZONTAL_CENTER : Int) (VERTICAL_CENTER : Int) (loadRegs s)) := by
  simp only [sequentialPhysicsEngineN, iterate_map_list]
  rw [zipWith_copyBack_map, List.map_map]
  apply List.map_congr_left
  intro s _
  have h := angularMomentum_sequential_iterate sqrt n (copyIn s)
  simp only [Function.comp_apply, copyIn, copyBack, loadRegs, unpackRegs, angularMomentum]
    at h ⊢
  exact h

theorem sequentialPhysicsEngine_momentum {K : Type} [Field K] (sqrt : K → K)
    (sats : List (satellite K)) :
    (sequentialPhysicsEngine sqrt sats).map
        (fun s => angularMomentum (HORIZONTAL_CENTER : Int) (VERTICAL_CENTER : Int) (loadRegs s))
      = sats.map
        (fun s => angularMomentum (HORIZONTAL_CENTER : Int) (VERTICAL_CENTER : Int) (loadRegs s)) :=
  sequentialPhysicsEngineN_momentum sqrt PHYSICSUPDATESPERFRAME sats

/-- C17 (angular momentum).  Under exact real arithmetic, for every body state at
non-zero distance from the pointer `(mx, my)`, one sub-step of
`parallelPhysicsEngine` leaves `(x - mx) * vy - (y - my) * vx` unchanged, and so
does one sub-step of `sequentialPhysicsEngine` about the centre `(960, 512)`;
hence the quantity is the same before and after any number of sub-steps, and
before and after a whole frame of either engine, when the body never sits on
the attractor. -/
theorem C17_angular_momentum (mx my : Int) (r : Regs ℝ) (_h : distSq mx my r ≠ 0) :
    angularMomentum mx my (parallelSubStep Real.sqrt mx my r) = angularMomentum mx my r
    ∧ (distSq 960 512 r ≠ 0 →
        angularMomentum 960 512 (unpackRegs (sequentialSubStep Real.sqrt (packRegs r)))
          = angularMomentum 960 512 r)
    ∧ (∀ n : Nat,
        (∀ k, k < n → distSq mx my ((parallelSubStep Real.sqrt mx my)^[k] r) ≠ 0) →
        angularMomentum mx my ((parallelSubStep Real.sqrt mx my)^[n] r)
          = angularMomentum mx my r)
    ∧ (∀ sats : List (satellite ℝ),
        (∀ s ∈ sats, staysAway Real.sqrt mx my PHYSICSUPDATESPERFRAME s) →
        (parallelPhysicsEngine Real.sqrt mx my sats).map
            (fun s => angularMomentum mx my (loadRegs s))
          = sats.map (fun s => angularMomentum mx my (loadRegs s)))
    ∧ (∀ sats : List (satellite ℝ),
        (∀ s ∈ sats, staysAway Real.sqrt 960 512 PHYSICSUPDATESPERFRAME s) →
        (sequentialPhysicsEngine Real.sqrt sats).map
            (fun s => angularMomentum 960 512 (loadRegs s))
          = sats.map (fun s => angularMomentum 960 512 (loadRegs s))) := by
  refine ⟨angularMomentum_parallelSubStep Real.sqrt mx my r, ?_, ?_, ?_, ?_⟩
  · intro _
    exact angularMomentum_sequentialSubStep Real.sqrt (packRegs r)
  · intro n _
    exact angularMomentum_parallel_iterate Real.sqrt mx my n r
  · intro sats _
    exact parallelPhysicsEngine_momentum Real.sqrt mx my sats
  · intro sats _
    exact sequentialPhysicsEngine_momentum Real.sqrt sats

/-- Witness of C17: the body at `(963, 516)` with velocity `(1, 2)`. -/
theorem C17_angular_momentum_witness :
    distSq 960 512 (⟨963, 516, 1, 2⟩ : Regs ℝ) ≠ 0
    ∧ angularMomentum 960 512 (parallelSubStep Real.sqrt 960 512 ⟨963, 516, 1, 2⟩)
        = angularMomentum 960 512 (⟨963, 516, 1, 2⟩ : Regs ℝ) := by
  have h : distSq 960 512 (⟨963, 516, 1, 2⟩ : Regs ℝ) ≠ 0 := by
    norm_num [distSq]
  exact ⟨h, (C17_angular_momentum 960 512 ⟨963, 516, 1, 2⟩ h).1⟩

/-! ## Session close -/

theorem releaseIfSet_eq (name : HandleName) (handle : Option Nat)
    (log : List (HandleName × Nat)) :
    releaseIfSet name handle log = log ++ (handle.map (fun o => (name, o))).toList := by
  cases handle <;> simp [releaseIfSet]

theorem filterMap_cons_toList {α β : Type} (f : α → Option β) (a : α) (l : List α) :
    List.filterMap f (a :: l) = (f a).toList ++ List.filterMap f l := by
  cases h : f a <;> simp [List.filterMap_cons, h]

theorem destroy_releases (s : Session) :
    (destroy s).releases = s.releases ++ allocatedHandles s := by
  simp only [destroy, releaseIfSet_eq, allocatedHandles, destroyOrder, filterMap_cons_toList,
    Session.handle, List.filterMap_nil, List.append_assoc, List.append_nil]

theorem destroy_handle (s : Session) (n : HandleName) : (destroy s).handle n = s.handle n := by
  cases n <;> rfl

theorem allocatedHandles_destroy (s : Session) :
    allocatedHandles (destroy s) = allocatedHandles s := by
  simp only [allocatedHandles, destroy_handle]

theorem releaseCount_append (n : HandleName) (a b : List (HandleName × Nat)) :
    releaseCount n (a ++ b) = releaseCount n a + releaseCount n b := by
  simp [releaseCount, List.countP_append]

theorem releaseCount_toList (n m : HandleName) (h : Option Nat) :
    releaseCount n ((h.map (fun o => (m, o))).toList)
      = if m = n ∧ h.isSome = true then 1 else 0 := by
  cases h with
  | none => simp [releaseCount]
  | some o =>
    by_cases hmn : m = n
    · simp [releaseCount, hmn]
    · simp [releaseCount, hmn]

theorem releaseCount_allocated (s : Session) (n : HandleName) :
    releaseCount n (allocatedHandles s) = if (s.handle n).isSome = true then 1 else 0 := by
  simp only [allocatedHandles, destroyOrder, filterMap_cons_toList, List.filterMap_nil,
    releaseCount_append, releaseCount_toList]
  cases n <;> simp [Session.handle, releaseCount]

theorem mem_allocatedHandles (s : Session) (n : HandleName) (o : Nat) :
    (n, o) ∈ allocatedHandles s ↔ s.handle n = some o := by
  simp only [allocatedHandles, List.mem_filterMap, Option.map_eq_some', Prod.mk.injEq]
  constructor
  · rintro ⟨m, _, o1, h1, rfl, rfl⟩
    exact h1
  · intro h
    exact ⟨n, by cases n <;> simp [destroyOrder], o, h, rfl, rfl⟩

/-- C11 (session close), as the code has it.  For every state of the ten session
handles, `destroy()` releases exactly the handles that are allocated (not
`NULL`), each once, in a fixed order, and skips the unallocated ones; it assigns
no handle variable, so after the call the handle variables are what they were,
and a second call issues the same releases a second time: every allocated
handle is then released twice, and the state after two calls equals the state
after one only when no handle was allocated. -/
theorem C11_destroy (s : Session) :
    (∀ n, (destroy s).handle n = s.handle n)
    ∧ (destroy s).releases = s.releases ++ allocatedHandles s
    ∧ (∀ n o, (n, o) ∈ allocatedHandles s ↔ s.handle n = some o)
    ∧ (∀ n, (s.handle n).isSome = true → releaseCount n (allocatedHandles s) = 1)
    ∧ (∀ n, s.handle n = none → releaseCount n (allocatedHandles s) = 0)
    ∧ (∀ n, (destroy (destroy s)).handle n = (destroy s).handle n)
    ∧ (destroy (destroy s)).releases
        = s.releases ++ allocatedHandles s ++ allocatedHandles s
    ∧ (∀ n, (s.handle n).isSome = true →
        releaseCount n (destroy (destroy s)).releases = releaseCount n s.releases + 2)
    ∧ (destroy (destroy s) = destroy s ↔ ∀ n, s.handle n = none) := by
  have h2 : (destroy (destroy s)).releases
      = s.releases ++ allocatedHandles s ++ allocatedHandles s := by
    rw [destroy_releases, destroy_releases, allocatedHandles_destroy]
  refine ⟨destroy_handle s, destroy_releases s, mem_allocatedHandles s, ?_, ?_,
    fun n => destroy_handle (destroy s) n, h2, ?_, ?_⟩
  · intro n hn
    rw [releaseCount_allocated, if_pos hn]
  · intro n hn
    rw [releaseCount_allocated, hn]
    rfl
  · intro n hn
    rw [h2, releaseCount_append, releaseCount_append, releaseCount_allocated, if_pos hn]
  · constructor
    · intro heq n
      have hlen := congrArg (fun t => releaseCount n t.releases) heq
      simp only [h2, destroy_releases, releaseCount_append, releaseCount_allocated] at hlen
      cases hn : s.handle n with
      | none => rfl
      | some o =>
        rw [hn] at hlen
        simp at hlen
    · intro hall
      have hnil : allocatedHandles s = [] := by
        simp only [allocatedHandles, hall, Option.map_none']
        simp [destroyOrder]
      have h1 : destroy s = s := by
        have := destroy_releases s
        rw [hnil, List.append_nil] at this
        cases s
        simp only [destroy] at this ⊢
        simp only [Session.mk.injEq, true_and]
        exact this
      rw [h1, h1]

/-- Counterexample to C11 as stated: with all ten handles allocated, the state
after two calls of `destroy()` differs from the state after one, and the pixel
region has been released twice. -/
theorem C11_second_call_counterexample :
    destroy (destroy ⟨some 1, some 2, some 3, some 4, some 5, some 6, some 7, some 8, some 9,
        some 10, []⟩)
      ≠ destroy ⟨some 1, some 2, some 3, some 4, some 5, some 6, some 7, some 8, some 9,
        some 10, []⟩
    ∧ releaseCount HandleName.bufPixels
        (destroy ⟨some 1, some 2, some 3, some 4, some 5, some 6, some 7, some 8, some 9,
          some 10, []⟩).releases = 1
    ∧ releaseCount HandleName.bufPixels
        (destroy (destroy ⟨some 1, some 2, some 3, some 4, some 5, some 6, some 7, some 8,
          some 9, some 10, []⟩)).releases = 2
    ∧ (destroy (destroy ⟨some 1, some 2, some 3, some 4, some 5, some 6, some 7, some 8,
          some 9, some 10, []⟩)).releases.count (HandleName.bufPixels, 1) = 2 := by
  decide

/-- Witness of C11: only the kernel and the context are allocated; one call
releases these two, in this order. -/
theorem C11_destroy_witness :
    (destroy ⟨none, none, none, none, none, none, some 7, none, none, some 10, []⟩).releases
      = [(HandleName.kernel, 7), (HandleName.context, 10)] :=
  (C11_destroy ⟨none, none, none, none, none, none, some 7, none, none, some 10, []⟩).2.1

/-! ## Start-up -/

theorem fixedInitLoop_length {K : Type} [Field K] {G : Type} (sqrt : K → K) (RAND_MAX : Nat)
    (rand : G → Nat × G) :
    ∀ (rem i : Nat) (g : G), (fixedInitLoop sqrt RAND_MAX rand rem i g).1.length = rem
  | 0, _, _ => rfl
  | rem + 1, i, g => by
    simp only [fixedInitLoop, List.length_cons]
    rw [fixedInitLoop_length sqrt RAND_MAX rand rem]

theorem fixedInitLoop_mem {K : Type} [Field K] {G : Type} (sqrt : K → K) (RAND_MAX : Nat)
    (rand : G → Nat × G) :
    ∀ (rem i : Nat) (g : G) (s : satellite K),
      s ∈ (fixedInitLoop sqrt RAND_MAX rand rem i g).1 →
      ∃ j g1, i ≤ j ∧ j < i + rem ∧ s = (initSatellite sqrt RAND_MAX rand j g1).1
  | 0, _, _, s, h => by simp [fixedInitLoop] at h
  | rem + 1, i, g, s, h => by
    simp only [fixedInitLoop, List.mem_cons] at h
    rcases h with h | h
    · exact ⟨i, g, le_refl _, by omega, h⟩
    · obtain ⟨j, g1, h1, h2, h3⟩ := fixedInitLoop_mem sqrt RAND_MAX rand rem (i + 1) _ s h
      exact ⟨j, g1, by omega, by omega, h3⟩

/-- C12 (seed determinism).  With `rand()` a deterministic generator whose state
is set by `srand(seed)`: for every seed other than 0 and any two states of the
generator before the call, `fixedInit(seed)` fills the `satellites` array with
the same 64 satellites (same identity colour, position and velocity) and leaves
the generator in the same state. -/
theorem C12_seed_determinism {K : Type} [Field K] {G : Type} (sqrt : K → K) (RAND_MAX : Nat)
    (srand : Nat → G) (rand : G → Nat × G) (seed : Nat) (hseed : seed ≠ 0) (g1 g2 : G) :
    fixedInit sqrt RAND_MAX srand rand seed g1 = fixedInit sqrt RAND_MAX srand rand seed g2
    ∧ (fixedInit sqrt RAND_MAX srand rand seed g1).1.length = 64
    ∧ fixedInit sqrt RAND_MAX srand rand seed g1
        = fixedInitLoop sqrt RAND_MAX rand SATELLITE_COUNT 0 (srand seed) := by
  have h : ∀ g : G, fixedInit sqrt RAND_MAX srand rand seed g
      = fixedInitLoop sqrt RAND_MAX rand SATELLITE_COUNT 0 (srand seed) := by
    intro g
    simp only [fixedInit, if_pos hseed]
  refine ⟨by rw [h g1, h g2], ?_, h g1⟩
  rw [h g1, fixedInitLoop_length]
  rfl

/-- Witness of C12: a linear congruential generator, seed 1, prior states 5
and 9. -/
theorem C12_seed_determinism_witness :
    (1 ≠ 0)
    ∧ fixedInit (K := ℚ) id 32767 (fun s => s)
        (fun g => ((g * 1103515245 + 12345) % 2147483648 / 65536 % 32768,
                   (g * 1103515245 + 12345) % 2147483648)) 1 5
      = fixedInit (K := ℚ) id 32767 (fun s => s)
        (fun g => ((g * 1103515245 + 12345) % 2147483648 / 65536 % 32768,
                   (g * 1103515245 + 12345) % 2147483648)) 1 9 :=
  ⟨by decide, (C12_seed_determinism (K := ℚ) id 32767 (fun s => s)
    (fun g => ((g * 1103515245 + 12345) % 2147483648 / 65536 % 32768,
               (g * 1103515245 + 12345) % 2147483648)) 1 (by decide) 5 9).1⟩

theorem randomNumber_bounds (RAND_MAX r : Nat) (hmax : 0 < RAND_MAX) (hr : r ≤ RAND_MAX)
    (lo hi : ℝ) (hlh : lo ≤ hi) :
    lo ≤ randomNumber RAND_MAX r lo hi ∧ randomNumber RAND_MAX r lo hi ≤ hi := by
  have hM : (0 : ℝ) < (RAND_MAX : ℝ) := by exact_mod_cast hmax
  have hr0 : (0 : ℝ) ≤ (r : ℝ) := Nat.cast_nonneg r
  have hrM : (r : ℝ) ≤ (RAND_MAX : ℝ) := by exact_mod_cast hr
  have hd : 0 ≤ hi - lo := by linarith
  have h0 : 0 ≤ (r : ℝ) * (hi - lo) / (RAND_MAX : ℝ) :=
    div_nonneg (mul_nonneg hr0 hd) hM.le
  have h1 : (r : ℝ) * (hi - lo) / (RAND_MAX : ℝ) ≤ hi - lo := by
    rw [div_le_iff₀ hM]
    nlinarith
  simp only [randomNumber]
  constructor <;> linarith

theorem initSatellite_position {G : Type} (RAND_MAX : Nat) (hmax : 0 < RAND_MAX)
    (rand : G → Nat × G) (hrand : ∀ g, (rand g).1 ≤ RAND_MAX) (i : Nat) (g : G) :
    50 ≤ |(initSatellite Real.sqrt RAND_MAX rand i g).1.position.x - 960|
    ∧ |(initSatellite Real.sqrt RAND_MAX rand i g).1.position.x - 960| ≤ 320
    ∧ 50 ≤ |(initSatellite Real.sqrt RAND_MAX rand i g).1.position.y - 512|
    ∧ |(initSatellite Real.sqrt RAND_MAX rand i g).1.position.y - 512| ≤ 320 := by
  have hc1 : ((HORIZONTAL_CENTER : Nat) : ℝ) = 960 := by
    norm_num [HORIZONTAL_CENTER, WINDOW_WIDTH]
  have hc2 : ((VERTICAL_CENTER : Nat) : ℝ) = 512 := by
    norm_num [VERTICAL_CENTER, WINDOW_HEIGHT]
  have hw : ((WINDOW_WIDTH : Nat) : ℝ) = 1920 := by norm_num [WINDOW_WIDTH]
  have hh : ((WINDOW_HEIGHT : Nat) : ℝ) = 1024 := by norm_num [WINDOW_HEIGHT]
  simp only [initSatellite, hc1, hc2, hw, hh]
  obtain ⟨ha0, ha1⟩ := randomNumber_bounds RAND_MAX
    (rand (rand (rand (rand g).2).2).2).1 hmax (hrand _) 50 320 (by norm_num)
  obtain ⟨hb0, hb1⟩ := randomNumber_bounds RAND_MAX
    (rand (rand (rand (rand (rand g).2).2).2).2).1 hmax (hrand _) 50 320 (by norm_num)
  generalize randomNumber RAND_MAX (rand (rand (rand (rand g).2).2).2).1 (50 : ℝ) 320 = a
    at ha0 ha1 ⊢
  generalize randomNumber RAND_MAX (rand (rand (rand (rand (rand g).2).2).2).2).1 (50 : ℝ) 320 = b
    at hb0 hb1 ⊢
  have e1 : (960 : ℝ) - a - 960 = -a := by ring
  have e2 : (1920 : ℝ) - (960 - a) - 960 = a := by ring
  have e3 : (512 : ℝ) - b - 512 = -b := by ring
  have e4 : (1024 : ℝ) - (512 - b) - 512 = b := by ring
  have haa : |a| = a := abs_of_nonneg (by linarith)
  have hbb : |b| = b := abs_of_nonneg (by linarith)
  split_ifs <;> simp only [e1, e2, e3, e4, abs_neg, haa, hbb] <;> exact ⟨ha0, ha1, hb0, hb1⟩

/-- C15 (seeded positions).  Under exact real arithmetic, whenever every value
returned by `rand()` lies in `0 .. RAND_MAX` (and `RAND_MAX > 0`), each of the
64 satellites set by `fixedInit` has `50 ≤ |x - 960| ≤ 320` and
`50 ≤ |y - 512| ≤ 320`; hence it lies inside the 1920x1024 window and its
distance to the attractor is at least `50 * sqrt 2`, non-zero and larger than
the void radius 4.5. -/
theorem C15_seed_positions {G : Type} (RAND_MAX : Nat) (hmax : 0 < RAND_MAX)
    (srand : Nat → G) (rand : G → Nat × G) (hrand : ∀ g, (rand g).1 ≤ RAND_MAX)
    (seed : Nat) (g : G) :
    (fixedInit Real.sqrt RAND_MAX srand rand seed g).1.length = 64
    ∧ ∀ s ∈ (fixedInit Real.sqrt RAND_MAX srand rand seed g).1,
        50 ≤ |s.position.x - 960| ∧ |s.position.x - 960| ≤ 320
        ∧ 50 ≤ |s.position.y - 512| ∧ |s.position.y - 512| ≤ 320
        ∧ 0 ≤ s.position.x ∧ s.position.x < 1920
        ∧ 0 ≤ s.position.y ∧ s.position.y < 1024
        ∧ 50 * Real.sqrt 2
            ≤ Real.sqrt ((s.position.x - 960) ^ 2 + (s.position.y - 512) ^ 2)
        ∧ Real.sqrt ((s.position.x - 960) ^ 2 + (s.position.y - 512) ^ 2) ≠ 0
        ∧ 45 / 10 < Real.sqrt ((s.position.x - 960) ^ 2 + (s.position.y - 512) ^ 2) := by
  refine ⟨?_, ?_⟩
  · simp only [fixedInit]
    rw [fixedInitLoop_length]
    rfl
  · intro s hs
    simp only [fixedInit] at hs
    obtain ⟨j, g1, _, _, rfl⟩ := fixedInitLoop_mem Real.sqrt RAND_MAX rand _ _ _ s hs
    obtain ⟨hx0, hx1, hy0, hy1⟩ := initSatellite_position RAND_MAX hmax rand hrand j g1
    generalize (initSatellite Real.sqrt RAND_MAX rand j g1).1.position.x = x at hx0 hx1 ⊢
    generalize (initSatellite Real.sqrt RAND_MAX rand j g1).1.position.y = y at hy0 hy1 ⊢
    have hxa := abs_le.mp hx1
    have hya := abs_le.mp hy1
    have hx2 : (2500 : ℝ) ≤ (x - 960) ^ 2 := by
      rw [← sq_abs]
      nlinarith
    have hy2 : (2500 : ℝ) ≤ (y - 512) ^ 2 := by
      rw [← sq_abs]
      nlinarith
    have hroot : 50 * Real.sqrt 2 ≤ Real.sqrt ((x - 960) ^ 2 + (y - 512) ^ 2) := by
      apply Real.le_sqrt_of_sq_le
      rw [mul_pow, Real.sq_sqrt (by norm_num)]
      linarith
    have h2 : (1 : ℝ) ≤ Real.sqrt 2 := by
      apply Real.le_sqrt_of_sq_le
      norm_num
    refine ⟨hx0, hx1, hy0, hy1, by linarith [hxa.1], by linarith [hxa.2], by linarith [hya.1],
      by linarith [hya.2], hroot, ?_, ?_⟩
    · have : 0 < Real.sqrt ((x - 960) ^ 2 + (y - 512) ^ 2) := by linarith
      exact this.ne'
    · linarith

/-- Witness of C15: the generator that counts upward and returns its state
modulo 101, with `RAND_MAX = 100`. -/
theorem C15_seed_positions_witness :
    (0 < 100)
    ∧ (∀ g : Nat, ((fun g : Nat => (g % 101, g + 1)) g).1 ≤ 100)
    ∧ (fixedInit Real.sqrt 100 (fun s => s) (fun g : Nat => (g % 101, g + 1)) 1 0).1.length
        = 64 := by
  have hrand : ∀ g : Nat, ((fun g : Nat => (g % 101, g + 1)) g).1 ≤ 100 := by
    intro g
    have := Nat.mod_lt g (by decide : 0 < 101)
    simp only
    omega
  exact ⟨by decide, hrand,
    (C15_seed_positions 100 (by decide) (fun s => s) (fun g : Nat => (g % 101, g + 1))
      hrand 1 0).1⟩

/-! ## Range of the blended colour -/

theorem weighted_sum_bounds (w c : satellite ℝ → ℝ) (m : ℝ) :
    ∀ l : List (satellite ℝ), (∀ s ∈ l, 0 ≤ w s) → (∀ s ∈ l, 0 ≤ c s ∧ c s ≤ m) →
      0 ≤ (l.map (fun s => w s * c s)).sum
      ∧ (l.map (fun s => w s * c s)).sum ≤ m * (l.map w).sum
      ∧ 0 ≤ (l.map w).sum
  | [], _, _ => by simp
  | u :: l, hw, hc => by
    obtain ⟨h0, h1, h2⟩ := weighted_sum_bounds w c m l
      (fun s hs => hw s (List.mem_cons_of_mem _ hs)) (fun s hs => hc s (List.mem_cons_of_mem _ hs))
    have hwu := hw u (List.mem_cons_self _ _)
    obtain ⟨hcu0, hcu1⟩ := hc u (List.mem_cons_self _ _)
    simp only [List.map_cons, List.sum_cons]
    have hp : 0 ≤ w u * c u := mul_nonneg hwu hcu0
    have hq : w u * c u ≤ m * w u := by nlinarith
    refine ⟨by linarith, by linarith, by linarith⟩

theorem blend_channel_bounds (S W n m : ℝ) (hW : 0 ≤ W) (hS0 : 0 ≤ S) (hS1 : S ≤ m * W)
    (hn0 : 0 ≤ n) (hn1 : n ≤ m) : 0 ≤ n + 3 * S / W ∧ n + 3 * S / W ≤ 4 * m := by
  have h0 : 0 ≤ 3 * S / W := div_nonneg (by linarith) hW
  have h1 : 3 * S / W ≤ 3 * m := by
    rcases eq_or_lt_of_le hW with h | h
    · rw [← h, div_zero]
      linarith
    · rw [div_le_iff₀ h]
      linarith
  constructor <;> linarith

theorem blendWeight_nonneg (pixel : floatvector ℝ) (s : satellite ℝ) :
    0 ≤ blendWeight Real.sqrt pixel s := by
  simp only [blendWeight]
  positivity

theorem renderColorAt_bounds (sats : List (satellite ℝ)) (pixel : floatvector ℝ)
    (hne : sats ≠ []) (hfar : ∀ s ∈ sats, SATELLITE_RADIUS ℝ ≤ distTo Real.sqrt pixel s)
    (ch : color_f32 ℝ → ℝ) (m : ℝ)
    (hch : ∀ nearest : color_f32 ℝ,
      ch (blendFormula Real.sqrt pixel sats nearest)
        = ch nearest
          + 3 * (sats.map (fun s => blendWeight Real.sqrt pixel s * ch s.identifier)).sum
            / (sats.map (blendWeight Real.sqrt pixel)).sum)
    (hm : ∀ s ∈ sats, 0 ≤ ch s.identifier ∧ ch s.identifier ≤ m) :
    0 ≤ ch (renderColorAt Real.sqrt sats pixel)
    ∧ ch (renderColorAt Real.sqrt sats pixel) ≤ 4 * m := by
  obtain ⟨a, s, b, hsplit, _, _, hc, _, _⟩ := renderColorAt_far sats pixel hfar hne
  have hs : s ∈ sats := by
    rw [hsplit]
    simp
  obtain ⟨h0, h1, h2⟩ := weighted_sum_bounds (blendWeight Real.sqrt pixel)
    (fun t => ch t.identifier) m sats (fun t _ => blendWeight_nonneg pixel t) hm
  rw [hc, hch]
  exact blend_channel_bounds _ _ _ _ h2 h0 h1 (hm s hs).1 (hm s hs).2

theorem initSatellite_colour {G : Type} (RAND_MAX : Nat) (hmax : 0 < RAND_MAX)
    (rand : G → Nat × G) (hrand : ∀ g, (rand g).1 ≤ RAND_MAX) (i : Nat) (g : G) :
    (0 ≤ (initSatellite Real.sqrt RAND_MAX rand i g).1.identifier.red
      ∧ (initSatellite Real.sqrt RAND_MAX rand i g).1.identifier.red ≤ 25 / 100)
    ∧ (0 ≤ (initSatellite Real.sqrt RAND_MAX rand i g).1.identifier.green
      ∧ (initSatellite Real.sqrt RAND_MAX rand i g).1.identifier.green ≤ 14 / 100)
    ∧ (0 ≤ (initSatellite Real.sqrt RAND_MAX rand i g).1.identifier.blue
      ∧ (initSatellite Real.sqrt RAND_MAX rand i g).1.identifier.blue ≤ 16 / 100) := by
  obtain ⟨hr0, hr1⟩ := randomNumber_bounds RAND_MAX (rand g).1 hmax (hrand _) 0 (15 / 100)
    (by norm_num)
  obtain ⟨hg0, hg1⟩ := randomNumber_bounds RAND_MAX (rand (rand g).2).1 hmax (hrand _) 0
    (14 / 100) (by norm_num)
  obtain ⟨hb0, hb1⟩ := randomNumber_bounds RAND_MAX (rand (rand (rand g).2).2).1 hmax (hrand _)
    0 (16 / 100) (by norm_num)
  simp only [initSatellite]
  refine ⟨⟨by linarith, by linarith⟩, ⟨by linarith, by linarith⟩, ⟨by linarith, by linarith⟩⟩

/-- C16 (no 8-bit overflow for seeded colours).  Under exact real arithmetic,
for every non-empty list of satellites and every pixel outside every body disk
(hence at positive distance from all bodies): if every identity value of a
channel lies in `[0, m]`, the blended value `nearest + 3 * weighted_average` of
that channel lies in `[0, 4m]`; with red ≤ 0.25, green ≤ 0.14 and blue ≤ 0.16
the value times 255 lies in `[0, 255]` and its conversion to `uint8_t` is its
integer part, at most 255; and these are the colour ranges of the satellites
that `fixedInit` produces when `rand()` returns values in `0 .. RAND_MAX`. -/
theorem C16_no_overflow {G : Type} (sats : List (satellite ℝ)) (pixel : floatvector ℝ)
    (hne : sats ≠ []) (hfar : ∀ s ∈ sats, SATELLITE_RADIUS ℝ ≤ distTo Real.sqrt pixel s) :
    (∀ s ∈ sats, 0 < distTo Real.sqrt pixel s)
    ∧ (∀ m : ℝ, (∀ s ∈ sats, 0 ≤ s.identifier.red ∧ s.identifier.red ≤ m) →
        0 ≤ (renderColorAt Real.sqrt sats pixel).red
        ∧ (renderColorAt Real.sqrt sats pixel).red ≤ 4 * m)
    ∧ (∀ m : ℝ, (∀ s ∈ sats, 0 ≤ s.identifier.green ∧ s.identifier.green ≤ m) →
        0 ≤ (renderColorAt Real.sqrt sats pixel).green
        ∧ (renderColorAt Real.sqrt sats pixel).green ≤ 4 * m)
    ∧ (∀ m : ℝ, (∀ s ∈ sats, 0 ≤ s.identifier.blue ∧ s.identifier.blue ≤ m) →
        0 ≤ (renderColorAt Real.sqrt sats pixel).blue
        ∧ (renderColorAt Real.sqrt sats pixel).blue ≤ 4 * m)
    ∧ ((∀ s ∈ sats, (0 ≤ s.identifier.red ∧ s.identifier.red ≤ 25 / 100)
          ∧ (0 ≤ s.identifier.green ∧ s.identifier.green ≤ 14 / 100)
          ∧ (0 ≤ s.identifier.blue ∧ s.identifier.blue ≤ 16 / 100)) →
        (0 ≤ (renderColorAt Real.sqrt sats pixel).red * 255
          ∧ (renderColorAt Real.sqrt sats pixel).red * 255 ≤ 255
          ∧ toUInt8 ((renderColorAt Real.sqrt sats pixel).red * 255)
              = ⌊(renderColorAt Real.sqrt sats pixel).red * 255⌋₊
          ∧ ⌊(renderColorAt Real.sqrt sats pixel).red * 255⌋₊ ≤ 255)
        ∧ (0 ≤ (renderColorAt Real.sqrt sats pixel).green * 255
          ∧ (renderColorAt Real.sqrt sats pixel).green * 255 ≤ 255
          ∧ toUInt8 ((renderColorAt Real.sqrt sats pixel).green * 255)
              = ⌊(renderColorAt Real.sqrt sats pixel).green * 255⌋₊
          ∧ ⌊(renderColorAt Real.sqrt sats pixel).green * 255⌋₊ ≤ 255)
        ∧ (0 ≤ (renderColorAt Real.sqrt sats pixel).blue * 255
          ∧ (renderColorAt Real.sqrt sats pixel).blue * 255 ≤ 255
          ∧ toUInt8 ((renderColorAt Real.sqrt sats pixel).blue * 255)
              = ⌊(renderColorAt Real.sqrt sats pixel).blue * 255⌋₊
          ∧ ⌊(renderColorAt Real.sqrt sats pixel).blue * 255⌋₊ ≤ 255))
    ∧ (∀ (RAND_MAX : Nat) (srand : Nat → G) (rand : G → Nat × G) (seed : Nat) (g : G),
        0 < RAND_MAX → (∀ g1, (rand g1).1 ≤ RAND_MAX) →
        ∀ s ∈ (fixedInit Real.sqrt RAND_MAX srand rand seed g).1,
          (0 ≤ s.identifier.red ∧ s.identifier.red ≤ 25 / 100)
          ∧ (0 ≤ s.identifier.green ∧ s.identifier.green ≤ 14 / 100)
          ∧ (0 ≤ s.identifier.blue ∧ s.identifier.blue ≤ 16 / 100)) := by
  have hred := renderColorAt_bounds sats pixel hne hfar (fun c => c.red)
  have hgreen := renderColorAt_bounds sats pixel hne hfar (fun c => c.green)
  have hblue := renderColorAt_bounds sats pixel hne hfar (fun c => c.blue)
  have hconv : ∀ v : ℝ, 0 ≤ v → v ≤ 4 * (25 / 100) →
      0 ≤ v * 255 ∧ v * 255 ≤ 255 ∧ toUInt8 (v * 255) = ⌊v * 255⌋₊ ∧ ⌊v * 255⌋₊ ≤ 255 := by
    intro v h0 h1
    have hv0 : 0 ≤ v * 255 := by linarith
    have hv1 : v * 255 ≤ 255 := by linarith
    refine ⟨hv0, hv1, toUInt8_of_range _ hv0 (by linarith), ?_⟩
    have : ⌊v * 255⌋₊ ≤ ⌊(255 : ℝ)⌋₊ := Nat.floor_mono hv1
    rwa [Nat.floor_ofNat] at this
  refine ⟨?_, fun m hm => hred m (fun _ => rfl) hm, fun m hm => hgreen m (fun _ => rfl) hm,
    fun m hm => hblue m (fun _ => rfl) hm, ?_, ?_⟩
  · intro s hs
    exact lt_of_lt_of_le satellite_radius_pos (hfar s hs)
  · intro hcol
    obtain ⟨r0, r1⟩ := hred (25 / 100) (fun _ => rfl) (fun s hs => (hcol s hs).1)
    obtain ⟨g0, g1⟩ := hgreen (14 / 100) (fun _ => rfl) (fun s hs => (hcol s hs).2.1)
    obtain ⟨b0, b1⟩ := hblue (16 / 100) (fun _ => rfl) (fun s hs => (hcol s hs).2.2)
    exact ⟨hconv _ r0 r1, hconv _ g0 (by linarith), hconv _ b0 (by linarith)⟩
  · intro RAND_MAX srand rand seed g hmax hrand s hs
    simp only [fixedInit] at hs
    obtain ⟨j, g1, _, _, rfl⟩ := fixedInitLoop_mem Real.sqrt RAND_MAX rand _ _ _ s hs
    exact initSatellite_colour RAND_MAX hmax rand hrand j g1

/-- Witness of C16: one satellite at the origin with the largest seeded colour
values, pixel `(100, 0)`. -/
theorem C16_no_overflow_witness :
    (∀ s ∈ [(⟨⟨16 / 100, 14 / 100, 25 / 100⟩, ⟨0, 0⟩, ⟨0, 0⟩⟩ : satellite ℝ)],
        SATELLITE_RADIUS ℝ ≤ distTo Real.sqrt ⟨100, 0⟩ s)
    ∧ 0 ≤ (renderColorAt Real.sqrt
          [(⟨⟨16 / 100, 14 / 100, 25 / 100⟩, ⟨0, 0⟩, ⟨0, 0⟩⟩ : satellite ℝ)] ⟨100, 0⟩).red * 255
    ∧ (renderColorAt Real.sqrt
          [(⟨⟨16 / 100, 14 / 100, 25 / 100⟩, ⟨0, 0⟩, ⟨0, 0⟩⟩ : satellite ℝ)] ⟨100, 0⟩).red * 255
        ≤ 255 := by
  have hfar : ∀ s ∈ [(⟨⟨16 / 100, 14 / 100, 25 / 100⟩, ⟨0, 0⟩, ⟨0, 0⟩⟩ : satellite ℝ)],
      SATELLITE_RADIUS ℝ ≤ distTo Real.sqrt ⟨100, 0⟩ s := by
    intro s hs
    rw [List.mem_singleton] at hs
    subst hs
    apply Real.le_sqrt_of_sq_le
    norm_num [SATELLITE_RADIUS]
  have hcol : ∀ s ∈ [(⟨⟨16 / 100, 14 / 100, 25 / 100⟩, ⟨0, 0⟩, ⟨0, 0⟩⟩ : satellite ℝ)],
      (0 ≤ s.identifier.red ∧ s.identifier.red ≤ 25 / 100)
      ∧ (0 ≤ s.identifier.green ∧ s.identifier.green ≤ 14 / 100)
      ∧ (0 ≤ s.identifier.blue ∧ s.identifier.blue ≤ 16 / 100) := by
    intro s hs
    rw [List.mem_singleton] at hs
    subst hs
    norm_num
  have h := ((C16_no_overflow (G := Nat) _ ⟨100, 0⟩ (by simp) hfar).2.2.2.2.1 hcol).1
  exact ⟨hfar, h.1, h.2.1⟩

/-! ## Reference pixels -/

theorem compute_eq_computeWith {K : Type} [LinearOrderedField K] [FloorRing K] (sqrt : K → K)
    (shade : Kernel K) (mouse : Int × Int) (w : World K) :
    compute sqrt shade mouse w
      = computeWith (parallelPhysicsEngine sqrt) (sequentialPhysicsEngine sqrt) sqrt shade
          mouse w :=
  rfl

theorem computeWith_validation {K : Type} [LinearOrderedField K] [FloorRing K]
    (physics : Int → Int → List (satellite K) → List (satellite K))
    (reference : List (satellite K) → List (satellite K)) (sqrt : K → K)
    (shade : Kernel K) (mouse : Int × Int) (w : World K) (hv : w.frameNumber < 2) :
    (computeWith physics reference sqrt shade mouse w).1.correctPixels
        = sequentialGraphicsEngine sqrt (physics 960 512 w.satellites) w.correctPixels
    ∧ (computeWith physics reference sqrt shade mouse w).1.satellites
        = physics 960 512 w.satellites
    ∧ (computeWith physics reference sqrt shade mouse w).1.backupSatelites
        = reference w.satellites
    ∧ (computeWith physics reference sqrt shade mouse w).2.incorrect
        = (List.range SATELLITE_COUNT).filter
            (fun i => decide ((physics 960 512 w.satellites).get? i
              ≠ (reference w.satellites).get? i))
    ∧ (computeWith physics reference sqrt shade mouse w).1.pixels
        = (parallelGraphicsEngine shade 960 512 (physics 960 512 w.satellites) w.dev w.pixels).2
    ∧ (computeWith physics reference sqrt shade mouse w).1.dev
        = (parallelGraphicsEngine shade 960 512 (physics 960 512 w.satellites) w.dev w.pixels).1
    ∧ (computeWith physics reference sqrt shade mouse w).2.check
        = some (errorCheck
            (sequentialGraphicsEngine sqrt (physics 960 512 w.satellites) w.correctPixels)
            (parallelGraphicsEngine shade 960 512 (physics 960 512 w.satellites) w.dev
              w.pixels).2) := by
  simp [computeWith, hv, center_int.1, center_int.2]

/-- C14 (ground truth), as the code has it.  With the float values embedded as
elements of an ordered field: during a validation frame (`frameNumber < 2`)
`correctPixels` is `sequentialGraphicsEngine` applied to the global `satellites`
array as the parallel integrator has just left it.  The result of the reference
integrator is stored in `backupSatelites` and enters only the comparison that
reports the indices at which `satellites` and `backupSatelites` differ:
replacing the reference integrator by any other function changes neither
`correctPixels` nor `satellites`, `pixels`, the device regions or the result of
`errorCheck`, whereas `correctPixels` follows the output of the parallel
integrator. -/
theorem C14_reference_pixels {K : Type} [LinearOrderedField K] [FloorRing K]
    (physics : Int → Int → List (satellite K) → List (satellite K))
    (reference : List (satellite K) → List (satellite K)) (sqrt : K → K)
    (shade : Kernel K) (mouse : Int × Int) (w : World K) (hv : w.frameNumber < 2) :
    compute sqrt shade mouse w
        = computeWith (parallelPhysicsEngine sqrt) (sequentialPhysicsEngine sqrt) sqrt shade
            mouse w
    ∧ (compute sqrt shade mouse w).1.correctPixels
        = sequentialGraphicsEngine sqrt (parallelPhysicsEngine sqrt 960 512 w.satellites)
            w.correctPixels
    ∧ (compute sqrt shade mouse w).1.backupSatelites = sequentialPhysicsEngine sqrt w.satellites
    ∧ (compute sqrt shade mouse w).2.incorrect
        = (List.range SATELLITE_COUNT).filter
            (fun i => decide ((parallelPhysicsEngine sqrt 960 512 w.satellites).get? i
              ≠ (sequentialPhysicsEngine sqrt w.satellites).get? i))
    ∧ (computeWith physics reference sqrt shade mouse w).1.correctPixels
        = sequentialGraphicsEngine sqrt (physics 960 512 w.satellites) w.correctPixels
    ∧ (computeWith physics reference sqrt shade mouse w).1.backupSatelites
        = reference w.satellites
    ∧ (computeWith physics reference sqrt shade mouse w).2.incorrect
        = (List.range SATELLITE_COUNT).filter
            (fun i => decide ((physics 960 512 w.satellites).get? i
              ≠ (reference w.satellites).get? i))
    ∧ (∀ other : List (satellite K) → List (satellite K),
        (computeWith physics other sqrt shade mouse w).1.correctPixels
            = (computeWith physics reference sqrt shade mouse w).1.correctPixels
        ∧ (computeWith physics other sqrt shade mouse w).1.satellites
            = (computeWith physics reference sqrt shade mouse w).1.satellites
        ∧ (computeWith physics other sqrt shade mouse w).1.pixels
            = (computeWith physics reference sqrt shade mouse w).1.pixels
        ∧ (computeWith physics other sqrt shade mouse w).1.dev
            = (computeWith physics reference sqrt shade mouse w).1.dev
        ∧ (computeWith physics other sqrt shade mouse w).2.check
            = (computeWith physics reference sqrt shade mouse w).2.check
        ∧ (computeWith physics other sqrt shade mouse w).2.calls
            = (computeWith physics reference sqrt shade mouse w).2.calls
        ∧ (computeWith physics other sqrt shade mouse w).1
            = { (computeWith physics reference sqrt shade mouse w).1 with
                backupSatelites := other w.satellites })
    ∧ (∀ b : List (satellite K),
        (computeWith physics reference sqrt shade mouse
            { w with backupSatelites := b }).1.correctPixels
          = (computeWith physics reference sqrt shade mouse w).1.correctPixels) := by
  have h1 := computeWith_validation physics reference sqrt shade mouse w hv
  have h2 := computeWith_validation (parallelPhysicsEngine sqrt) (sequentialPhysicsEngine sqrt)
    sqrt shade mouse w hv
  rw [← compute_eq_computeWith] at h2
  refine ⟨rfl, h2.1, h2.2.2.1, h2.2.2.2.1, h1.1, h1.2.2.1, h1.2.2.2.1, ?_, ?_⟩
  · intro other
    have h3 := computeWith_validation physics other sqrt shade mouse w hv
    refine ⟨?_, ?_, ?_, ?_, ?_, ?_, ?_⟩
    · rw [h3.1, h1.1]
    · rw [h3.2.1, h1.2.1]
    · rw [h3.2.2.2.2.1, h1.2.2.2.2.1]
    · rw [h3.2.2.2.2.2.1, h1.2.2.2.2.2.1]
    · rw [h3.2.2.2.2.2.2, h1.2.2.2.2.2.2]
    · simp [computeWith, hv]
    · simp [computeWith, hv]
  · intro b
    rw [h1.1, (computeWith_validation physics reference sqrt shade mouse
      { w with backupSatelites := b } hv).1]

/-- Witness of C14: frame 0 with no satellites, a parallel integrator that
returns its input and a reference integrator that returns nothing. -/
theorem C14_reference_pixels_witness :
    (computeWith (K := ℚ) (fun _ _ s => s) (fun _ => []) id (fun _ _ _ p => p) (5, 7)
        ⟨0, 0, 0, [], [], fun _ => ⟨0, 0, 0, 0⟩, fun _ => ⟨0, 0, 0, 0⟩,
          ⟨fun _ => ⟨0, 0, 0, 0⟩, [], [], [], [], [], []⟩⟩).1.correctPixels
      = sequentialGraphicsEngine (K := ℚ) id [] (fun _ => ⟨0, 0, 0, 0⟩) :=
  (C14_reference_pixels (K := ℚ) (fun _ _ s => s) (fun _ => []) id (fun _ _ _ p => p) (5, 7)
    ⟨0, 0, 0, [], [], fun _ => ⟨0, 0, 0, 0⟩, fun _ => ⟨0, 0, 0, 0⟩,
      ⟨fun _ => ⟨0, 0, 0, 0⟩, [], [], [], [], [], []⟩⟩ (by decide)).2.2.2.2.1

theorem sequentialGraphicsEngine_black_far (pos : floatvector ℝ) (old : Nat → color_u8) (i : Nat)
    (hi : i < SIZE)
    (hvoid : (45 / 10 : ℝ) ^ 2
      ≤ ((pixelOf i : floatvector ℝ).x - 960) ^ 2 + ((pixelOf i : floatvector ℝ).y - 512) ^ 2)
    (hfar : SATELLITE_RADIUS ℝ ≤ distTo Real.sqrt (pixelOf i) ⟨⟨0, 0, 0⟩, pos, ⟨0, 0⟩⟩) :
    sequentialGraphicsEngine Real.sqrt [⟨⟨0, 0, 0⟩, pos, ⟨0, 0⟩⟩] old i
      = { old i with red := 0, green := 0, blue := 0 } := by
  have hout : ¬ insideBlackHole Real.sqrt (pixelOf i : floatvector ℝ) = true := by
    rw [insideBlackHole_iff]
    exact not_lt.mpr hvoid
  have hfar1 : ∀ s ∈ [(⟨⟨0, 0, 0⟩, pos, ⟨0, 0⟩⟩ : satellite ℝ)],
      SATELLITE_RADIUS ℝ ≤ distTo Real.sqrt (pixelOf i) s := by
    intro s hs
    rw [List.mem_singleton] at hs
    rw [hs]
    exact hfar
  obtain ⟨a, s, b, hsplit, _, _, hc, _, _⟩ :=
    renderColorAt_far [(⟨⟨0, 0, 0⟩, pos, ⟨0, 0⟩⟩ : satellite ℝ)] (pixelOf i) hfar1 (by simp)
  have hs : s ∈ [(⟨⟨0, 0, 0⟩, pos, ⟨0, 0⟩⟩ : satellite ℝ)] := by
    rw [hsplit]
    simp
  rw [List.mem_singleton] at hs
  have hzero : toUInt8 ((0 : ℝ) * 255) = 0 := by
    rw [toUInt8_of_range _ (by norm_num) (by norm_num)]
    simp
  have hblend : blendFormula Real.sqrt (pixelOf i) [(⟨⟨0, 0, 0⟩, pos, ⟨0, 0⟩⟩ : satellite ℝ)]
      (⟨0, 0, 0⟩ : color_f32 ℝ) = ⟨0, 0, 0⟩ := by
    simp [blendFormula]
  rw [hs] at hc
  simp only [sequentialGraphicsEngine, if_pos hi, sequentialPixel, if_neg hout, hc, hblend, hzero]

/-- Counterexample to C14 as stated: frame 0, one black satellite at the
origin, and two parallel integrators started from this same state: the first
leaves the satellite where it is, the second moves it to `(100, 0)`.  The
reference integrator's result (`backupSatelites`) is the same in both runs, yet
the reference pixel `(0, 0)` is white in the first run and black in the
second. -/
theorem C14_parallel_output_counterexample :
    (computeWith (fun _ _ s => s) (sequentialPhysicsEngine Real.sqrt) Real.sqrt
        (fun _ _ _ p => p) (0, 0)
        ⟨0, 0, 0, [⟨⟨0, 0, 0⟩, ⟨0, 0⟩, ⟨0, 0⟩⟩], [], fun _ => ⟨0, 0, 0, 0⟩,
          fun _ => ⟨0, 0, 0, 0⟩, ⟨fun _ => ⟨0, 0, 0, 0⟩, [], [], [], [], [], []⟩⟩).1.correctPixels 0
      = ⟨255, 255, 255, 0⟩
    ∧ (computeWith (fun _ _ _ => [⟨⟨0, 0, 0⟩, ⟨100, 0⟩, ⟨0, 0⟩⟩])
        (sequentialPhysicsEngine Real.sqrt) Real.sqrt (fun _ _ _ p => p) (0, 0)
        ⟨0, 0, 0, [⟨⟨0, 0, 0⟩, ⟨0, 0⟩, ⟨0, 0⟩⟩], [], fun _ => ⟨0, 0, 0, 0⟩,
          fun _ => ⟨0, 0, 0, 0⟩, ⟨fun _ => ⟨0, 0, 0, 0⟩, [], [], [], [], [], []⟩⟩).1.correctPixels 0
      = ⟨0, 0, 0, 0⟩
    ∧ (computeWith (fun _ _ s => s) (sequentialPhysicsEngine Real.sqrt) Real.sqrt
        (fun _ _ _ p => p) (0, 0)
        ⟨0, 0, 0, [⟨⟨0, 0, 0⟩, ⟨0, 0⟩, ⟨0, 0⟩⟩], [], fun _ => ⟨0, 0, 0, 0⟩,
          fun _ => ⟨0, 0, 0, 0⟩, ⟨fun _ => ⟨0, 0, 0, 0⟩, [], [], [], [], [], []⟩⟩).1.backupSatelites
      = (computeWith (fun _ _ _ => [⟨⟨0, 0, 0⟩, ⟨100, 0⟩, ⟨0, 0⟩⟩])
        (sequentialPhysicsEngine Real.sqrt) Real.sqrt (fun _ _ _ p => p) (0, 0)
        ⟨0, 0, 0, [⟨⟨0, 0, 0⟩, ⟨0, 0⟩, ⟨0, 0⟩⟩], [], fun _ => ⟨0, 0, 0, 0⟩,
          fun _ => ⟨0, 0, 0, 0⟩,
          ⟨fun _ => ⟨0, 0, 0, 0⟩, [], [], [], [], [], []⟩⟩).1.backupSatelites := by
  have hi : 0 < SIZE := by decide
  have hvoid : (45 / 10 : ℝ) ^ 2
      ≤ ((pixelOf 0 : floatvector ℝ).x - 960) ^ 2 + ((pixelOf 0 : floatvector ℝ).y - 512) ^ 2 := by
    norm_num [pixelOf, WINDOW_WIDTH]
  have hv : (⟨0, 0, 0, [⟨⟨0, 0, 0⟩, ⟨0, 0⟩, ⟨0, 0⟩⟩], [], fun _ => ⟨0, 0, 0, 0⟩,
      fun _ => ⟨0, 0, 0, 0⟩, ⟨fun _ => ⟨0, 0, 0, 0⟩, [], [], [], [], [], []⟩⟩ : World ℝ).frameNumber
      < 2 := by decide
  have hA := computeWith_validation (fun _ _ s => s) (sequentialPhysicsEngine Real.sqrt)
    Real.sqrt (fun _ _ _ p => p) (0, 0) _ hv
  have hB := computeWith_validation (fun _ _ _ => [⟨⟨0, 0, 0⟩, ⟨100, 0⟩, ⟨0, 0⟩⟩])
    (sequentialPhysicsEngine Real.sqrt) Real.sqrt (fun _ _ _ p => p) (0, 0) _ hv
  refine ⟨?_, ?_, ?_⟩
  · rw [hA.1]
    exact sequentialGraphicsEngine_hit [] _ [] (fun _ => ⟨0, 0, 0, 0⟩) 0 hi hvoid
      (by intro t ht; cases ht)
      (by norm_num [distTo, pixelOf, WINDOW_WIDTH, SATELLITE_RADIUS])
  · rw [hB.1]
    exact sequentialGraphicsEngine_black_far ⟨100, 0⟩ (fun _ => ⟨0, 0, 0, 0⟩) 0 hi hvoid
      (by
        apply Real.le_sqrt_of_sq_le
        norm_num [SATELLITE_RADIUS, pixelOf, WINDOW_WIDTH])
  · rw [hA.2.2.1, hB.2.2.1]

end SatSim
